import Mathlib

/-!
# terraform-provider-pfsense: retry executor, client constructor, entity resources

A shallow embedding of `pkg/pfsense_client/http.go` (`DoWithRetries`),
`pkg/pfsense_client/pfsense_client.go` (`New`), `internal/provider_util/configure.go`
(`AddError`) and the three entity resources of `internal/provider_service`
(DNS resolver config file, DNS resolver domain override, firewall IP alias),
with the properties the specification states about them.

Conventions of the embedding:

* Go's `int` is the 64-bit two's-complement integer.  Values are carried as
  `Int`; every addition the source performs on an `int` goes through `wrapInt`.
* A Go `error` is a value of `GoError`; a nil error is `none`.
* A Go pointer is an `Option`; dereferencing `none` is a run-time fault.
* The outside world (the HTTP transport, the request's context) is an oracle
  indexed by the number of `client.Do` calls made so far.
* For the resources, what lies outside the repository (the Terraform plugin
  framework, package `pfsense` with its client and its validating setters) is
  either modelled after its documented behaviour or taken as an input; a
  resource operation returns the response as it leaves it together with the
  list of the client calls it made.
-/

namespace pfsenseclient

/-! ## Go values -/

/-- Go error values.  `new` is `errors.New msg` (or any error identified by its
message), `sentinel` a package-level error variable identified by its qualified
name, `wrap` the value of `fmt.Errorf("%w" ++ suffix, inner)`. -/
inductive GoError where
  | new (msg : String)
  | sentinel (name : String)
  | wrap (inner : GoError) (suffix : String)
  deriving DecidableEq, Repr

/-- Smallest value of Go's 64-bit `int`. -/
def MinInt : Int := -9223372036854775808

/-- Largest value of Go's 64-bit `int`. -/
def MaxInt : Int := 9223372036854775807

/-- Two's-complement wrap-around of a mathematical integer into Go's `int`. -/
def wrapInt (z : Int) : Int :=
  (z + 9223372036854775808) % 18446744073709551616 - 9223372036854775808

/-- The value is representable as a Go `int`. -/
def IsGoInt (z : Int) : Prop := MinInt ≤ z ∧ z ≤ MaxInt

instance (z : Int) : Decidable (IsGoInt z) := by
  unfold IsGoInt
  exact inferInstance

/-! ## `net/http` as seen by `DoWithRetries` -/

/-- The part of `http.Response` the retry loop inspects (`StatusCode`), with the
body kept as payload so that distinct responses stay distinct. -/
structure Response where
  StatusCode : Int
  Body : String
  deriving DecidableEq, Repr

/-- What one call of `client.Do(req)` returns.  `http.Client.Do` returns a
non-nil response whenever the error is nil; with a non-nil error a response may
or may not come along (it does when `CheckRedirect` fails). -/
inductive DoResult where
  | ok (res : Response)
  | fail (res : Option Response) (err : GoError)
  deriving DecidableEq, Repr

/-- An `*http.Request`.  `ctxErr i` is what `req.Context().Err()` reports when it
is read right after the call of `client.Do` that was preceded by `i` calls. -/
structure Request where
  Method : String
  URL : String
  ctxErr : Nat → Option GoError

/-- An `*http.Client`: `Do i req` is the outcome of the call of `client.Do(req)`
that was preceded by `i` calls. -/
structure Client where
  Do : Nat → Request → DoResult

/-- What `DoWithRetries` returns, `(res, err)`, together with the final value of
its local variable `count`, the number of `client.Do` calls made. -/
structure Result where
  res : Option Response
  err : Option GoError
  count : Nat
  deriving DecidableEq, Repr

/-- The error built on line 81 of `http.go`. -/
def errExhausted : GoError := GoError.new "neither error nor response found"

/-- Value of `http.StatusNotImplemented`. -/
def StatusNotImplemented : Int := 501

/-! ## `DoWithRetries` -/

/-- The `for attempt := 0; attempt < maxAttempts+1; attempt++` loop of
`DoWithRetries` (lines 49-81), entered with the given values of `attempt` and
`count`, followed by the `return` of line 81.  The condition
`attempt < maxAttempts+1` is evaluated in `int` arithmetic on every round, and
so is `attempt++`.  In a round `client.Do` is called first and the context is
read second; a context error wins over whatever the call produced. -/
def retryLoop (client : Client) (req : Request) (maxAttempts : Int)
    (attempt : Int) (count : Nat) : Result :=
  if attempt < wrapInt (maxAttempts + 1) then
    match client.Do count req, req.ctxErr count with
    | _, some ctxErr => { res := none, err := some ctxErr, count := count + 1 }
    | DoResult.fail _ _, none =>
      retryLoop client req maxAttempts (wrapInt (attempt + 1)) (count + 1)
    | DoResult.ok res, none =>
      if res.StatusCode = 0 then
        retryLoop client req maxAttempts (wrapInt (attempt + 1)) (count + 1)
      else if res.StatusCode ≥ 500 ∧ res.StatusCode ≠ StatusNotImplemented then
        retryLoop client req maxAttempts (wrapInt (attempt + 1)) (count + 1)
      else
        { res := some res, err := none, count := count + 1 }
  else
    { res := none, err := some errExhausted, count := count }
termination_by (wrapInt (maxAttempts + 1) - attempt).toNat
decreasing_by
  all_goals simp only [wrapInt] at *
  all_goals omega

/-- `DoWithRetries(client, req, maxAttempts)` of `http.go`, lines 38-82. -/
def DoWithRetries (client : Client) (req : Request) (maxAttempts : Int) : Result :=
  let maxAttempts := if maxAttempts < 0 then 0 else maxAttempts
  retryLoop client req maxAttempts 0 0

/-- The outcomes of one `client.Do` call after which the loop body reaches a
`continue` (given that the context reported no error): a transport error, a
response with status 0, a response with status at least 500 other than 501. -/
def DoResult.retryable : DoResult → Bool
  | DoResult.fail _ _ => true
  | DoResult.ok res =>
    decide (res.StatusCode = 0 ∨ (res.StatusCode ≥ 500 ∧ res.StatusCode ≠ 501))

/-! ## `New` -/

/-- `time.Duration`, a count of nanoseconds. -/
abbrev Duration := Int

/-- `time.Second`. -/
def Second : Duration := 1000000000

/-- The two functions of Go's standard package `net/url` that `New` calls:
`url.Parse`, and `(*url.URL).String` on a non-nil receiver.  The package is not
part of the repository; it is a parameter of the embedding. -/
structure NetURL (URL : Type) where
  Parse : String → Except GoError URL
  Render : URL → String

/-- `Options` of `pfsense_client.go`, lines 77-85. -/
structure Options (URL : Type) where
  URL : Option URL
  Username : String
  Password : String
  TLSSkipVerify : Option Bool
  RetryMinWait : Option Duration
  RetryMaxWait : Option Duration
  MaxAttempts : Option Int

/-- `PfsenseClient` of `pfsense_client.go`: a pointer (never nil) to the options
`New` has completed. -/
structure PfsenseClient (URL : Type) where
  Options : Options URL

/-- How a Go call ends: with a run-time panic, or by returning. -/
inductive Outcome (α : Type) where
  | panic (msg : String)
  | ret (val : α)

def DefaultURL : String := "https://192.168.1.1"

def DefaultUsername : String := "admin"

def DefaultTLSSkipVerify : Bool := false

def DefaultRetryMinWait : Duration := Second

def DefaultRetryMaxWait : Duration := 5 * Second

def DefaultMaxAttempts : Int := 3

/-- The error variable `pfsense.ErrClientValidation` of the imported package. -/
def ErrClientValidation : GoError := GoError.sentinel "pfsense.ErrClientValidation"

/-- Message of the panic Go raises when a nil pointer is dereferenced. -/
def nilDereference : String := "runtime error: invalid memory address or nil pointer dereference"

/-- `errors.Is err target`: `target` occurs in the chain of errors `err` wraps. -/
def GoError.Is : GoError → GoError → Bool
  | GoError.wrap inner suffix, target =>
    decide (GoError.wrap inner suffix = target) || GoError.Is inner target
  | err, target => decide (err = target)

/-- `New(options)` of `pfsense_client.go`, lines 20-71.  `options.URL.String()`
on line 24 reads the fields of the URL behind the pointer `options.URL`; with a
nil pointer that read is a nil dereference. -/
def New {URL : Type} (url : NetURL URL) (options : Options URL) :
    Outcome (Option (PfsenseClient URL) × Option GoError) :=
  match options.URL with
  | none => Outcome.panic nilDereference
  | some u =>
    match (if url.Render u = "" then (url.Parse DefaultURL).map some
           else Except.ok options.URL) with
    | Except.error err => Outcome.ret (none, some err)
    | Except.ok parsed =>
      let options := { options with URL := parsed }
      let options :=
        if options.Username = "" then { options with Username := DefaultUsername }
        else options
      if options.Password = "" then
        Outcome.ret (none, some (GoError.wrap ErrClientValidation ", password required"))
      else
        let options :=
          if options.TLSSkipVerify = none then
            { options with TLSSkipVerify := some DefaultTLSSkipVerify }
          else options
        let options :=
          if options.RetryMinWait = none then
            { options with RetryMinWait := some DefaultRetryMinWait }
          else options
        let options :=
          if options.RetryMaxWait = none then
            { options with RetryMaxWait := some DefaultRetryMaxWait }
          else options
        let options :=
          if options.MaxAttempts = none then
            { options with MaxAttempts := some DefaultMaxAttempts }
          else options
        Outcome.ret (some { Options := options }, none)


/-! ## Sample inputs -/

/-- A request whose context is never cancelled. -/
def plainRequest : Request :=
  { Method := "GET", URL := "/index.php", ctxErr := fun _ => none }

/-- A request whose context is already cancelled at the first check. -/
def cancelledRequest : Request :=
  { Method := "GET", URL := "/index.php",
    ctxErr := fun _ => some (GoError.sentinel "context.Canceled") }

def busyResponse : Response := { StatusCode := 503, Body := "Service Unavailable" }

def notFoundResponse : Response := { StatusCode := 404, Body := "Not Found" }

def notImplementedResponse : Response := { StatusCode := 501, Body := "Not Implemented" }

/-- A backend that answers 503 to every call. -/
def busyClient : Client := { Do := fun _ _ => DoResult.ok busyResponse }

/-- A backend that cannot be reached. -/
def refusingClient : Client :=
  { Do := fun _ _ => DoResult.fail none (GoError.new "connection refused") }

/-- A backend that cannot be reached on the first call and answers 404 afterwards. -/
def flakyClient : Client :=
  { Do := fun i _ =>
      if i = 0 then DoResult.fail none (GoError.new "connection refused")
      else DoResult.ok notFoundResponse }

/-- A backend that answers 501 to every call. -/
def notImplementedClient : Client := { Do := fun _ _ => DoResult.ok notImplementedResponse }

/-- A stand-in for `net/url` in which a URL is the text it was parsed from. -/
def textURL : NetURL String :=
  { Parse := fun s => Except.ok s, Render := fun u => u }

/-- Options in which only the password is supplied, next to a URL that renders
as the empty string (the zero `url.URL`). -/
def passwordOnly : Options String :=
  { URL := some "", Username := "", Password := "hunter2", TLSSkipVerify := none,
    RetryMinWait := none, RetryMaxWait := none, MaxAttempts := none }

/-- Options without a password. -/
def noPassword : Options String :=
  { URL := some "https://fw.example", Username := "root", Password := "",
    TLSSkipVerify := some true, RetryMinWait := none, RetryMaxWait := none,
    MaxAttempts := some 7 }

/-- Options in which every field is supplied, some with zero or negative values. -/
def explicitOptions : Options String :=
  { URL := some "https://fw.example", Username := "root", Password := "hunter2",
    TLSSkipVerify := some true, RetryMinWait := some 0, RetryMaxWait := some (-5),
    MaxAttempts := some (-1) }

/-! ## terraform-plugin-framework: values, diagnostics, requests and responses

The framework is not part of the repository.  What the resources use of it is
modelled here: the three-state attribute values of package `types`, the
diagnostics collection of package `diag`, and the plan/state accessors, whose
results are inputs of the embedding. -/

/-- `types.String`: null (the zero value), unknown, or a known string. -/
inductive TypesString where
  | null
  | unknown
  | value (s : String)
  deriving DecidableEq, Repr

/-- `types.StringValue`. -/
def StringValue (s : String) : TypesString := TypesString.value s

/-- `(types.String).ValueString`: the known string, or "" for null and unknown. -/
def TypesString.ValueString : TypesString → String
  | TypesString.value s => s
  | _ => ""

/-- `(types.String).IsNull`. -/
def TypesString.IsNull : TypesString → Bool
  | TypesString.null => true
  | _ => false

/-- `types.Bool`: null (the zero value), unknown, or a known boolean. -/
inductive TypesBool where
  | null
  | unknown
  | value (b : Bool)
  deriving DecidableEq, Repr

/-- `types.BoolValue`. -/
def BoolValue (b : Bool) : TypesBool := TypesBool.value b

/-- `(types.Bool).ValueBool`: the known boolean, or false for null and unknown. -/
def TypesBool.ValueBool : TypesBool → Bool
  | TypesBool.value b => b
  | _ => false

/-- `types.List` with elements of type `α`: null, unknown, or a known list. -/
inductive TypesList (α : Type) where
  | null
  | unknown
  | value (elems : List α)
  deriving DecidableEq, Repr

/-- `diag.Severity`. -/
inductive Severity where
  | Error
  | Warning
  deriving DecidableEq, Repr

/-- A `diag.Diagnostic`; `Path` is set for attribute diagnostics. -/
structure Diagnostic where
  Severity : Severity
  Summary : String
  Detail : String
  Path : Option String
  deriving DecidableEq, Repr

/-- `diag.Diagnostics`, a slice of diagnostics. -/
abbrev Diagnostics := List Diagnostic

/-- `diag.NewErrorDiagnostic`. -/
def NewErrorDiagnostic (summary detail : String) : Diagnostic :=
  { Severity := Severity.Error, Summary := summary, Detail := detail, Path := none }

/-- `(*diag.Diagnostics).Append` of the framework, which "adds non-empty and
non-duplicate diagnostics to the collection": the given diagnostics are added
one by one, and one that the collection already contains (`Contains`, by
equality of severity, summary, detail and path) is skipped. -/
def Diagnostics.Append (diags : Diagnostics) (more : Diagnostics) : Diagnostics :=
  more.foldl (fun acc d => if d ∈ acc then acc else acc ++ [d]) diags

/-- `(diag.Diagnostics).HasError`. -/
def Diagnostics.HasError (diags : Diagnostics) : Bool :=
  diags.any (fun d => decide (d.Severity = Severity.Error))

/-- `(*diag.Diagnostics).AddError` of the framework, whose body is
`diags.Append(NewErrorDiagnostic(summary, detail))`. -/
def Diagnostics.AddError (diags : Diagnostics) (summary detail : String) : Diagnostics :=
  Diagnostics.Append diags [NewErrorDiagnostic summary detail]

/-- `(*diag.Diagnostics).AddAttributeError`. -/
def Diagnostics.AddAttributeError (diags : Diagnostics) (path summary detail : String) :
    Diagnostics :=
  Diagnostics.Append diags
    [{ Severity := Severity.Error, Summary := summary, Detail := detail, Path := some path }]

/-- What `req.Plan.Get(ctx, &data)` or `req.State.Get(ctx, &data)` yields: the
model it fills in and the diagnostics it returns. -/
structure GetResult (Model : Type) where
  data : Model
  diags : Diagnostics

/-- `resource.CreateRequest`. -/
structure CreateRequest (Model : Type) where
  Plan : GetResult Model

/-- `resource.ReadRequest`. -/
structure ReadRequest (Model : Type) where
  State : GetResult Model

/-- `resource.UpdateRequest`. -/
structure UpdateRequest (Model : Type) where
  Plan : GetResult Model

/-- `resource.DeleteRequest`. -/
structure DeleteRequest (Model : Type) where
  State : GetResult Model

/-- The part of `resource.CreateResponse`, `ReadResponse`, `UpdateResponse` and
`DeleteResponse` the resources write to: the diagnostics and the state (`none`
is the null state, which is also what `RemoveResource` leaves). -/
structure ResourceResponse (Model : Type) where
  Diagnostics : Diagnostics
  State : Option Model

/-- The diagnostics `resp.State.Set(ctx, &data)` returns for a given model; the
state is replaced only when they hold no error. -/
structure Framework (Model : Type) where
  SetDiagnostics : Model → Diagnostics

/-- `resp.State.Set(ctx, &data)` followed by the `Append` of its diagnostics. -/
def ResourceResponse.StateSet {Model : Type} (fw : Framework Model)
    (resp : ResourceResponse Model) (data : Model) : ResourceResponse Model :=
  { Diagnostics := Diagnostics.Append resp.Diagnostics (fw.SetDiagnostics data)
    State := if Diagnostics.HasError (fw.SetDiagnostics data) then resp.State else some data }

/-- `resp.Diagnostics.Append(diags...)`. -/
def ResourceResponse.AppendDiagnostics {Model : Type} (resp : ResourceResponse Model)
    (diags : List Diagnostic) : ResourceResponse Model :=
  { resp with Diagnostics := Diagnostics.Append resp.Diagnostics diags }

/-- `resp.State.RemoveResource(ctx)`. -/
def ResourceResponse.RemoveResource {Model : Type} (resp : ResourceResponse Model) :
    ResourceResponse Model :=
  { resp with State := none }

/-! ## `provider_util` -/

/-- `err.Error()`, the text `%v` prints for an error.  The text of a package-level
error variable is represented by its name. -/
def GoError.Error : GoError → String
  | GoError.new msg => msg
  | GoError.sentinel name => name
  | GoError.wrap inner suffix => GoError.Error inner ++ suffix

/-- `AddError(diag, summary, err)` of `provider_util/configure.go`, lines 53-59:
the diagnostics afterwards and the boolean returned. -/
def AddError (diag : Diagnostics) (summary : String) (err : Option GoError) :
    Diagnostics × Bool :=
  match err with
  | some e => (Diagnostics.AddError diag summary ("unexpected error: " ++ GoError.Error e), true)
  | none => (diag, false)

/-! ## Package `pfsense`: entities and client

The package is imported by the resources and is not among the sources.  Its
entities are records of the fields the resources read; its validating setters
and its client are inputs of the embedding. -/

/-- `pfsense.ConfigFile`. -/
structure pfsense.ConfigFile where
  Name : String
  Content : String
  deriving DecidableEq, Repr

/-- The address type of `pfsense.DomainOverride.IPAddress`, represented by the
text its `String` method yields. -/
structure pfsense.AddrPort where
  text : String
  deriving DecidableEq, Repr

/-- `pfsense.DomainOverride`. -/
structure pfsense.DomainOverride where
  Domain : String
  IPAddress : pfsense.AddrPort
  TLSQueries : Bool
  TLSHostname : String
  Description : String
  deriving DecidableEq, Repr

/-- `pfsense.FirewallIPAliasEntry`. -/
structure pfsense.FirewallIPAliasEntry where
  Address : String
  Description : String
  deriving DecidableEq, Repr

/-- `pfsense.FirewallIPAlias`; the field `Type` of the source is `Type_` here. -/
structure pfsense.FirewallIPAlias where
  Name : String
  Description : String
  Type_ : String
  Entries : List pfsense.FirewallIPAliasEntry
  deriving DecidableEq, Repr

/-- The methods of `*pfsense.Client` the resources call.  Each field is what the
backend answers to that call: a pair `(entity, err)` for the calls that return
an entity, an `err` for the others.  A resource operation makes each call at
most once, so an answer per call describes every behaviour of the backend. -/
structure pfsense.Client where
  CreateDNSResolverConfigFile : pfsense.ConfigFile → Option pfsense.ConfigFile × Option GoError
  GetDNSResolverConfigFile : String → Option pfsense.ConfigFile × Option GoError
  UpdateDNSResolverConfigFile : pfsense.ConfigFile → Option pfsense.ConfigFile × Option GoError
  DeleteDNSResolverConfigFile : String → Option GoError
  CreateDNSResolverDomainOverride :
    pfsense.DomainOverride → Option pfsense.DomainOverride × Option GoError
  GetDNSResolverDomainOverride : String → Option pfsense.DomainOverride × Option GoError
  UpdateDNSResolverDomainOverride :
    pfsense.DomainOverride → Option pfsense.DomainOverride × Option GoError
  DeleteDNSResolverDomainOverride : String → Option GoError
  CreateFirewallIPAlias : pfsense.FirewallIPAlias → Option pfsense.FirewallIPAlias × Option GoError
  GetFirewallIPAlias : String → Option pfsense.FirewallIPAlias × Option GoError
  UpdateFirewallIPAlias : pfsense.FirewallIPAlias → Option pfsense.FirewallIPAlias × Option GoError
  DeleteFirewallIPAlias : String → Option GoError
  ApplyDNSResolverChanges : Option GoError
  ReloadFirewallFilter : Option GoError

/-- A call of a method of `*pfsense.Client`, with its argument. -/
inductive ClientCall where
  | CreateDNSResolverConfigFile (configFile : pfsense.ConfigFile)
  | GetDNSResolverConfigFile (name : String)
  | UpdateDNSResolverConfigFile (configFile : pfsense.ConfigFile)
  | DeleteDNSResolverConfigFile (name : String)
  | CreateDNSResolverDomainOverride (domainOverride : pfsense.DomainOverride)
  | GetDNSResolverDomainOverride (domain : String)
  | UpdateDNSResolverDomainOverride (domainOverride : pfsense.DomainOverride)
  | DeleteDNSResolverDomainOverride (domain : String)
  | CreateFirewallIPAlias (ipAlias : pfsense.FirewallIPAlias)
  | GetFirewallIPAlias (name : String)
  | UpdateFirewallIPAlias (ipAlias : pfsense.FirewallIPAlias)
  | DeleteFirewallIPAlias (name : String)
  | ApplyDNSResolverChanges
  | ReloadFirewallFilter
  deriving DecidableEq, Repr

/-- How a resource operation ends: the response as the operation leaves it, the
client calls it made, in order, and the panic that stopped it, if any. -/
structure Run (Model : Type) where
  resp : ResourceResponse Model
  calls : List ClientCall
  panic : Option String

/-- The step `err = x.SetF(v); if err != nil { diags.AddAttributeError(path, summary, err.Error()) }`
of the `Value` functions, on the diagnostics. -/
def reportSetter (diags : Diagnostics) (err : Option GoError) (path summary : String) :
    Diagnostics :=
  match err with
  | some e => Diagnostics.AddAttributeError diags path summary (GoError.Error e)
  | none => diags

/-! ## `dns_resolver/resource_config_file.go` -/

/-- `ConfigFileResourceModel`. -/
structure ConfigFileResourceModel where
  Name : TypesString
  Content : TypesString
  Apply : TypesBool
  deriving DecidableEq, Repr

/-- `(*ConfigFileResourceModel).SetFromValue`, lines 36-41: the model afterwards
and the diagnostics returned (nil). -/
def ConfigFileResourceModel.SetFromValue (r : ConfigFileResourceModel)
    (configFile : pfsense.ConfigFile) : ConfigFileResourceModel × Diagnostics :=
  let r := { r with Name := StringValue configFile.Name }
  let r := { r with Content := StringValue configFile.Content }
  (r, [])

/-- The setters of `pfsense.ConfigFile` that `Value` calls: the entity afterwards
and the error returned. -/
structure pfsense.ConfigFileSetters where
  SetName : pfsense.ConfigFile → String → pfsense.ConfigFile × Option GoError
  SetContent : pfsense.ConfigFile → String → pfsense.ConfigFile × Option GoError

/-- `(ConfigFileResourceModel).Value`, lines 43-67.  The pointer it returns is
never nil. -/
def ConfigFileResourceModel.Value (set : pfsense.ConfigFileSetters)
    (r : ConfigFileResourceModel) : pfsense.ConfigFile × Diagnostics :=
  let configFile : pfsense.ConfigFile := { Name := "", Content := "" }
  let diags : Diagnostics := []
  let s := set.SetName configFile r.Name.ValueString
  let diags := reportSetter diags s.2 "name" "Name cannot be parsed"
  let s := set.SetContent s.1 r.Content.ValueString
  let diags := reportSetter diags s.2 "content" "Content cannot be parsed"
  (s.1, diags)

/-- `(*ConfigFileResource).Create`, lines 110-144. -/
def ConfigFileResource.Create (client : pfsense.Client) (set : pfsense.ConfigFileSetters)
    (fw : Framework ConfigFileResourceModel) (req : CreateRequest ConfigFileResourceModel)
    (resp : ResourceResponse ConfigFileResourceModel) : Run ConfigFileResourceModel :=
  let data := req.Plan.data
  let resp := resp.AppendDiagnostics req.Plan.diags
  if Diagnostics.HasError resp.Diagnostics then
    { resp := resp, calls := [], panic := none }
  else
    let configFileReq := (data.Value set).1
    let resp := resp.AppendDiagnostics (data.Value set).2
    if Diagnostics.HasError resp.Diagnostics then
      { resp := resp, calls := [], panic := none }
    else
      let calls := [ClientCall.CreateDNSResolverConfigFile configFileReq]
      let created := client.CreateDNSResolverConfigFile configFileReq
      let added := AddError resp.Diagnostics "Error creating config file" created.2
      let resp := { resp with Diagnostics := added.1 }
      if added.2 then
        { resp := resp, calls := calls, panic := none }
      else
        match created.1 with
        | none => { resp := resp, calls := calls, panic := some nilDereference }
        | some configFile =>
          let resp := resp.AppendDiagnostics (data.SetFromValue configFile).2
          let data := (data.SetFromValue configFile).1
          if Diagnostics.HasError resp.Diagnostics then
            { resp := resp, calls := calls, panic := none }
          else
            let resp := resp.StateSet fw data
            if data.Apply.ValueBool then
              let calls := calls ++ [ClientCall.ApplyDNSResolverChanges]
              let added :=
                AddError resp.Diagnostics "Error applying config file"
                  client.ApplyDNSResolverChanges
              { resp := { resp with Diagnostics := added.1 }, calls := calls, panic := none }
            else
              { resp := resp, calls := calls, panic := none }

/-- `(*ConfigFileResource).Read`, lines 146-167. -/
def ConfigFileResource.Read (client : pfsense.Client)
    (fw : Framework ConfigFileResourceModel) (req : ReadRequest ConfigFileResourceModel)
    (resp : ResourceResponse ConfigFileResourceModel) : Run ConfigFileResourceModel :=
  let data := req.State.data
  let resp := resp.AppendDiagnostics req.State.diags
  if Diagnostics.HasError resp.Diagnostics then
    { resp := resp, calls := [], panic := none }
  else
    let calls := [ClientCall.GetDNSResolverConfigFile data.Name.ValueString]
    let got := client.GetDNSResolverConfigFile data.Name.ValueString
    let added := AddError resp.Diagnostics "Error reading config file" got.2
    let resp := { resp with Diagnostics := added.1 }
    if added.2 then
      { resp := resp, calls := calls, panic := none }
    else
      match got.1 with
      | none => { resp := resp, calls := calls, panic := some nilDereference }
      | some configFile =>
        let resp := resp.AppendDiagnostics (data.SetFromValue configFile).2
        let data := (data.SetFromValue configFile).1
        if Diagnostics.HasError resp.Diagnostics then
          { resp := resp, calls := calls, panic := none }
        else
          { resp := resp.StateSet fw data, calls := calls, panic := none }

/-- `(*ConfigFileResource).Update`, lines 169-207.  The second
`if resp.Diagnostics.HasError()` of lines 184-186 repeats the first and has no
effect. -/
def ConfigFileResource.Update (client : pfsense.Client) (set : pfsense.ConfigFileSetters)
    (fw : Framework ConfigFileResourceModel) (req : UpdateRequest ConfigFileResourceModel)
    (resp : ResourceResponse ConfigFileResourceModel) : Run ConfigFileResourceModel :=
  let data := req.Plan.data
  let resp := resp.AppendDiagnostics req.Plan.diags
  if Diagnostics.HasError resp.Diagnostics then
    { resp := resp, calls := [], panic := none }
  else
    let configFileReq := (data.Value set).1
    let resp := resp.AppendDiagnostics (data.Value set).2
    if Diagnostics.HasError resp.Diagnostics then
      { resp := resp, calls := [], panic := none }
    else if Diagnostics.HasError resp.Diagnostics then
      { resp := resp, calls := [], panic := none }
    else
      let calls := [ClientCall.UpdateDNSResolverConfigFile configFileReq]
      let updated := client.UpdateDNSResolverConfigFile configFileReq
      let added := AddError resp.Diagnostics "Error updating config file" updated.2
      let resp := { resp with Diagnostics := added.1 }
      if added.2 then
        { resp := resp, calls := calls, panic := none }
      else
        match updated.1 with
        | none => { resp := resp, calls := calls, panic := some nilDereference }
        | some configFile =>
          let resp := resp.AppendDiagnostics (data.SetFromValue configFile).2
          let data := (data.SetFromValue configFile).1
          if Diagnostics.HasError resp.Diagnostics then
            { resp := resp, calls := calls, panic := none }
          else
            let resp := resp.StateSet fw data
            if data.Apply.ValueBool then
              let calls := calls ++ [ClientCall.ApplyDNSResolverChanges]
              let added :=
                AddError resp.Diagnostics "Error applying config file"
                  client.ApplyDNSResolverChanges
              { resp := { resp with Diagnostics := added.1 }, calls := calls, panic := none }
            else
              { resp := resp, calls := calls, panic := none }

/-- `(*ConfigFileResource).Delete`, lines 209-230. -/
def ConfigFileResource.Delete (client : pfsense.Client)
    (req : DeleteRequest ConfigFileResourceModel)
    (resp : ResourceResponse ConfigFileResourceModel) : Run ConfigFileResourceModel :=
  let data := req.State.data
  let resp := resp.AppendDiagnostics req.State.diags
  if Diagnostics.HasError resp.Diagnostics then
    { resp := resp, calls := [], panic := none }
  else
    let calls := [ClientCall.DeleteDNSResolverConfigFile data.Name.ValueString]
    let added :=
      AddError resp.Diagnostics "Error deleting config file"
        (client.DeleteDNSResolverConfigFile data.Name.ValueString)
    let resp := { resp with Diagnostics := added.1 }
    if added.2 then
      { resp := resp, calls := calls, panic := none }
    else
      let resp := resp.RemoveResource
      if data.Apply.ValueBool then
        let calls := calls ++ [ClientCall.ApplyDNSResolverChanges]
        let added :=
          AddError resp.Diagnostics "Error applying config file" client.ApplyDNSResolverChanges
        { resp := { resp with Diagnostics := added.1 }, calls := calls, panic := none }
      else
        { resp := resp, calls := calls, panic := none }

/-! ## `dns_resolver/resource_domainoverride.go` -/

/-- `DomainOverrideResourceModel`. -/
structure DomainOverrideResourceModel where
  Domain : TypesString
  IPAddress : TypesString
  TLSHostname : TypesString
  Description : TypesString
  TLSQueries : TypesBool
  Apply : TypesBool
  deriving DecidableEq, Repr

/-- `(*DomainOverrideResourceModel).SetFromValue`, lines 39-53: the model
afterwards and the diagnostics returned (nil). -/
def DomainOverrideResourceModel.SetFromValue (r : DomainOverrideResourceModel)
    (domainOverride : pfsense.DomainOverride) : DomainOverrideResourceModel × Diagnostics :=
  let r := { r with Domain := StringValue domainOverride.Domain }
  let r := { r with IPAddress := StringValue domainOverride.IPAddress.text }
  let r := { r with TLSQueries := BoolValue domainOverride.TLSQueries }
  let r :=
    if domainOverride.TLSHostname ≠ "" then
      { r with TLSHostname := StringValue domainOverride.TLSHostname }
    else r
  let r :=
    if domainOverride.Description ≠ "" then
      { r with Description := StringValue domainOverride.Description }
    else r
  (r, [])

/-- The setters of `pfsense.DomainOverride` that `Value` calls: the entity
afterwards and the error returned. -/
structure pfsense.DomainOverrideSetters where
  SetDomain : pfsense.DomainOverride → String → pfsense.DomainOverride × Option GoError
  SetIPAddress : pfsense.DomainOverride → String → pfsense.DomainOverride × Option GoError
  SetTLSQueries : pfsense.DomainOverride → Bool → pfsense.DomainOverride × Option GoError
  SetTLSHostname : pfsense.DomainOverride → String → pfsense.DomainOverride × Option GoError
  SetDescription : pfsense.DomainOverride → String → pfsense.DomainOverride × Option GoError

/-- `(DomainOverrideResourceModel).Value`, lines 55-115.  The pointer it returns
is never nil. -/
def DomainOverrideResourceModel.Value (set : pfsense.DomainOverrideSetters)
    (r : DomainOverrideResourceModel) : pfsense.DomainOverride × Diagnostics :=
  let domainOverride : pfsense.DomainOverride :=
    { Domain := "", IPAddress := { text := "invalid AddrPort" }, TLSQueries := false,
      TLSHostname := "", Description := "" }
  let diags : Diagnostics := []
  let s := set.SetDomain domainOverride r.Domain.ValueString
  let diags := reportSetter diags s.2 "domain" "Domain cannot be parsed"
  let s := set.SetIPAddress s.1 r.IPAddress.ValueString
  let diags := reportSetter diags s.2 "ip_address" "IP address cannot be parsed"
  let s := set.SetTLSQueries s.1 r.TLSQueries.ValueBool
  let diags := reportSetter diags s.2 "tls_queries" "TLS Queries cannot be parsed"
  let s :=
    if r.TLSHostname.IsNull then (s.1, diags)
    else
      let t := set.SetTLSHostname s.1 r.TLSHostname.ValueString
      (t.1, reportSetter diags t.2 "tls_hostname" "TLS Hostname cannot be parsed")
  let s :=
    if r.Description.IsNull then s
    else
      let t := set.SetDescription s.1 r.Description.ValueString
      (t.1, reportSetter s.2 t.2 "description" "Description cannot be parsed")
  s

/-- `(*DomainOverrideResource).Create`, lines 173-207. -/
def DomainOverrideResource.Create (client : pfsense.Client) (set : pfsense.DomainOverrideSetters)
    (fw : Framework DomainOverrideResourceModel) (req : CreateRequest DomainOverrideResourceModel)
    (resp : ResourceResponse DomainOverrideResourceModel) : Run DomainOverrideResourceModel :=
  let data := req.Plan.data
  let resp := resp.AppendDiagnostics req.Plan.diags
  if Diagnostics.HasError resp.Diagnostics then
    { resp := resp, calls := [], panic := none }
  else
    let domainOverrideReq := (data.Value set).1
    let resp := resp.AppendDiagnostics (data.Value set).2
    if Diagnostics.HasError resp.Diagnostics then
      { resp := resp, calls := [], panic := none }
    else
      let calls := [ClientCall.CreateDNSResolverDomainOverride domainOverrideReq]
      let created := client.CreateDNSResolverDomainOverride domainOverrideReq
      let added := AddError resp.Diagnostics "Error creating domain override" created.2
      let resp := { resp with Diagnostics := added.1 }
      if added.2 then
        { resp := resp, calls := calls, panic := none }
      else
        match created.1 with
        | none => { resp := resp, calls := calls, panic := some nilDereference }
        | some domainOverride =>
          let resp := resp.AppendDiagnostics (data.SetFromValue domainOverride).2
          let data := (data.SetFromValue domainOverride).1
          if Diagnostics.HasError resp.Diagnostics then
            { resp := resp, calls := calls, panic := none }
          else
            let resp := resp.StateSet fw data
            if data.Apply.ValueBool then
              let calls := calls ++ [ClientCall.ApplyDNSResolverChanges]
              let added :=
                AddError resp.Diagnostics "Error applying domain override"
                  client.ApplyDNSResolverChanges
              { resp := { resp with Diagnostics := added.1 }, calls := calls, panic := none }
            else
              { resp := resp, calls := calls, panic := none }

/-- `(*DomainOverrideResource).Read`, lines 209-230. -/
def DomainOverrideResource.Read (client : pfsense.Client)
    (fw : Framework DomainOverrideResourceModel) (req : ReadRequest DomainOverrideResourceModel)
    (resp : ResourceResponse DomainOverrideResourceModel) : Run DomainOverrideResourceModel :=
  let data := req.State.data
  let resp := resp.AppendDiagnostics req.State.diags
  if Diagnostics.HasError resp.Diagnostics then
    { resp := resp, calls := [], panic := none }
  else
    let calls := [ClientCall.GetDNSResolverDomainOverride data.Domain.ValueString]
    let got := client.GetDNSResolverDomainOverride data.Domain.ValueString
    let added := AddError resp.Diagnostics "Error reading domain override" got.2
    let resp := { resp with Diagnostics := added.1 }
    if added.2 then
      { resp := resp, calls := calls, panic := none }
    else
      match got.1 with
      | none => { resp := resp, calls := calls, panic := some nilDereference }
      | some domainOverride =>
        let resp := resp.AppendDiagnostics (data.SetFromValue domainOverride).2
        let data := (data.SetFromValue domainOverride).1
        if Diagnostics.HasError resp.Diagnostics then
          { resp := resp, calls := calls, panic := none }
        else
          { resp := resp.StateSet fw data, calls := calls, panic := none }

/-- `(*DomainOverrideResource).Update`, lines 232-270.  The second
`if resp.Diagnostics.HasError()` of lines 247-249 repeats the first and has no
effect. -/
def DomainOverrideResource.Update (client : pfsense.Client) (set : pfsense.DomainOverrideSetters)
    (fw : Framework DomainOverrideResourceModel) (req : UpdateRequest DomainOverrideResourceModel)
    (resp : ResourceResponse DomainOverrideResourceModel) : Run DomainOverrideResourceModel :=
  let data := req.Plan.data
  let resp := resp.AppendDiagnostics req.Plan.diags
  if Diagnostics.HasError resp.Diagnostics then
    { resp := resp, calls := [], panic := none }
  else
    let domainOverrideReq := (data.Value set).1
    let resp := resp.AppendDiagnostics (data.Value set).2
    if Diagnostics.HasError resp.Diagnostics then
      { resp := resp, calls := [], panic := none }
    else if Diagnostics.HasError resp.Diagnostics then
      { resp := resp, calls := [], panic := none }
    else
      let calls := [ClientCall.UpdateDNSResolverDomainOverride domainOverrideReq]
      let updated := client.UpdateDNSResolverDomainOverride domainOverrideReq
      let added := AddError resp.Diagnostics "Error updating domain override" updated.2
      let resp := { resp with Diagnostics := added.1 }
      if added.2 then
        { resp := resp, calls := calls, panic := none }
      else
        match updated.1 with
        | none => { resp := resp, calls := calls, panic := some nilDereference }
        | some domainOverride =>
          let resp := resp.AppendDiagnostics (data.SetFromValue domainOverride).2
          let data := (data.SetFromValue domainOverride).1
          if Diagnostics.HasError resp.Diagnostics then
            { resp := resp, calls := calls, panic := none }
          else
            let resp := resp.StateSet fw data
            if data.Apply.ValueBool then
              let calls := calls ++ [ClientCall.ApplyDNSResolverChanges]
              let added :=
                AddError resp.Diagnostics "Error applying domain override"
                  client.ApplyDNSResolverChanges
              { resp := { resp with Diagnostics := added.1 }, calls := calls, panic := none }
            else
              { resp := resp, calls := calls, panic := none }

/-- `(*DomainOverrideResource).Delete`, lines 272-293. -/
def DomainOverrideResource.Delete (client : pfsense.Client)
    (req : DeleteRequest DomainOverrideResourceModel)
    (resp : ResourceResponse DomainOverrideResourceModel) : Run DomainOverrideResourceModel :=
  let data := req.State.data
  let resp := resp.AppendDiagnostics req.State.diags
  if Diagnostics.HasError resp.Diagnostics then
    { resp := resp, calls := [], panic := none }
  else
    let calls := [ClientCall.DeleteDNSResolverDomainOverride data.Domain.ValueString]
    let added :=
      AddError resp.Diagnostics "Error deleting domain override"
        (client.DeleteDNSResolverDomainOverride data.Domain.ValueString)
    let resp := { resp with Diagnostics := added.1 }
    if added.2 then
      { resp := resp, calls := calls, panic := none }
    else
      let resp := resp.RemoveResource
      if data.Apply.ValueBool then
        let calls := calls ++ [ClientCall.ApplyDNSResolverChanges]
        let added :=
          AddError resp.Diagnostics "Error applying domain override"
            client.ApplyDNSResolverChanges
        { resp := { resp with Diagnostics := added.1 }, calls := calls, panic := none }
      else
        { resp := resp, calls := calls, panic := none }

/-! ## `firewall/resource_ip_alias.go` -/

/-- `FirewallIPAliasEntryResourceModel`. -/
structure FirewallIPAliasEntryResourceModel where
  Address : TypesString
  Description : TypesString
  deriving DecidableEq, Repr

/-- `IPAliasResourceModel`; the field `Type` of the source is `Type_` here. -/
structure IPAliasResourceModel where
  Name : TypesString
  Description : TypesString
  Type_ : TypesString
  Apply : TypesBool
  Entries : TypesList FirewallIPAliasEntryResourceModel
  deriving DecidableEq, Repr

/-- Go's `append(s, x)` on a slice that is nil (`none`) or holds a list. -/
def sliceAppend {α : Type} : Option (List α) → α → Option (List α)
  | none, x => some [x]
  | some l, x => some (l ++ [x])

/-- `types.ListValueFrom(ctx, elemType, slice)` for a slice of models of the
element type: a nil slice becomes the null list, any other slice the known list
of its elements; the conversion of such elements reports no diagnostics. -/
def ListValueFrom {α : Type} : Option (List α) → TypesList α × Diagnostics
  | none => (TypesList.null, [])
  | some l => (TypesList.value l, [])

/-- The body of the loop of lines 64-74: the entry model built from one entry of
the entity. -/
def entryModelOf (entry : pfsense.FirewallIPAliasEntry) : FirewallIPAliasEntryResourceModel :=
  let entryModel : FirewallIPAliasEntryResourceModel :=
    { Address := TypesString.null, Description := TypesString.null }
  let entryModel := { entryModel with Address := StringValue entry.Address }
  if entry.Description ≠ "" then
    { entryModel with Description := StringValue entry.Description }
  else entryModel

/-- `(*IPAliasResourceModel).SetFromValue`, lines 52-78: the model afterwards and
the diagnostics returned, which are those of `types.ListValueFrom`. -/
def IPAliasResourceModel.SetFromValue (r : IPAliasResourceModel)
    (ipAlias : pfsense.FirewallIPAlias) : IPAliasResourceModel × Diagnostics :=
  let r := { r with Name := StringValue ipAlias.Name }
  let r :=
    if ipAlias.Description ≠ "" then
      { r with Description := StringValue ipAlias.Description }
    else r
  let r := { r with Type_ := StringValue ipAlias.Type_ }
  let entries : Option (List FirewallIPAliasEntryResourceModel) :=
    ipAlias.Entries.foldl (fun entries entry => sliceAppend entries (entryModelOf entry))
      (some [])
  let listed := ListValueFrom entries
  ({ r with Entries := listed.1 }, listed.2)

/-- What `Value` of the IP alias model calls outside the repository: the
framework's `(types.List).ElementsAs` (the slice of entry models it fills in and
its diagnostics) and the setters of `pfsense.FirewallIPAlias` and
`pfsense.FirewallIPAliasEntry` (the entity afterwards and the error returned). -/
structure IPAliasCollaborators where
  ElementsAs :
    TypesList FirewallIPAliasEntryResourceModel →
      List FirewallIPAliasEntryResourceModel × Diagnostics
  SetName : pfsense.FirewallIPAlias → String → pfsense.FirewallIPAlias × Option GoError
  SetDescription : pfsense.FirewallIPAlias → String → pfsense.FirewallIPAlias × Option GoError
  SetType : pfsense.FirewallIPAlias → String → pfsense.FirewallIPAlias × Option GoError
  EntrySetAddress :
    pfsense.FirewallIPAliasEntry → String → pfsense.FirewallIPAliasEntry × Option GoError
  EntrySetDescription :
    pfsense.FirewallIPAliasEntry → String → pfsense.FirewallIPAliasEntry × Option GoError

/-- `path.Root("entries").AtListIndex(i).AtName(name)`, as text. -/
def entryPath (i : Nat) (name : String) : String :=
  "entries[" ++ toString i ++ "]." ++ name

/-- The body of the loop of lines 123-149 of `Value`, on the pair of the entity
under construction and the diagnostics. -/
def IPAliasResourceModel.valueEntry (ext : IPAliasCollaborators)
    (s : pfsense.FirewallIPAlias × Diagnostics)
    (indexed : Nat × FirewallIPAliasEntryResourceModel) :
    pfsense.FirewallIPAlias × Diagnostics :=
  let entry : pfsense.FirewallIPAliasEntry := { Address := "", Description := "" }
  let a := ext.EntrySetAddress entry indexed.2.Address.ValueString
  let diags :=
    reportSetter s.2 a.2 (entryPath indexed.1 "address") "Entry address cannot be parsed"
  let d :=
    if indexed.2.Description.IsNull then (a.1, diags)
    else
      let t := ext.EntrySetDescription a.1 indexed.2.Description.ValueString
      (t.1, reportSetter diags t.2 (entryPath indexed.1 "description")
        "Entry description cannot be parsed")
  ({ s.1 with Entries := s.1.Entries ++ [d.1] }, d.2)

/-- `(IPAliasResourceModel).Value`, lines 80-152.  The pointer it returns is nil
(`none`) only on the early return of line 88. -/
def IPAliasResourceModel.Value (ext : IPAliasCollaborators) (r : IPAliasResourceModel) :
    Option pfsense.FirewallIPAlias × Diagnostics :=
  let ipAlias : pfsense.FirewallIPAlias :=
    { Name := "", Description := "", Type_ := "", Entries := [] }
  let elems := ext.ElementsAs r.Entries
  let diags := elems.2
  if Diagnostics.HasError diags then (none, diags)
  else
    let s := ext.SetName ipAlias r.Name.ValueString
    let diags := reportSetter diags s.2 "name" "Name cannot be parsed"
    let s :=
      if r.Description.IsNull then (s.1, diags)
      else
        let t := ext.SetDescription s.1 r.Description.ValueString
        (t.1, reportSetter diags t.2 "description" "Description cannot be parsed")
    let t := ext.SetType s.1 r.Type_.ValueString
    let s := (t.1, reportSetter s.2 t.2 "type" "Type cannot be parsed")
    let s := elems.1.enum.foldl (IPAliasResourceModel.valueEntry ext) s
    (some s.1, s.2)

/-- `(*IPAliasResource).Create`, lines 223-257.  `*ipAliasReq` on line 238
dereferences the pointer `Value` returned. -/
def IPAliasResource.Create (client : pfsense.Client) (ext : IPAliasCollaborators)
    (fw : Framework IPAliasResourceModel) (req : CreateRequest IPAliasResourceModel)
    (resp : ResourceResponse IPAliasResourceModel) : Run IPAliasResourceModel :=
  let data := req.Plan.data
  let resp := resp.AppendDiagnostics req.Plan.diags
  if Diagnostics.HasError resp.Diagnostics then
    { resp := resp, calls := [], panic := none }
  else
    let resp := resp.AppendDiagnostics (data.Value ext).2
    if Diagnostics.HasError resp.Diagnostics then
      { resp := resp, calls := [], panic := none }
    else
      match (data.Value ext).1 with
      | none => { resp := resp, calls := [], panic := some nilDereference }
      | some ipAliasReq =>
        let calls := [ClientCall.CreateFirewallIPAlias ipAliasReq]
        let created := client.CreateFirewallIPAlias ipAliasReq
        let added := AddError resp.Diagnostics "Error creating IP alias" created.2
        let resp := { resp with Diagnostics := added.1 }
        if added.2 then
          { resp := resp, calls := calls, panic := none }
        else
          match created.1 with
          | none => { resp := resp, calls := calls, panic := some nilDereference }
          | some ipAlias =>
            let resp := resp.AppendDiagnostics (data.SetFromValue ipAlias).2
            let data := (data.SetFromValue ipAlias).1
            if Diagnostics.HasError resp.Diagnostics then
              { resp := resp, calls := calls, panic := none }
            else
              let resp := resp.StateSet fw data
              if data.Apply.ValueBool then
                let calls := calls ++ [ClientCall.ReloadFirewallFilter]
                let added :=
                  AddError resp.Diagnostics "Error applying IP alias" client.ReloadFirewallFilter
                { resp := { resp with Diagnostics := added.1 }, calls := calls, panic := none }
              else
                { resp := resp, calls := calls, panic := none }

/-- `(*IPAliasResource).Read`, lines 259-280. -/
def IPAliasResource.Read (client : pfsense.Client)
    (fw : Framework IPAliasResourceModel) (req : ReadRequest IPAliasResourceModel)
    (resp : ResourceResponse IPAliasResourceModel) : Run IPAliasResourceModel :=
  let data := req.State.data
  let resp := resp.AppendDiagnostics req.State.diags
  if Diagnostics.HasError resp.Diagnostics then
    { resp := resp, calls := [], panic := none }
  else
    let calls := [ClientCall.GetFirewallIPAlias data.Name.ValueString]
    let got := client.GetFirewallIPAlias data.Name.ValueString
    let added := AddError resp.Diagnostics "Error reading IP alias" got.2
    let resp := { resp with Diagnostics := added.1 }
    if added.2 then
      { resp := resp, calls := calls, panic := none }
    else
      match got.1 with
      | none => { resp := resp, calls := calls, panic := some nilDereference }
      | some ipAlias =>
        let resp := resp.AppendDiagnostics (data.SetFromValue ipAlias).2
        let data := (data.SetFromValue ipAlias).1
        if Diagnostics.HasError resp.Diagnostics then
          { resp := resp, calls := calls, panic := none }
        else
          { resp := resp.StateSet fw data, calls := calls, panic := none }

/-- `(*IPAliasResource).Update`, lines 282-320.  The second
`if resp.Diagnostics.HasError()` of lines 297-299 repeats the first and has no
effect. -/
def IPAliasResource.Update (client : pfsense.Client) (ext : IPAliasCollaborators)
    (fw : Framework IPAliasResourceModel) (req : UpdateRequest IPAliasResourceModel)
    (resp : ResourceResponse IPAliasResourceModel) : Run IPAliasResourceModel :=
  let data := req.Plan.data
  let resp := resp.AppendDiagnostics req.Plan.diags
  if Diagnostics.HasError resp.Diagnostics then
    { resp := resp, calls := [], panic := none }
  else
    let resp := resp.AppendDiagnostics (data.Value ext).2
    if Diagnostics.HasError resp.Diagnostics then
      { resp := resp, calls := [], panic := none }
    else if Diagnostics.HasError resp.Diagnostics then
      { resp := resp, calls := [], panic := none }
    else
      match (data.Value ext).1 with
      | none => { resp := resp, calls := [], panic := some nilDereference }
      | some ipAliasReq =>
        let calls := [ClientCall.UpdateFirewallIPAlias ipAliasReq]
        let updated := client.UpdateFirewallIPAlias ipAliasReq
        let added := AddError resp.Diagnostics "Error updating IP alias" updated.2
        let resp := { resp with Diagnostics := added.1 }
        if added.2 then
          { resp := resp, calls := calls, panic := none }
        else
          match updated.1 with
          | none => { resp := resp, calls := calls, panic := some nilDereference }
          | some ipAlias =>
            let resp := resp.AppendDiagnostics (data.SetFromValue ipAlias).2
            let data := (data.SetFromValue ipAlias).1
            if Diagnostics.HasError resp.Diagnostics then
              { resp := resp, calls := calls, panic := none }
            else
              let resp := resp.StateSet fw data
              if data.Apply.ValueBool then
                let calls := calls ++ [ClientCall.ReloadFirewallFilter]
                let added :=
                  AddError resp.Diagnostics "Error applying IP alias" client.ReloadFirewallFilter
                { resp := { resp with Diagnostics := added.1 }, calls := calls, panic := none }
              else
                { resp := resp, calls := calls, panic := none }

/-- `(*IPAliasResource).Delete`, lines 322-343. -/
def IPAliasResource.Delete (client : pfsense.Client)
    (req : DeleteRequest IPAliasResourceModel)
    (resp : ResourceResponse IPAliasResourceModel) : Run IPAliasResourceModel :=
  let data := req.State.data
  let resp := resp.AppendDiagnostics req.State.diags
  if Diagnostics.HasError resp.Diagnostics then
    { resp := resp, calls := [], panic := none }
  else
    let calls := [ClientCall.DeleteFirewallIPAlias data.Name.ValueString]
    let added :=
      AddError resp.Diagnostics "Error deleting IP alias"
        (client.DeleteFirewallIPAlias data.Name.ValueString)
    let resp := { resp with Diagnostics := added.1 }
    if added.2 then
      { resp := resp, calls := calls, panic := none }
    else
      let resp := resp.RemoveResource
      if data.Apply.ValueBool then
        let calls := calls ++ [ClientCall.ReloadFirewallFilter]
        let added :=
          AddError resp.Diagnostics "Error applying IP alias" client.ReloadFirewallFilter
        { resp := { resp with Diagnostics := added.1 }, calls := calls, panic := none }
      else
        { resp := resp, calls := calls, panic := none }

/-! ## The steps the resource operations share

The nine mutating operations and the three reads are written out one by one
above, as they are in the source.  From the client call on they follow one of
three patterns, which are stated once here so that the operations can be
reasoned about uniformly. -/

/-- The last step of Create, Update and Delete:
`if data.Apply.ValueBool() { err = apply(ctx); if AddError(...) { return } }`. -/
def applyStep {Model : Type} (resp : ResourceResponse Model) (calls : List ClientCall)
    (flag : Bool) (apply : ClientCall) (applied : Option GoError) (summary : String) :
    Run Model :=
  if flag then
    { resp := { resp with Diagnostics := (AddError resp.Diagnostics summary applied).1 },
      calls := calls ++ [apply], panic := none }
  else
    { resp := resp, calls := calls, panic := none }

/-- Create and Update from the client call on: report the error of the call, or
take the entity into the model, write the state and apply. -/
def writeSteps {Model Entity : Type} (fw : Framework Model) (resp : ResourceResponse Model)
    (data : Model) (mutation : ClientCall) (result : Option Entity × Option GoError)
    (summary : String) (setFromValue : Model → Entity → Model × Diagnostics)
    (flag : Model → Bool) (apply : ClientCall) (applied : Option GoError)
    (applySummary : String) : Run Model :=
  if (AddError resp.Diagnostics summary result.2).2 then
    { resp := { resp with Diagnostics := (AddError resp.Diagnostics summary result.2).1 },
      calls := [mutation], panic := none }
  else
    match result.1 with
    | none =>
      { resp := { resp with Diagnostics := (AddError resp.Diagnostics summary result.2).1 },
        calls := [mutation], panic := some nilDereference }
    | some entity =>
      if Diagnostics.HasError
          (Diagnostics.Append (AddError resp.Diagnostics summary result.2).1
            (setFromValue data entity).2) then
        { resp :=
            { resp with
              Diagnostics :=
                Diagnostics.Append (AddError resp.Diagnostics summary result.2).1
                  (setFromValue data entity).2 },
          calls := [mutation], panic := none }
      else
        applyStep
          (ResourceResponse.StateSet fw
            { resp with
              Diagnostics :=
                Diagnostics.Append (AddError resp.Diagnostics summary result.2).1
                  (setFromValue data entity).2 }
            (setFromValue data entity).1)
          [mutation] (flag (setFromValue data entity).1) apply applied applySummary

/-- Read from the client call on: report the error of the call, or take the
entity into the model and write the state. -/
def readSteps {Model Entity : Type} (fw : Framework Model) (resp : ResourceResponse Model)
    (data : Model) (get : ClientCall) (result : Option Entity × Option GoError)
    (summary : String) (setFromValue : Model → Entity → Model × Diagnostics) : Run Model :=
  if (AddError resp.Diagnostics summary result.2).2 then
    { resp := { resp with Diagnostics := (AddError resp.Diagnostics summary result.2).1 },
      calls := [get], panic := none }
  else
    match result.1 with
    | none =>
      { resp := { resp with Diagnostics := (AddError resp.Diagnostics summary result.2).1 },
        calls := [get], panic := some nilDereference }
    | some entity =>
      if Diagnostics.HasError
          (Diagnostics.Append (AddError resp.Diagnostics summary result.2).1
            (setFromValue data entity).2) then
        { resp :=
            { resp with
              Diagnostics :=
                Diagnostics.Append (AddError resp.Diagnostics summary result.2).1
                  (setFromValue data entity).2 },
          calls := [get], panic := none }
      else
        { resp :=
            ResourceResponse.StateSet fw
              { resp with
                Diagnostics :=
                  Diagnostics.Append (AddError resp.Diagnostics summary result.2).1
                    (setFromValue data entity).2 }
              (setFromValue data entity).1,
          calls := [get], panic := none }

/-- Delete from the client call on: report the error of the call, or remove the
resource from the state and apply. -/
def deleteSteps {Model : Type} (resp : ResourceResponse Model) (mutation : ClientCall)
    (result : Option GoError) (summary : String) (flag : Bool) (apply : ClientCall)
    (applied : Option GoError) (applySummary : String) : Run Model :=
  if (AddError resp.Diagnostics summary result).2 then
    { resp := { resp with Diagnostics := (AddError resp.Diagnostics summary result).1 },
      calls := [mutation], panic := none }
  else
    applyStep
      (ResourceResponse.RemoveResource
        { resp with Diagnostics := (AddError resp.Diagnostics summary result).1 })
      [mutation] flag apply applied applySummary

/-! ## Properties of a run, and sample inputs of the resources -/

/-- The error diagnostic `AddError` builds from a summary and a non-nil error. -/
def errorDiagnostic (summary : String) (err : GoError) : Diagnostic :=
  NewErrorDiagnostic summary ("unexpected error: " ++ GoError.Error err)

/-- The diagnostics of severity error, in order. -/
def Diagnostics.errors (diags : Diagnostics) : List Diagnostic :=
  diags.filter (fun d => decide (d.Severity = Severity.Error))

/-- A run in which a client call failed and nothing else happened: that call is
the only one made, the state of the response is the one the operation was
entered with, and the diagnostics hold exactly one error, the one `AddError`
builds from the summary and the error of the call. -/
def Run.ReportsFailedCall {Model : Type} (run : Run Model) (entered : ResourceResponse Model)
    (call : ClientCall) (summary : String) (err : GoError) : Prop :=
  run.calls = [call] ∧ run.resp.State = entered.State ∧
    Diagnostics.errors run.resp.Diagnostics = [errorDiagnostic summary err]

/-- A run in which the mutation went through and the apply failed: the state of
the response is the committed one, and the diagnostics hold exactly one error,
the one `AddError` builds from the apply summary and the error of the apply
call. -/
def Run.ReportsFailedApply {Model : Type} (run : Run Model) (committed : Option Model)
    (applySummary : String) (err : GoError) : Prop :=
  run.resp.State = committed ∧
    Diagnostics.errors run.resp.Diagnostics = [errorDiagnostic applySummary err]

/-- A domain override model as Terraform holds it for a resource whose
description is set. -/
def describedOverride : DomainOverrideResourceModel :=
  { Domain := StringValue "internal.example", IPAddress := StringValue "10.0.0.53",
    TLSHostname := TypesString.null, Description := StringValue "old note",
    TLSQueries := BoolValue false, Apply := BoolValue true }

/-- The same model without a description. -/
def plainOverride : DomainOverrideResourceModel :=
  { describedOverride with Description := TypesString.null }

/-- The domain override as the backend holds it, with no description and no TLS
hostname. -/
def backendOverride : pfsense.DomainOverride :=
  { Domain := "internal.example", IPAddress := { text := "10.0.0.53" }, TLSQueries := false,
    TLSHostname := "", Description := "" }

/-- The error of a backend that does not hold the entity asked for. -/
def errNotFound : GoError := GoError.new "not found"

/-- A backend that accepts every mutation and returns the entity as sent, holds
no entity to read, and applies without error. -/
def acceptingBackend : pfsense.Client :=
  { CreateDNSResolverConfigFile := fun c => (some c, none)
    GetDNSResolverConfigFile := fun _ => (none, some errNotFound)
    UpdateDNSResolverConfigFile := fun c => (some c, none)
    DeleteDNSResolverConfigFile := fun _ => none
    CreateDNSResolverDomainOverride := fun d => (some d, none)
    GetDNSResolverDomainOverride := fun _ => (none, some errNotFound)
    UpdateDNSResolverDomainOverride := fun d => (some d, none)
    DeleteDNSResolverDomainOverride := fun _ => none
    CreateFirewallIPAlias := fun a => (some a, none)
    GetFirewallIPAlias := fun _ => (none, some errNotFound)
    UpdateFirewallIPAlias := fun a => (some a, none)
    DeleteFirewallIPAlias := fun _ => none
    ApplyDNSResolverChanges := none
    ReloadFirewallFilter := none }

/-- A backend that rejects the creation of a config file. -/
def rejectingBackend : pfsense.Client :=
  { acceptingBackend with
    CreateDNSResolverConfigFile := fun _ => (none, some (GoError.new "config file exists")) }

/-- A backend that accepts every mutation and fails to apply. -/
def unappliedBackend : pfsense.Client :=
  { acceptingBackend with
    ApplyDNSResolverChanges := some (GoError.new "resolver reload failed")
    ReloadFirewallFilter := some (GoError.new "filter reload failed") }

/-- A framework whose `State.Set` stores every model without diagnostics. -/
def storingFramework (Model : Type) : Framework Model :=
  { SetDiagnostics := fun _ => [] }

/-- A response as the framework hands it to Create: no diagnostics, null state. -/
def freshResponse (Model : Type) : ResourceResponse Model :=
  { Diagnostics := [], State := none }

/-- Setters of `pfsense.ConfigFile` that accept every value. -/
def lenientConfigFileSetters : pfsense.ConfigFileSetters :=
  { SetName := fun c s => ({ c with Name := s }, none)
    SetContent := fun c s => ({ c with Content := s }, none) }

/-- Collaborators of the IP alias `Value` that accept every value; `ElementsAs`
yields the elements of a known list and nothing for a null one, and reports an
error for an unknown one. -/
def lenientIPAliasCollaborators : IPAliasCollaborators :=
  { ElementsAs := fun l =>
      match l with
      | TypesList.value elems => (elems, [])
      | TypesList.null => ([], [])
      | TypesList.unknown => ([], [NewErrorDiagnostic "Value Conversion Error" "unknown list"])
    SetName := fun a s => ({ a with Name := s }, none)
    SetDescription := fun a s => ({ a with Description := s }, none)
    SetType := fun a s => ({ a with Type_ := s }, none)
    EntrySetAddress := fun e s => ({ e with Address := s }, none)
    EntrySetDescription := fun e s => ({ e with Description := s }, none) }

/-- The plan for the config file "custom.conf", to be applied at once. -/
def customConf : ConfigFileResourceModel :=
  { Name := StringValue "custom.conf", Content := StringValue "server:\n verbosity: 1",
    Apply := BoolValue true }

/-- The plan for the IP alias "blocklist" of type "network" with no entries and
`apply = false`. -/
def blocklist : IPAliasResourceModel :=
  { Name := StringValue "blocklist", Description := TypesString.null,
    Type_ := StringValue "network", Apply := BoolValue false, Entries := TypesList.value [] }

/-- The state of the IP alias "blocklist" with `apply = true`. -/
def appliedBlocklist : IPAliasResourceModel :=
  { blocklist with Apply := BoolValue true }

/-- An IP alias as the backend holds it, with two entries, the second one
without description. -/
def officeAlias : pfsense.FirewallIPAlias :=
  { Name := "office", Description := "", Type_ := "host",
    Entries :=
      [{ Address := "192.0.2.10", Description := "printer" },
       { Address := "192.0.2.11", Description := "" }] }

/-- A run of Create or Update in which the mutation went through and the apply
failed afterwards: the client calls are the mutation followed by the apply; the
state of the response is the one `State.Set` left for the model `stored` (that
model when `State.Set` reported no error, the state the operation was entered
with otherwise); the error of the apply is among the diagnostics, and it is the
only error there when `State.Set` reported none. -/
def Run.AppliedWithError {Model : Type} (run : Run Model) (fw : Framework Model)
    (entered : ResourceResponse Model) (stored : Model) (mutation apply : ClientCall)
    (applySummary : String) (err : GoError) : Prop :=
  run.calls = [mutation, apply] ∧
    run.resp.State =
      (if Diagnostics.HasError (fw.SetDiagnostics stored) then entered.State else some stored) ∧
    errorDiagnostic applySummary err ∈ run.resp.Diagnostics ∧
    (Diagnostics.HasError (fw.SetDiagnostics stored) = false →
      Diagnostics.errors run.resp.Diagnostics = [errorDiagnostic applySummary err])

/-- A framework whose `State.Set` reports an error for every model and so stores
none. -/
def refusingFramework (Model : Type) : Framework Model :=
  { SetDiagnostics := fun _ =>
      [NewErrorDiagnostic "Value Conversion Error" "the model cannot be stored"] }

/-! ## Basic facts about `int` arithmetic -/

theorem wrapInt_of_isGoInt {z : Int} (h : IsGoInt z) : wrapInt z = z := by
  unfold IsGoInt MinInt MaxInt at h
  unfold wrapInt
  omega

theorem wrapInt_le_MaxInt (z : Int) : wrapInt z ≤ MaxInt := by
  unfold wrapInt MaxInt
  omega

/-- The increment `attempt++` never overflows inside the loop: the loop
condition bounds `attempt` by a representable value. -/
theorem wrapInt_succ_of_lt {a b : Int} (h0 : 0 ≤ a) (h : a < wrapInt b) :
    wrapInt (a + 1) = a + 1 := by
  have hb := wrapInt_le_MaxInt b
  apply wrapInt_of_isGoInt
  unfold IsGoInt MinInt
  unfold MaxInt at hb
  unfold MaxInt
  omega

/-- The bound `maxAttempts+1` the loop condition computes, for a clamped
`maxAttempts` below the largest `int`. -/
theorem loopBound_of_lt_MaxInt {m : Int} (h0 : 0 ≤ m) (h : m < MaxInt) :
    wrapInt (m + 1) = m + 1 := by
  apply wrapInt_of_isGoInt
  unfold IsGoInt MinInt MaxInt
  unfold MaxInt at h
  omega

/-- At the largest `int` the bound `maxAttempts+1` wraps around to the smallest. -/
theorem loopBound_MaxInt : wrapInt (MaxInt + 1) = MinInt := by
  decide

/-! ## One round of the loop -/

theorem retryLoop_exit (client : Client) (req : Request) (m a : Int) (n : Nat)
    (h : ¬ a < wrapInt (m + 1)) :
    retryLoop client req m a n = { res := none, err := some errExhausted, count := n } := by
  rw [retryLoop, if_neg h]

theorem retryLoop_ctx (client : Client) (req : Request) (m a : Int) (n : Nat) (e : GoError)
    (h : a < wrapInt (m + 1)) (hc : req.ctxErr n = some e) :
    retryLoop client req m a n = { res := none, err := some e, count := n + 1 } := by
  rw [retryLoop, if_pos h, hc]
  cases client.Do n req <;> rfl

theorem retryLoop_continue (client : Client) (req : Request) (m a : Int) (n : Nat)
    (h : a < wrapInt (m + 1)) (hc : req.ctxErr n = none)
    (hr : (client.Do n req).retryable = true) :
    retryLoop client req m a n = retryLoop client req m (wrapInt (a + 1)) (n + 1) := by
  rw [retryLoop, if_pos h, hc]
  cases hd : client.Do n req with
  | fail r e => rfl
  | ok res =>
    rw [hd] at hr
    simp only [DoResult.retryable, decide_eq_true_eq] at hr
    simp only [StatusNotImplemented]
    split_ifs <;> first | rfl | omega

theorem retryLoop_return (client : Client) (req : Request) (m a : Int) (n : Nat)
    (res : Response) (h : a < wrapInt (m + 1)) (hc : req.ctxErr n = none)
    (hd : client.Do n req = DoResult.ok res) (hr : (DoResult.ok res).retryable = false) :
    retryLoop client req m a n = { res := some res, err := none, count := n + 1 } := by
  rw [retryLoop, if_pos h, hc, hd]
  simp only [DoResult.retryable, decide_eq_false_iff_not] at hr
  simp only [StatusNotImplemented]
  split_ifs <;> first | rfl | omega

/-- Every round of the loop that runs ends in one of three ways. -/
theorem retryLoop_round (client : Client) (req : Request) (m a : Int) (n : Nat)
    (h : a < wrapInt (m + 1)) :
    (∃ e, req.ctxErr n = some e ∧
        retryLoop client req m a n = { res := none, err := some e, count := n + 1 }) ∨
    (req.ctxErr n = none ∧ (client.Do n req).retryable = true ∧
        retryLoop client req m a n = retryLoop client req m (wrapInt (a + 1)) (n + 1)) ∨
    (∃ res, req.ctxErr n = none ∧ client.Do n req = DoResult.ok res ∧
        (DoResult.ok res).retryable = false ∧
        retryLoop client req m a n = { res := some res, err := none, count := n + 1 }) := by
  cases hc : req.ctxErr n with
  | some e => exact Or.inl ⟨e, rfl, retryLoop_ctx client req m a n e h hc⟩
  | none =>
    cases hr : (client.Do n req).retryable with
    | true => exact Or.inr (Or.inl ⟨rfl, rfl, retryLoop_continue client req m a n h hc hr⟩)
    | false =>
      cases hd : client.Do n req with
      | fail r e => rw [hd] at hr; simp [DoResult.retryable] at hr
      | ok res =>
        rw [hd] at hr
        exact Or.inr (Or.inr ⟨res, rfl, rfl, hr, retryLoop_return client req m a n res h hc hd hr⟩)


/-! ## Induction along the loop -/

/-- Induction principle of the loop: a property of the loop state holds for every
state if it holds for a state whenever, the loop condition being true, it holds
for the state of the next round. -/
theorem retryLoop_induction (m : Int) (P : Int → Nat → Prop)
    (step : ∀ a n, (a < wrapInt (m + 1) → ∀ n', P (wrapInt (a + 1)) n') → P a n) :
    ∀ a n, P a n := by
  have key : ∀ d : Nat, ∀ a : Int, (wrapInt (m + 1) - a).toNat = d → ∀ n, P a n := by
    intro d
    induction d using Nat.strong_induction_on with
    | _ d ih =>
      intro a hd n
      apply step
      intro hlt n'
      have hw := wrapInt_le_MaxInt (m + 1)
      refine ih (wrapInt (m + 1) - wrapInt (a + 1)).toNat ?_ (wrapInt (a + 1)) rfl n'
      rw [← hd]
      generalize wrapInt (m + 1) = b at hlt hw ⊢
      unfold MaxInt at hw
      unfold wrapInt
      omega
  intro a n
  exact key _ a rfl n

/-- The counter never decreases. -/
theorem retryLoop_count_ge (client : Client) (req : Request) (m : Int) :
    ∀ a n, n ≤ (retryLoop client req m a n).count := by
  apply retryLoop_induction m
  intro a n ih
  by_cases h : a < wrapInt (m + 1)
  · rcases retryLoop_round client req m a n h with ⟨e, _, hr⟩ | ⟨_, _, hr⟩ | ⟨res, _, _, _, hr⟩
    · rw [hr]; exact Nat.le_succ n
    · rw [hr]; exact Nat.le_of_succ_le (ih h (n + 1))
    · rw [hr]; exact Nat.le_succ n
  · rw [retryLoop_exit client req m a n h]

/-- A round that runs calls `client.Do`. -/
theorem retryLoop_count_pos (client : Client) (req : Request) (m a : Int) (n : Nat)
    (h : a < wrapInt (m + 1)) : n + 1 ≤ (retryLoop client req m a n).count := by
  rcases retryLoop_round client req m a n h with ⟨e, _, hr⟩ | ⟨_, _, hr⟩ | ⟨res, _, _, _, hr⟩
  · rw [hr]
  · rw [hr]; exact retryLoop_count_ge client req m _ _
  · rw [hr]

/-- The loop makes at most as many calls as there are values of `attempt` left
below the bound. -/
theorem retryLoop_count_le (client : Client) (req : Request) (m : Int) :
    ∀ a n, 0 ≤ a →
      (retryLoop client req m a n).count ≤ n + (wrapInt (m + 1) - a).toNat := by
  apply retryLoop_induction m
    (fun a n => 0 ≤ a →
      (retryLoop client req m a n).count ≤ n + (wrapInt (m + 1) - a).toNat)
  intro a n ih h0
  by_cases h : a < wrapInt (m + 1)
  · rcases retryLoop_round client req m a n h with ⟨e, _, hr⟩ | ⟨_, _, hr⟩ | ⟨res, _, _, _, hr⟩
    · rw [hr]; show n + 1 ≤ _; omega
    · rw [hr]
      have hs := wrapInt_succ_of_lt h0 h
      have := ih h (n + 1) (by rw [hs]; omega)
      rw [hs] at this ⊢
      omega
    · rw [hr]; show n + 1 ≤ _; omega
  · rw [retryLoop_exit client req m a n h]; show n ≤ _; omega

/-- When every round finds the context uncancelled and an outcome that leads to
`continue`, the loop runs through all remaining values of `attempt` and ends on
line 81. -/
theorem retryLoop_all_retryable (client : Client) (req : Request) (m : Int)
    (hc : ∀ i, req.ctxErr i = none) (hr : ∀ i, (client.Do i req).retryable = true) :
    ∀ a n, 0 ≤ a →
      retryLoop client req m a n =
        { res := none, err := some errExhausted,
          count := n + (wrapInt (m + 1) - a).toNat } := by
  apply retryLoop_induction m
    (fun a n => 0 ≤ a →
      retryLoop client req m a n =
        { res := none, err := some errExhausted,
          count := n + (wrapInt (m + 1) - a).toNat })
  intro a n ih h0
  by_cases h : a < wrapInt (m + 1)
  · rw [retryLoop_continue client req m a n h (hc n) (hr n)]
    have hs := wrapInt_succ_of_lt h0 h
    rw [ih h (n + 1) (by rw [hs]; omega), hs]
    congr 1
    omega
  · rw [retryLoop_exit client req m a n h]
    congr 1
    omega

/-- If the call number `k` is made and the context reports an error right after
it, the loop returns that error and `k` was the last call. -/
theorem retryLoop_ctx_at (client : Client) (req : Request) (m : Int) (k : Nat) (e : GoError)
    (hk : req.ctxErr k = some e) :
    ∀ a n, n ≤ k → k < (retryLoop client req m a n).count →
      retryLoop client req m a n = { res := none, err := some e, count := k + 1 } := by
  apply retryLoop_induction m
    (fun a n => n ≤ k → k < (retryLoop client req m a n).count →
      retryLoop client req m a n = { res := none, err := some e, count := k + 1 })
  intro a n ih hnk hlt
  by_cases h : a < wrapInt (m + 1)
  · rcases retryLoop_round client req m a n h with
      ⟨e', hc, hr⟩ | ⟨hc, _, hr⟩ | ⟨res, hc, _, _, hr⟩
    · rw [hr] at hlt ⊢
      have hkn : k = n := by
        have : k < n + 1 := hlt
        omega
      subst hkn
      rw [hk] at hc
      cases hc
      rfl
    · rw [hr] at hlt ⊢
      have hne : k ≠ n := by
        rintro rfl
        rw [hk] at hc
        cases hc
      exact ih h (n + 1) (by omega) hlt
    · rw [hr] at hlt
      have hkn : k = n := by
        have : k < n + 1 := hlt
        omega
      subst hkn
      rw [hk] at hc
      cases hc
  · rw [retryLoop_exit client req m a n h] at hlt
    have : k < n := hlt
    omega

/-- If the call number `k` is made, the context reports no error after it and
the call obtained a response that does not lead to `continue`, the loop returns
that response and `k` was the last call. -/
theorem retryLoop_return_at (client : Client) (req : Request) (m : Int) (k : Nat)
    (res : Response) (hk : req.ctxErr k = none) (hd : client.Do k req = DoResult.ok res)
    (hnr : (DoResult.ok res).retryable = false) :
    ∀ a n, n ≤ k → k < (retryLoop client req m a n).count →
      retryLoop client req m a n = { res := some res, err := none, count := k + 1 } := by
  apply retryLoop_induction m
    (fun a n => n ≤ k → k < (retryLoop client req m a n).count →
      retryLoop client req m a n = { res := some res, err := none, count := k + 1 })
  intro a n ih hnk hlt
  by_cases h : a < wrapInt (m + 1)
  · rcases retryLoop_round client req m a n h with
      ⟨e', hc, hr⟩ | ⟨hc, hry, hr⟩ | ⟨res', hc, hd', _, hr⟩
    · rw [hr] at hlt
      have hkn : k = n := by
        have : k < n + 1 := hlt
        omega
      subst hkn
      rw [hk] at hc
      cases hc
    · rw [hr] at hlt ⊢
      have hne : k ≠ n := by
        rintro rfl
        rw [hd, hnr] at hry
        cases hry
      exact ih h (n + 1) (by omega) hlt
    · rw [hr] at hlt ⊢
      have hkn : k = n := by
        have : k < n + 1 := hlt
        omega
      subst hkn
      rw [hd] at hd'
      cases hd'
      rfl
  · rw [retryLoop_exit client req m a n h] at hlt
    have : k < n := hlt
    omega

/-- If the call number `k` is made, the context reports no error after it and
the value of `attempt` in that round is not the last one below the bound, then
a further call is made exactly when call `k` ended in an outcome that leads to
`continue`. -/
theorem retryLoop_next_at (client : Client) (req : Request) (m : Int) (k : Nat)
    (hk : req.ctxErr k = none) :
    ∀ a n, 0 ≤ a → n ≤ k → a + ((k : Int) - n) + 1 < wrapInt (m + 1) →
      k < (retryLoop client req m a n).count →
      (k + 1 < (retryLoop client req m a n).count ↔ (client.Do k req).retryable = true) := by
  apply retryLoop_induction m
    (fun a n => 0 ≤ a → n ≤ k → a + ((k : Int) - n) + 1 < wrapInt (m + 1) →
      k < (retryLoop client req m a n).count →
      (k + 1 < (retryLoop client req m a n).count ↔ (client.Do k req).retryable = true))
  intro a n ih h0 hnk hb hlt
  by_cases h : a < wrapInt (m + 1)
  · have hs := wrapInt_succ_of_lt h0 h
    rcases retryLoop_round client req m a n h with
      ⟨e', hc, hr⟩ | ⟨hc, hry, hr⟩ | ⟨res', hc, hd', hnr, hr⟩
    · rw [hr] at hlt
      have hkn : k = n := by
        have : k < n + 1 := hlt
        omega
      subst hkn
      rw [hk] at hc
      cases hc
    · rw [hr] at hlt ⊢
      by_cases hkn : k = n
      · subst hkn
        have hnext : wrapInt (a + 1) < wrapInt (m + 1) := by
          rw [hs]; omega
        have := retryLoop_count_pos client req m (wrapInt (a + 1)) (k + 1) hnext
        constructor
        · intro _; exact hry
        · intro _; omega
      · have hb' : wrapInt (a + 1) + ((k : Int) - ((n + 1 : Nat) : Int)) + 1 < wrapInt (m + 1) := by
          rw [hs]; push_cast; omega
        exact ih h (n + 1) (by rw [hs]; omega) (by omega) hb' hlt
    · rw [hr] at hlt ⊢
      have hkn : k = n := by
        have : k < n + 1 := hlt
        omega
      subst hkn
      rw [hd', hnr]
      constructor
      · intro hcontra
        have : k + 1 < k + 1 := hcontra
        omega
      · intro hcontra
        cases hcontra
  · rw [retryLoop_exit client req m a n h] at hlt
    have : k < n := hlt
    omega


/-- Which calls the loop makes: starting from `attempt = a` and `count = n`, the
call number `k ≥ n` is made exactly when its value of `attempt` is below the
bound and every earlier call found the context uncancelled and ended in an
outcome that leads to `continue`. -/
theorem retryLoop_call_made_iff (client : Client) (req : Request) (m : Int) (k : Nat) :
    ∀ a n, 0 ≤ a → n ≤ k →
      (k < (retryLoop client req m a n).count ↔
        a + ((k : Int) - n) < wrapInt (m + 1) ∧
          ∀ j, n ≤ j → j < k →
            req.ctxErr j = none ∧ (client.Do j req).retryable = true) := by
  apply retryLoop_induction m
    (fun a n => 0 ≤ a → n ≤ k →
      (k < (retryLoop client req m a n).count ↔
        a + ((k : Int) - n) < wrapInt (m + 1) ∧
          ∀ j, n ≤ j → j < k →
            req.ctxErr j = none ∧ (client.Do j req).retryable = true))
  intro a n ih h0 hnk
  by_cases h : a < wrapInt (m + 1)
  · have hs := wrapInt_succ_of_lt h0 h
    by_cases hkn : k = n
    · subst hkn
      have hpos := retryLoop_count_pos client req m a k h
      constructor
      · intro _
        refine ⟨by omega, ?_⟩
        intro j h1 h2
        omega
      · intro _
        omega
    · have hlt : n < k := by omega
      rcases retryLoop_round client req m a n h with
        ⟨e, hc, hr⟩ | ⟨hc, hry, hr⟩ | ⟨res, hc, hd, hnr, hr⟩
      · rw [hr]
        constructor
        · intro hcount
          have : k < n + 1 := hcount
          omega
        · rintro ⟨_, hall⟩
          have := (hall n (le_refl n) hlt).1
          rw [hc] at this
          cases this
      · rw [hr]
        have hih := ih h (n + 1) (by rw [hs]; omega) (by omega)
        rw [hih, hs]
        constructor
        · rintro ⟨hb, hall⟩
          refine ⟨by push_cast at hb; omega, ?_⟩
          intro j h1 h2
          by_cases hjn : j = n
          · subst hjn
            exact ⟨hc, hry⟩
          · exact hall j (by omega) h2
        · rintro ⟨hb, hall⟩
          refine ⟨by push_cast; omega, ?_⟩
          intro j h1 h2
          exact hall j (by omega) h2
      · rw [hr]
        constructor
        · intro hcount
          have : k < n + 1 := hcount
          omega
        · rintro ⟨_, hall⟩
          have := (hall n (le_refl n) hlt).2
          rw [hd, hnr] at this
          cases this
  · rw [retryLoop_exit client req m a n h]
    constructor
    · intro hcount
      have : k < n := hcount
      omega
    · rintro ⟨hb, _⟩
      omega

/-! ## `DoWithRetries`: the number of attempts -/

/-- The clamping of lines 43-45 leaves a non-negative value. -/
theorem clamp_eq_max (m : Int) : (if m < 0 then 0 else m) = max m 0 := by
  split_ifs with h
  · exact (max_eq_right (le_of_lt h)).symm
  · exact (max_eq_left (not_lt.mp h)).symm

/-- Below the largest `int`, `DoWithRetries` calls `client.Do` at least once and
at most `max(maxAttempts,0)+1` times. -/
theorem DoWithRetries_count_bounds (client : Client) (req : Request) (m : Int)
    (hm : m < MaxInt) :
    1 ≤ (DoWithRetries client req m).count ∧
      ((DoWithRetries client req m).count : Int) ≤ max m 0 + 1 := by
  unfold DoWithRetries
  simp only [clamp_eq_max]
  have h0 : (0 : Int) ≤ max m 0 := le_max_right m 0
  have hlt : max m 0 < MaxInt := max_lt hm (by decide)
  have hb := loopBound_of_lt_MaxInt h0 hlt
  constructor
  · have := retryLoop_count_pos client req (max m 0) 0 0 (by rw [hb]; omega)
    omega
  · have := retryLoop_count_le client req (max m 0) 0 0 (le_refl 0)
    rw [hb] at this
    omega

/-- Whatever the value of `maxAttempts`, `DoWithRetries` calls `client.Do` at most
`max(maxAttempts,0)+1` times. -/
theorem DoWithRetries_count_le (client : Client) (req : Request) (m : Int)
    (hm : m ≤ MaxInt) :
    ((DoWithRetries client req m).count : Int) ≤ max m 0 + 1 := by
  rcases lt_or_eq_of_le hm with h | h
  · exact (DoWithRetries_count_bounds client req m h).2
  · subst h
    unfold DoWithRetries
    rw [if_neg (by decide)]
    rw [retryLoop_exit client req MaxInt 0 0 (by rw [loopBound_MaxInt]; decide)]
    decide

/-- With `maxAttempts` equal to the largest `int` the loop body never runs. -/
theorem DoWithRetries_MaxInt_no_call (client : Client) (req : Request) :
    DoWithRetries client req MaxInt =
      { res := none, err := some errExhausted, count := 0 } := by
  unfold DoWithRetries
  rw [if_neg (by decide)]
  exact retryLoop_exit client req MaxInt 0 0 (by rw [loopBound_MaxInt]; decide)

/-- Which calls `DoWithRetries` makes, below the largest `int`: the call number
`k` (counted from 0) is made exactly when `k ≤ max(maxAttempts,0)` and every
earlier call found the context uncancelled and ended in an outcome that leads to
`continue`. -/
theorem DoWithRetries_call_made_iff (client : Client) (req : Request) (m : Int) (k : Nat)
    (hm : m < MaxInt) :
    k < (DoWithRetries client req m).count ↔
      (k : Int) ≤ max m 0 ∧
        ∀ j, j < k → req.ctxErr j = none ∧ (client.Do j req).retryable = true := by
  unfold DoWithRetries
  simp only [clamp_eq_max]
  have h0 : (0 : Int) ≤ max m 0 := le_max_right m 0
  have hlt : max m 0 < MaxInt := max_lt hm (by decide)
  rw [retryLoop_call_made_iff client req (max m 0) k 0 0 (le_refl 0) (Nat.zero_le k),
    loopBound_of_lt_MaxInt h0 hlt]
  constructor
  · rintro ⟨hb, hall⟩
    exact ⟨by push_cast at hb; omega, fun j hj => hall j (Nat.zero_le j) hj⟩
  · rintro ⟨hb, hall⟩
    exact ⟨by push_cast; omega, fun j _ hj => hall j hj⟩

/-- Claim C1, at the input where the code departs from it: with `maxAttempts`
equal to the largest `int`, the bound `maxAttempts+1` of the loop condition
wraps around to the smallest `int`, the loop body never runs, and
`DoWithRetries` returns the exhaustion error without having called `client.Do`
at all, whatever the client and the request are. -/
theorem DoWithRetries_MaxInt_makes_no_call (client : Client) (req : Request) :
    IsGoInt MaxInt ∧ (DoWithRetries client req MaxInt).count = 0 ∧
      (DoWithRetries client req MaxInt).err = some errExhausted := by
  rw [DoWithRetries_MaxInt_no_call client req]
  exact ⟨by decide, rfl, rfl⟩

/-- Claim C2: for every negative `maxAttempts`, `DoWithRetries` calls `client.Do`
exactly once and returns what it returns with `maxAttempts = 0` on the same
client and request. -/
theorem DoWithRetries_negative (client : Client) (req : Request) (m : Int) (hm : m < 0) :
    (DoWithRetries client req m).count = 1 ∧
      DoWithRetries client req m = DoWithRetries client req 0 := by
  constructor
  · have h := DoWithRetries_count_bounds client req m (lt_trans hm (by decide))
    rw [max_eq_right (le_of_lt hm)] at h
    omega
  · unfold DoWithRetries
    rw [if_pos hm, if_neg (lt_irrefl 0)]

/-- Instance of claim C2: `maxAttempts = -3` against a backend that is
unreachable on the first call. -/
theorem DoWithRetries_negative_witness :
    (-3 : Int) < 0 ∧
      ((DoWithRetries flakyClient plainRequest (-3)).count = 1 ∧
        DoWithRetries flakyClient plainRequest (-3) = DoWithRetries flakyClient plainRequest 0) :=
  ⟨by decide, DoWithRetries_negative flakyClient plainRequest (-3) (by decide)⟩

/-- When every attempt finds the context uncancelled and ends in an outcome that
leads to `continue`, `DoWithRetries` with `0 ≤ maxAttempts = n` below the largest
`int` makes `n+1` calls and returns the exhaustion error with a nil response. -/
theorem DoWithRetries_all_retryable (client : Client) (req : Request) (n : Int)
    (h0 : 0 ≤ n) (hn : n < MaxInt)
    (hc : ∀ i, req.ctxErr i = none) (hr : ∀ i, (client.Do i req).retryable = true) :
    DoWithRetries client req n =
      { res := none, err := some errExhausted, count := (n + 1).toNat } := by
  unfold DoWithRetries
  rw [if_neg (not_lt.mpr h0)]
  rw [retryLoop_all_retryable client req n hc hr 0 0 (le_refl 0)]
  rw [loopBound_of_lt_MaxInt h0 hn]
  simp

/-- Below the largest `int`, a request that fails at the transport level on every
call is attempted exactly `n+1` times and ends in the exhaustion error. -/
theorem DoWithRetries_transport_failure (client : Client) (req : Request) (n : Int)
    (h0 : 0 ≤ n) (hn : n < MaxInt) (hc : ∀ i, req.ctxErr i = none)
    (hf : ∀ i, ∃ r e, client.Do i req = DoResult.fail r e) :
    DoWithRetries client req n =
      { res := none, err := some errExhausted, count := (n + 1).toNat } := by
  apply DoWithRetries_all_retryable client req n h0 hn hc
  intro i
  obtain ⟨r, e, h⟩ := hf i
  rw [h]
  rfl

/-- Claim C3, at the input where the code departs from it: with
`maxAttempts = n` equal to the largest `int` and a backend every call to which
fails at the transport level, `DoWithRetries` returns the exhaustion error
after no call at all, not after `n+1` calls. -/
theorem DoWithRetries_transport_failure_MaxInt :
    (∀ i, plainRequest.ctxErr i = none) ∧
    (∀ i, ∃ r e, refusingClient.Do i plainRequest = DoResult.fail r e) ∧
    DoWithRetries refusingClient plainRequest MaxInt =
      { res := none, err := some errExhausted, count := 0 } ∧
    ((0 : Nat) : Int) ≠ MaxInt + 1 := by
  refine ⟨fun _ => rfl, fun _ => ⟨none, GoError.new "connection refused", rfl⟩, ?_, by decide⟩
  unfold DoWithRetries
  rw [if_neg (by decide)]
  exact retryLoop_exit refusingClient plainRequest MaxInt 0 0 (by rw [loopBound_MaxInt]; decide)


/-! ## `DoWithRetries`: how an attempt ends the loop -/

/-- A response with a non-zero status that is below 500 or equal to 501 does not
lead to `continue`. -/
theorem not_retryable_of_terminal_status (res : Response) (h0 : res.StatusCode ≠ 0)
    (hs : res.StatusCode < 500 ∨ res.StatusCode = 501) :
    (DoResult.ok res).retryable = false := by
  simp only [DoResult.retryable, decide_eq_false_iff_not]
  omega

/-- Claim C4: let the context report no error after the call number `k`
(counted from 0) and let that call obtain a response whose status is non-zero
and either below 500 or equal to 501.  Then `DoWithRetries` never makes more
than `k+1` calls, and if call `k` is made at all it returns that very response
with a nil error, call `k` being the last one.  For `k = 0` and status 501: a
501 answer to the first attempt is returned and not retried. -/
theorem DoWithRetries_terminal_response (client : Client) (req : Request) (m : Int)
    (k : Nat) (res : Response) (hc : req.ctxErr k = none)
    (hd : client.Do k req = DoResult.ok res) (h0 : res.StatusCode ≠ 0)
    (hs : res.StatusCode < 500 ∨ res.StatusCode = 501) :
    (DoWithRetries client req m).count ≤ k + 1 ∧
      (k < (DoWithRetries client req m).count →
        DoWithRetries client req m = { res := some res, err := none, count := k + 1 }) := by
  have hnr := not_retryable_of_terminal_status res h0 hs
  have key : k < (DoWithRetries client req m).count →
      DoWithRetries client req m = { res := some res, err := none, count := k + 1 } := by
    intro hlt
    unfold DoWithRetries at hlt ⊢
    exact retryLoop_return_at client req _ k res hc hd hnr 0 0 (Nat.zero_le k) hlt
  refine ⟨?_, key⟩
  by_cases hlt : k < (DoWithRetries client req m).count
  · rw [key hlt]
  · omega

/-- Instance of claim C4: a backend that answers 501 to the first attempt, with
three retries allowed. -/
theorem DoWithRetries_terminal_response_witness :
    plainRequest.ctxErr 0 = none ∧
    notImplementedClient.Do 0 plainRequest = DoResult.ok notImplementedResponse ∧
    notImplementedResponse.StatusCode ≠ 0 ∧
    (notImplementedResponse.StatusCode < 500 ∨ notImplementedResponse.StatusCode = 501) ∧
    0 < (DoWithRetries notImplementedClient plainRequest 3).count ∧
    DoWithRetries notImplementedClient plainRequest 3 =
      { res := some notImplementedResponse, err := none, count := 0 + 1 } :=
  have hcount : 0 < (DoWithRetries notImplementedClient plainRequest 3).count := by
    simp [DoWithRetries, retryLoop, wrapInt, notImplementedClient, notImplementedResponse,
      plainRequest, StatusNotImplemented]
  ⟨rfl, rfl, by decide, by decide, hcount,
    (DoWithRetries_terminal_response notImplementedClient plainRequest 3 0
      notImplementedResponse rfl rfl (by decide) (by decide)).2 hcount⟩

/-- Claim C5 as stated fails: the response of the final attempt is not kept when
its status is 503.  With two retries allowed and a backend that answers 503 every time, `DoWithRetries`
makes three calls and returns a nil response with the exhaustion error. -/
theorem DoWithRetries_busy_counterexample :
    (∀ i, plainRequest.ctxErr i = none) ∧
    (∀ i, busyClient.Do i plainRequest = DoResult.ok busyResponse) ∧
    busyResponse.StatusCode = 503 ∧
    DoWithRetries busyClient plainRequest 2 =
      { res := none, err := some errExhausted, count := 3 } ∧
    DoWithRetries busyClient plainRequest 2 ≠
      { res := some busyResponse, err := none, count := 3 } := by
  refine ⟨fun _ => rfl, fun _ => rfl, rfl, ?_, ?_⟩ <;>
    simp [DoWithRetries, retryLoop, wrapInt, busyClient, busyResponse, plainRequest,
      StatusNotImplemented]

/-- Claim C5 as amended: for `0 ≤ maxAttempts = n` below the largest `int` and a
request whose context is never cancelled, if every attempt obtains a response
with status 503, `DoWithRetries` makes `n+1` calls and then returns a nil
response together with the exhaustion error. -/
theorem DoWithRetries_always_busy (client : Client) (req : Request) (n : Int)
    (h0 : 0 ≤ n) (hn : n < MaxInt) (hc : ∀ i, req.ctxErr i = none)
    (hb : ∀ i, ∃ res, client.Do i req = DoResult.ok res ∧ res.StatusCode = 503) :
    DoWithRetries client req n =
      { res := none, err := some errExhausted, count := (n + 1).toNat } := by
  apply DoWithRetries_all_retryable client req n h0 hn hc
  intro i
  obtain ⟨res, h, hs⟩ := hb i
  rw [h]
  simp only [DoResult.retryable, decide_eq_true_eq]
  omega

/-- Instance of claim C5 as amended: two retries against a backend that answers
503 every time. -/
theorem DoWithRetries_always_busy_witness :
    (0 : Int) ≤ 2 ∧ (2 : Int) < MaxInt ∧
    (∀ i, plainRequest.ctxErr i = none) ∧
    (∀ i, ∃ res, busyClient.Do i plainRequest = DoResult.ok res ∧ res.StatusCode = 503) ∧
    DoWithRetries busyClient plainRequest 2 =
      { res := none, err := some errExhausted, count := ((2 : Int) + 1).toNat } :=
  ⟨by decide, by decide, fun _ => rfl, fun _ => ⟨busyResponse, rfl, rfl⟩,
    DoWithRetries_always_busy busyClient plainRequest 2 (by decide) (by decide)
      (fun _ => rfl) (fun _ => ⟨busyResponse, rfl, rfl⟩)⟩

/-- What the context check does once a call is made: if the call number `k`
(counted from 0) is made and the request's context reports an error when it is
read after that call, `DoWithRetries` returns a nil response together with
exactly that error, having made exactly `k+1` calls, whatever call `k` itself
produced and whatever `maxAttempts` is.
For `k = 0`: a context found cancelled after the first attempt yields the
cancellation error after one attempt. -/
theorem DoWithRetries_context_error (client : Client) (req : Request) (m : Int)
    (k : Nat) (e : GoError) (hk : k < (DoWithRetries client req m).count)
    (hc : req.ctxErr k = some e) :
    DoWithRetries client req m = { res := none, err := some e, count := k + 1 } := by
  unfold DoWithRetries at hk ⊢
  exact retryLoop_ctx_at client req _ k e hc 0 0 (Nat.zero_le k) hk

/-- Below the largest `int` the first attempt is always made, so a context found
cancelled at the first check yields the cancellation error after one call. -/
theorem DoWithRetries_cancelled_at_first_check (client : Client) (req : Request) (m : Int)
    (e : GoError) (hm : m < MaxInt) (hc : req.ctxErr 0 = some e) :
    DoWithRetries client req m = { res := none, err := some e, count := 1 } := by
  have hpos := (DoWithRetries_count_bounds client req m hm).1
  unfold DoWithRetries at hpos ⊢
  exact retryLoop_ctx_at client req _ 0 e hc 0 0 (le_refl 0) hpos

/-- Instance: a context already cancelled at the first check, with
five retries allowed and a backend that would have answered 501. -/
theorem DoWithRetries_context_error_witness :
    0 < (DoWithRetries notImplementedClient cancelledRequest 5).count ∧
    cancelledRequest.ctxErr 0 = some (GoError.sentinel "context.Canceled") ∧
    DoWithRetries notImplementedClient cancelledRequest 5 =
      { res := none, err := some (GoError.sentinel "context.Canceled"), count := 0 + 1 } :=
  have hcount : 0 < (DoWithRetries notImplementedClient cancelledRequest 5).count := by
    simp [DoWithRetries, retryLoop, wrapInt, notImplementedClient, cancelledRequest]
  ⟨hcount, rfl,
    DoWithRetries_context_error notImplementedClient cancelledRequest 5 0
      (GoError.sentinel "context.Canceled") hcount rfl⟩

/-- Claim C7: let the call number `k` (counted from 0) be made, let the context
report no error after it, and let `k` not be the last attempt allowed
(`k < max(maxAttempts,0)`).  Then a further call is made if and only if call `k`
yielded a transport error, a response with status 0, or a response with status
at least 500 other than 501; with any other outcome call `k` is the last one and
its response is returned. -/
theorem DoWithRetries_retry_iff (client : Client) (req : Request) (m : Int) (k : Nat)
    (hm : IsGoInt m) (hk : k < (DoWithRetries client req m).count)
    (hlast : (k : Int) < max m 0) (hc : req.ctxErr k = none) :
    (k + 1 < (DoWithRetries client req m).count ↔ (client.Do k req).retryable = true) ∧
      ((client.Do k req).retryable = false →
        ∃ res, client.Do k req = DoResult.ok res ∧
          DoWithRetries client req m = { res := some res, err := none, count := k + 1 }) := by
  have hne : m ≠ MaxInt := by
    rintro rfl
    rw [DoWithRetries_MaxInt_no_call client req] at hk
    exact absurd hk (Nat.not_lt_zero k)
  have hlt : max m 0 < MaxInt := max_lt (lt_of_le_of_ne hm.2 hne) (by decide)
  have h0 : (0 : Int) ≤ max m 0 := le_max_right m 0
  have hb := loopBound_of_lt_MaxInt h0 hlt
  constructor
  · unfold DoWithRetries at hk ⊢
    simp only [clamp_eq_max] at hk ⊢
    exact retryLoop_next_at client req (max m 0) k hc 0 0 (le_refl 0) (Nat.zero_le k)
      (by rw [hb]; push_cast; omega) hk
  · intro hnr
    cases hd : client.Do k req with
    | fail r e => rw [hd] at hnr; cases hnr
    | ok res =>
      rw [hd] at hnr
      refine ⟨res, rfl, ?_⟩
      unfold DoWithRetries at hk ⊢
      exact retryLoop_return_at client req _ k res hc hd hnr 0 0 (Nat.zero_le k) hk


/-- Instance of claim C7: two retries against a backend that is unreachable on
the first call and answers 404 on the second. -/
theorem DoWithRetries_retry_iff_witness :
    IsGoInt 2 ∧ 0 < (DoWithRetries flakyClient plainRequest 2).count ∧
    ((0 : Nat) : Int) < max 2 0 ∧ plainRequest.ctxErr 0 = none ∧
    ((0 + 1 < (DoWithRetries flakyClient plainRequest 2).count ↔
        (flakyClient.Do 0 plainRequest).retryable = true) ∧
      ((flakyClient.Do 0 plainRequest).retryable = false →
        ∃ res, flakyClient.Do 0 plainRequest = DoResult.ok res ∧
          DoWithRetries flakyClient plainRequest 2 =
            { res := some res, err := none, count := 0 + 1 })) :=
  have hcount : 0 < (DoWithRetries flakyClient plainRequest 2).count := by
    simp [DoWithRetries, retryLoop, wrapInt, flakyClient, notFoundResponse, plainRequest,
      StatusNotImplemented]
  ⟨by decide, hcount, by decide, rfl,
    DoWithRetries_retry_iff flakyClient plainRequest 2 0 (by decide) hcount (by decide) rfl⟩

/-! ## `New` -/

/-- What `New` does when the URL pointer is not nil and the default URL parses. -/
theorem New_of_URL {URL : Type} (url : NetURL URL) (options : Options URL) (u d : URL)
    (hu : options.URL = some u) (hd : url.Parse DefaultURL = Except.ok d) :
    New url options =
      if options.Password = "" then
        Outcome.ret (none, some (GoError.wrap ErrClientValidation ", password required"))
      else
        Outcome.ret
          (some { Options :=
            { URL := if url.Render u = "" then some d else some u
              Username := if options.Username = "" then DefaultUsername else options.Username
              Password := options.Password
              TLSSkipVerify := some (options.TLSSkipVerify.getD DefaultTLSSkipVerify)
              RetryMinWait := some (options.RetryMinWait.getD DefaultRetryMinWait)
              RetryMaxWait := some (options.RetryMaxWait.getD DefaultRetryMaxWait)
              MaxAttempts := some (options.MaxAttempts.getD DefaultMaxAttempts) } },
           none) := by
  obtain ⟨U, name, pw, tls, rmin, rmax, ma⟩ := options
  simp only at hu
  subst hu
  unfold New
  by_cases hr : url.Render u = "" <;> by_cases hn : name = "" <;> by_cases hp : pw = "" <;>
    cases tls <;> cases rmin <;> cases rmax <;> cases ma <;>
    simp [hr, hn, hp, hd, Except.map]


/-- The error `New` returns for a missing password wraps
`pfsense.ErrClientValidation`. -/
theorem passwordRequired_is_validation :
    (GoError.wrap ErrClientValidation ", password required").Is ErrClientValidation = true := by
  decide

/-- Claim C8: for options whose URL pointer is not nil, `New` returns, and it
returns a non-nil error if and only if `Password` is the empty string; in that
case the returned client is nil and the error wraps
`pfsense.ErrClientValidation`, whatever the other fields hold.  (The default
URL is taken to parse, as it does in `net/url`.) -/
theorem New_error_iff_no_password {URL : Type} (url : NetURL URL) (options : Options URL)
    (u d : URL) (hu : options.URL = some u)
    (hd : url.Parse "https://192.168.1.1" = Except.ok d) :
    ∃ client err, New url options = Outcome.ret (client, err) ∧
      (err ≠ none ↔ options.Password = "") ∧
      (options.Password = "" →
        client = none ∧ ∃ e, err = some e ∧ e.Is ErrClientValidation = true) := by
  rw [New_of_URL url options u d hu hd]
  by_cases hp : options.Password = ""
  · rw [if_pos hp]
    refine ⟨none, _, rfl, ?_, ?_⟩
    · simp [hp]
    · intro _
      exact ⟨rfl, _, rfl, passwordRequired_is_validation⟩
  · rw [if_neg hp]
    refine ⟨_, none, rfl, ?_, ?_⟩
    · simp [hp]
    · intro h
      exact absurd h hp

/-- Instance of claim C8: options with every field but the password supplied. -/
theorem New_error_iff_no_password_witness :
    noPassword.URL = some "https://fw.example" ∧
    textURL.Parse "https://192.168.1.1" = Except.ok "https://192.168.1.1" ∧
    ∃ client err, New textURL noPassword = Outcome.ret (client, err) ∧
      (err ≠ none ↔ noPassword.Password = "") ∧
      (noPassword.Password = "" →
        client = none ∧ ∃ e, err = some e ∧ e.Is ErrClientValidation = true) :=
  ⟨rfl, rfl,
    New_error_iff_no_password textURL noPassword "https://fw.example" "https://192.168.1.1"
      rfl rfl⟩

/-- Claim C9: for options with a non-empty password (and a URL pointer that is
not nil), `New` returns a client and a nil error, and every field the caller
left unset holds its default in that client: the URL parsed from
"https://192.168.1.1" when the given URL renders as the empty string, the
username "admin" when it is empty, and for the nil pointers `TLSSkipVerify`
false, `RetryMinWait` one second, `RetryMaxWait` five seconds and `MaxAttempts`
3. -/
theorem New_defaults {URL : Type} (url : NetURL URL) (options : Options URL)
    (u d : URL) (hu : options.URL = some u)
    (hd : url.Parse "https://192.168.1.1" = Except.ok d) (hp : options.Password ≠ "") :
    ∃ c : PfsenseClient URL, New url options = Outcome.ret (some c, none) ∧
      (url.Render u = "" → c.Options.URL = some d) ∧
      (options.Username = "" → c.Options.Username = "admin") ∧
      (options.TLSSkipVerify = none → c.Options.TLSSkipVerify = some false) ∧
      (options.RetryMinWait = none → c.Options.RetryMinWait = some 1000000000) ∧
      (options.RetryMaxWait = none → c.Options.RetryMaxWait = some 5000000000) ∧
      (options.MaxAttempts = none → c.Options.MaxAttempts = some 3) := by
  rw [New_of_URL url options u d hu hd, if_neg hp]
  refine ⟨_, rfl, ?_, ?_, ?_, ?_, ?_, ?_⟩
  · intro h; simp only [if_pos h]
  · intro h; simp only [if_pos h]; rfl
  · intro h; simp only [h]; rfl
  · intro h; simp only [h]; rfl
  · intro h; simp only [h]; rfl
  · intro h; simp only [h]; rfl

/-- Instance of claim C9: options in which only the password is supplied. -/
theorem New_defaults_witness :
    passwordOnly.URL = some "" ∧
    textURL.Parse "https://192.168.1.1" = Except.ok "https://192.168.1.1" ∧
    passwordOnly.Password ≠ "" ∧
    ∃ c : PfsenseClient String, New textURL passwordOnly = Outcome.ret (some c, none) ∧
      (textURL.Render "" = "" → c.Options.URL = some "https://192.168.1.1") ∧
      (passwordOnly.Username = "" → c.Options.Username = "admin") ∧
      (passwordOnly.TLSSkipVerify = none → c.Options.TLSSkipVerify = some false) ∧
      (passwordOnly.RetryMinWait = none → c.Options.RetryMinWait = some 1000000000) ∧
      (passwordOnly.RetryMaxWait = none → c.Options.RetryMaxWait = some 5000000000) ∧
      (passwordOnly.MaxAttempts = none → c.Options.MaxAttempts = some 3) :=
  ⟨rfl, rfl, by decide,
    New_defaults textURL passwordOnly "" "https://192.168.1.1" rfl rfl (by decide)⟩

/-- Claim C10, at the input where the code departs from it: when the URL pointer
of the options is nil, `New` does not reach the assignment of the default URL;
the call `options.URL.String()` dereferences the nil pointer and `New` ends in a
run-time panic, whatever the other fields hold (a password included). -/
theorem New_nil_URL_panics {URL : Type} (url : NetURL URL) (username password : String)
    (tls : Option Bool) (rmin rmax : Option Duration) (ma : Option Int) :
    New url
        { URL := none, Username := username, Password := password, TLSSkipVerify := tls,
          RetryMinWait := rmin, RetryMaxWait := rmax, MaxAttempts := ma } =
      Outcome.panic nilDereference := by
  rfl

/-! ## Diagnostics -/

theorem Diagnostics.mem_Append (a b : Diagnostics) (d : Diagnostic) :
    d ∈ Diagnostics.Append a b ↔ d ∈ a ∨ d ∈ b := by
  unfold Diagnostics.Append
  induction b generalizing a with
  | nil => simp
  | cons x xs ih =>
    rw [List.foldl_cons, ih]
    by_cases hx : x ∈ a
    · rw [if_pos hx]
      constructor
      · rintro (h | h)
        · exact Or.inl h
        · exact Or.inr (List.mem_cons_of_mem _ h)
      · rintro (h | h)
        · exact Or.inl h
        · rcases List.mem_cons.mp h with rfl | h
          · exact Or.inl hx
          · exact Or.inr h
    · rw [if_neg hx]
      simp only [List.mem_append, List.mem_singleton, List.mem_cons]
      tauto

theorem Diagnostics.HasError_iff (a : Diagnostics) :
    Diagnostics.HasError a = true ↔ ∃ d, d ∈ a ∧ d.Severity = Severity.Error := by
  simp [Diagnostics.HasError]

theorem Diagnostics.HasError_Append (a b : Diagnostics) :
    Diagnostics.HasError (Diagnostics.Append a b) =
      (Diagnostics.HasError a || Diagnostics.HasError b) := by
  rw [Bool.eq_iff_iff, Bool.or_eq_true, Diagnostics.HasError_iff, Diagnostics.HasError_iff,
    Diagnostics.HasError_iff]
  constructor
  · rintro ⟨d, hd, he⟩
    rcases (Diagnostics.mem_Append a b d).mp hd with h | h
    · exact Or.inl ⟨d, h, he⟩
    · exact Or.inr ⟨d, h, he⟩
  · rintro (⟨d, hd, he⟩ | ⟨d, hd, he⟩)
    · exact ⟨d, (Diagnostics.mem_Append a b d).mpr (Or.inl hd), he⟩
    · exact ⟨d, (Diagnostics.mem_Append a b d).mpr (Or.inr hd), he⟩

theorem Diagnostics.Append_nil (a : Diagnostics) : Diagnostics.Append a [] = a := rfl

/-- Appending one diagnostic that the collection does not hold yet. -/
theorem Diagnostics.Append_singleton_of_not_mem (a : Diagnostics) (d : Diagnostic)
    (h : d ∉ a) : Diagnostics.Append a [d] = a ++ [d] := by
  simp [Diagnostics.Append, h]

/-- Appending one diagnostic that the collection already holds changes nothing. -/
theorem Diagnostics.Append_singleton_of_mem (a : Diagnostics) (d : Diagnostic)
    (h : d ∈ a) : Diagnostics.Append a [d] = a := by
  simp [Diagnostics.Append, h]

theorem NewErrorDiagnostic_not_mem (diags : Diagnostics) (summary detail : String)
    (h : Diagnostics.HasError diags = false) : NewErrorDiagnostic summary detail ∉ diags := by
  intro hmem
  have : Diagnostics.HasError diags = true :=
    (Diagnostics.HasError_iff diags).mpr ⟨_, hmem, rfl⟩
  rw [h] at this
  cases this

/-! ## `AddError` -/

theorem AddError_none (diags : Diagnostics) (summary : String) :
    AddError diags summary none = (diags, false) := rfl

theorem AddError_snd (diags : Diagnostics) (summary : String) (err : Option GoError) :
    (AddError diags summary err).2 = err.isSome := by
  cases err <;> rfl

/-- On diagnostics without an error, `AddError` with a non-nil error appends the
new error diagnostic at the end. -/
theorem AddError_some (diags : Diagnostics) (summary : String) (e : GoError)
    (h : Diagnostics.HasError diags = false) :
    AddError diags summary (some e) =
      (diags ++ [NewErrorDiagnostic summary ("unexpected error: " ++ GoError.Error e)], true) := by
  simp only [AddError, Diagnostics.AddError]
  rw [Diagnostics.Append_singleton_of_not_mem _ _ (NewErrorDiagnostic_not_mem diags summary _ h)]

/-! ## The shared steps -/

theorem applyStep_calls {Model : Type} (resp : ResourceResponse Model) (calls : List ClientCall)
    (flag : Bool) (apply : ClientCall) (applied : Option GoError) (summary : String) :
    (applyStep resp calls flag apply applied summary).calls =
      if flag then calls ++ [apply] else calls := by
  unfold applyStep
  split_ifs <;> rfl

theorem applyStep_state {Model : Type} (resp : ResourceResponse Model) (calls : List ClientCall)
    (flag : Bool) (apply : ClientCall) (applied : Option GoError) (summary : String) :
    (applyStep resp calls flag apply applied summary).resp.State = resp.State := by
  unfold applyStep
  split_ifs <;> rfl

/-- A failed client call in Create or Update: the call is the only one, the state
is not written, and the error is appended to the diagnostics. -/
theorem writeSteps_failed {Model Entity : Type} (fw : Framework Model)
    (resp : ResourceResponse Model) (data : Model) (mutation : ClientCall)
    (result : Option Entity × Option GoError) (summary : String)
    (setFromValue : Model → Entity → Model × Diagnostics) (flag : Model → Bool)
    (apply : ClientCall) (applied : Option GoError) (applySummary : String) (err : GoError)
    (hpre : Diagnostics.HasError resp.Diagnostics = false) (herr : result.2 = some err) :
    writeSteps fw resp data mutation result summary setFromValue flag apply applied
        applySummary =
      { resp :=
          { resp with
            Diagnostics :=
              resp.Diagnostics ++
                [NewErrorDiagnostic summary ("unexpected error: " ++ GoError.Error err)] },
        calls := [mutation], panic := none } := by
  unfold writeSteps
  rw [herr, AddError_some _ _ _ hpre]
  rfl

/-- A successful client call in Create or Update, when taking the entity into the
model reports no error: the state is written and the apply step follows. -/
theorem writeSteps_succeeded {Model Entity : Type} (fw : Framework Model)
    (resp : ResourceResponse Model) (data : Model) (mutation : ClientCall)
    (result : Option Entity × Option GoError) (summary : String)
    (setFromValue : Model → Entity → Model × Diagnostics) (flag : Model → Bool)
    (apply : ClientCall) (applied : Option GoError) (applySummary : String) (entity : Entity)
    (hpre : Diagnostics.HasError resp.Diagnostics = false)
    (hres : result = (some entity, none))
    (hset : Diagnostics.HasError (setFromValue data entity).2 = false) :
    writeSteps fw resp data mutation result summary setFromValue flag apply applied
        applySummary =
      applyStep
        (ResourceResponse.StateSet fw
          { resp with
            Diagnostics := Diagnostics.Append resp.Diagnostics (setFromValue data entity).2 }
          (setFromValue data entity).1)
        [mutation] (flag (setFromValue data entity).1) apply applied applySummary := by
  subst hres
  unfold writeSteps
  simp only [AddError_none]
  rw [if_neg (by simp), if_neg (by rw [Diagnostics.HasError_Append, hpre, hset]; simp)]

/-- The calls of Create and Update from the client call on: the mutation, then
at most the apply, and the apply only with the flag set. -/
theorem writeSteps_calls {Model Entity : Type} (fw : Framework Model)
    (resp : ResourceResponse Model) (data : Model) (mutation : ClientCall)
    (result : Option Entity × Option GoError) (summary : String)
    (setFromValue : Model → Entity → Model × Diagnostics) (flag : Model → Bool)
    (apply : ClientCall) (applied : Option GoError) (applySummary : String) :
    (writeSteps fw resp data mutation result summary setFromValue flag apply applied
        applySummary).calls = [mutation] ∨
      ((writeSteps fw resp data mutation result summary setFromValue flag apply applied
          applySummary).calls = [mutation, apply] ∧
        ∃ entity, flag (setFromValue data entity).1 = true) := by
  unfold writeSteps
  split_ifs with h1
  · exact Or.inl rfl
  · cases result.1 with
    | none => exact Or.inl rfl
    | some entity =>
      simp only []
      split_ifs with h2
      · exact Or.inl rfl
      · rw [applyStep_calls]
        cases hf : flag (setFromValue data entity).1 with
        | false => exact Or.inl rfl
        | true => exact Or.inr ⟨rfl, entity, hf⟩

theorem deleteSteps_failed {Model : Type} (resp : ResourceResponse Model)
    (mutation : ClientCall) (result : Option GoError) (summary : String) (flag : Bool)
    (apply : ClientCall) (applied : Option GoError) (applySummary : String) (err : GoError)
    (hpre : Diagnostics.HasError resp.Diagnostics = false) (herr : result = some err) :
    deleteSteps resp mutation result summary flag apply applied applySummary =
      { resp :=
          { resp with
            Diagnostics :=
              resp.Diagnostics ++
                [NewErrorDiagnostic summary ("unexpected error: " ++ GoError.Error err)] },
        calls := [mutation], panic := none } := by
  unfold deleteSteps
  rw [herr, AddError_some _ _ _ hpre]
  rfl

theorem deleteSteps_succeeded {Model : Type} (resp : ResourceResponse Model)
    (mutation : ClientCall) (summary : String) (flag : Bool)
    (apply : ClientCall) (applied : Option GoError) (applySummary : String) :
    deleteSteps resp mutation none summary flag apply applied applySummary =
      applyStep (ResourceResponse.RemoveResource resp) [mutation] flag apply applied
        applySummary := by
  unfold deleteSteps
  simp only [AddError_none]
  rw [if_neg (by simp)]

theorem deleteSteps_calls {Model : Type} (resp : ResourceResponse Model)
    (mutation : ClientCall) (result : Option GoError) (summary : String) (flag : Bool)
    (apply : ClientCall) (applied : Option GoError) (applySummary : String) :
    (deleteSteps resp mutation result summary flag apply applied
        applySummary).calls = [mutation] ∨
      ((deleteSteps resp mutation result summary flag apply applied
          applySummary).calls = [mutation, apply] ∧ flag = true) := by
  unfold deleteSteps
  split_ifs with h1
  · exact Or.inl rfl
  · rw [applyStep_calls]
    cases flag with
    | false => exact Or.inl rfl
    | true => exact Or.inr ⟨rfl, rfl⟩

theorem readSteps_failed {Model Entity : Type} (fw : Framework Model)
    (resp : ResourceResponse Model) (data : Model) (get : ClientCall)
    (result : Option Entity × Option GoError) (summary : String)
    (setFromValue : Model → Entity → Model × Diagnostics) (err : GoError)
    (hpre : Diagnostics.HasError resp.Diagnostics = false) (herr : result.2 = some err) :
    readSteps fw resp data get result summary setFromValue =
      { resp :=
          { resp with
            Diagnostics :=
              resp.Diagnostics ++
                [NewErrorDiagnostic summary ("unexpected error: " ++ GoError.Error err)] },
        calls := [get], panic := none } := by
  unfold readSteps
  rw [herr, AddError_some _ _ _ hpre]
  rfl

theorem readSteps_calls {Model Entity : Type} (fw : Framework Model)
    (resp : ResourceResponse Model) (data : Model) (get : ClientCall)
    (result : Option Entity × Option GoError) (summary : String)
    (setFromValue : Model → Entity → Model × Diagnostics) :
    (readSteps fw resp data get result summary setFromValue).calls = [get] := by
  unfold readSteps
  split_ifs with h1
  · rfl
  · cases result.1 with
    | none => rfl
    | some entity =>
      simp only []
      split_ifs <;> rfl

/-! ## The operations follow the shared steps -/

theorem ConfigFileResource_Create_reach (client : pfsense.Client) (set : pfsense.ConfigFileSetters)
    (fw : Framework ConfigFileResourceModel) (req : CreateRequest ConfigFileResourceModel)
    (resp : ResourceResponse ConfigFileResourceModel) :
    (ConfigFileResource.Create client set fw req resp).calls = [] ∨
      ∃ pre : ResourceResponse ConfigFileResourceModel,
        Diagnostics.HasError pre.Diagnostics = false ∧ pre.State = resp.State ∧
        ConfigFileResource.Create client set fw req resp =
          writeSteps fw pre req.Plan.data
            (ClientCall.CreateDNSResolverConfigFile (req.Plan.data.Value set).1)
            (client.CreateDNSResolverConfigFile (req.Plan.data.Value set).1)
            "Error creating config file" ConfigFileResourceModel.SetFromValue
            (fun d => d.Apply.ValueBool) ClientCall.ApplyDNSResolverChanges
            client.ApplyDNSResolverChanges "Error applying config file" := by
  unfold ConfigFileResource.Create
  simp only []
  by_cases h1 : Diagnostics.HasError (resp.AppendDiagnostics req.Plan.diags).Diagnostics = true
  · rw [if_pos h1]
    exact Or.inl rfl
  · rw [if_neg h1]
    by_cases h2 : Diagnostics.HasError
        ((resp.AppendDiagnostics req.Plan.diags).AppendDiagnostics
          (req.Plan.data.Value set).2).Diagnostics = true
    · rw [if_pos h2]
      exact Or.inl rfl
    · rw [if_neg h2]
      refine Or.inr
        ⟨(resp.AppendDiagnostics req.Plan.diags).AppendDiagnostics
            (req.Plan.data.Value set).2,
          by simpa using h2, rfl, ?_⟩
      unfold writeSteps applyStep
      generalize client.CreateDNSResolverConfigFile _ = answer
      obtain ⟨val, err⟩ := answer
      cases val <;> rfl

theorem ConfigFileResource_Update_reach (client : pfsense.Client) (set : pfsense.ConfigFileSetters)
    (fw : Framework ConfigFileResourceModel) (req : UpdateRequest ConfigFileResourceModel)
    (resp : ResourceResponse ConfigFileResourceModel) :
    (ConfigFileResource.Update client set fw req resp).calls = [] ∨
      ∃ pre : ResourceResponse ConfigFileResourceModel,
        Diagnostics.HasError pre.Diagnostics = false ∧ pre.State = resp.State ∧
        ConfigFileResource.Update client set fw req resp =
          writeSteps fw pre req.Plan.data
            (ClientCall.UpdateDNSResolverConfigFile (req.Plan.data.Value set).1)
            (client.UpdateDNSResolverConfigFile (req.Plan.data.Value set).1)
            "Error updating config file" ConfigFileResourceModel.SetFromValue
            (fun d => d.Apply.ValueBool) ClientCall.ApplyDNSResolverChanges
            client.ApplyDNSResolverChanges "Error applying config file" := by
  unfold ConfigFileResource.Update
  simp only []
  by_cases h1 : Diagnostics.HasError (resp.AppendDiagnostics req.Plan.diags).Diagnostics = true
  · rw [if_pos h1]
    exact Or.inl rfl
  · rw [if_neg h1]
    by_cases h2 : Diagnostics.HasError
        ((resp.AppendDiagnostics req.Plan.diags).AppendDiagnostics
          (req.Plan.data.Value set).2).Diagnostics = true
    · rw [if_pos h2]
      exact Or.inl rfl
    · rw [if_neg h2, if_neg h2]
      refine Or.inr
        ⟨(resp.AppendDiagnostics req.Plan.diags).AppendDiagnostics
            (req.Plan.data.Value set).2,
          by simpa using h2, rfl, ?_⟩
      unfold writeSteps applyStep
      generalize client.UpdateDNSResolverConfigFile _ = answer
      obtain ⟨val, err⟩ := answer
      cases val <;> rfl

theorem ConfigFileResource_Read_reach (client : pfsense.Client)
    (fw : Framework ConfigFileResourceModel) (req : ReadRequest ConfigFileResourceModel)
    (resp : ResourceResponse ConfigFileResourceModel) :
    (ConfigFileResource.Read client fw req resp).calls = [] ∨
      ∃ pre : ResourceResponse ConfigFileResourceModel,
        Diagnostics.HasError pre.Diagnostics = false ∧ pre.State = resp.State ∧
        ConfigFileResource.Read client fw req resp =
          readSteps fw pre req.State.data
            (ClientCall.GetDNSResolverConfigFile req.State.data.Name.ValueString)
            (client.GetDNSResolverConfigFile req.State.data.Name.ValueString)
            "Error reading config file" ConfigFileResourceModel.SetFromValue := by
  unfold ConfigFileResource.Read
  simp only []
  by_cases h1 : Diagnostics.HasError (resp.AppendDiagnostics req.State.diags).Diagnostics = true
  · rw [if_pos h1]
    exact Or.inl rfl
  · rw [if_neg h1]
    refine Or.inr ⟨resp.AppendDiagnostics req.State.diags, by simpa using h1, rfl, ?_⟩
    unfold readSteps
    generalize client.GetDNSResolverConfigFile _ = answer
    obtain ⟨val, err⟩ := answer
    cases val <;> rfl

theorem ConfigFileResource_Delete_reach (client : pfsense.Client)
    (req : DeleteRequest ConfigFileResourceModel)
    (resp : ResourceResponse ConfigFileResourceModel) :
    (ConfigFileResource.Delete client req resp).calls = [] ∨
      ∃ pre : ResourceResponse ConfigFileResourceModel,
        Diagnostics.HasError pre.Diagnostics = false ∧ pre.State = resp.State ∧
        ConfigFileResource.Delete client req resp =
          deleteSteps pre
            (ClientCall.DeleteDNSResolverConfigFile req.State.data.Name.ValueString)
            (client.DeleteDNSResolverConfigFile req.State.data.Name.ValueString)
            "Error deleting config file" req.State.data.Apply.ValueBool
            ClientCall.ApplyDNSResolverChanges client.ApplyDNSResolverChanges "Error applying config file" := by
  unfold ConfigFileResource.Delete
  simp only []
  by_cases h1 : Diagnostics.HasError (resp.AppendDiagnostics req.State.diags).Diagnostics = true
  · rw [if_pos h1]
    exact Or.inl rfl
  · rw [if_neg h1]
    exact Or.inr ⟨resp.AppendDiagnostics req.State.diags, by simpa using h1, rfl, rfl⟩

theorem DomainOverrideResource_Create_reach (client : pfsense.Client) (set : pfsense.DomainOverrideSetters)
    (fw : Framework DomainOverrideResourceModel) (req : CreateRequest DomainOverrideResourceModel)
    (resp : ResourceResponse DomainOverrideResourceModel) :
    (DomainOverrideResource.Create client set fw req resp).calls = [] ∨
      ∃ pre : ResourceResponse DomainOverrideResourceModel,
        Diagnostics.HasError pre.Diagnostics = false ∧ pre.State = resp.State ∧
        DomainOverrideResource.Create client set fw req resp =
          writeSteps fw pre req.Plan.data
            (ClientCall.CreateDNSResolverDomainOverride (req.Plan.data.Value set).1)
            (client.CreateDNSResolverDomainOverride (req.Plan.data.Value set).1)
            "Error creating domain override" DomainOverrideResourceModel.SetFromValue
            (fun d => d.Apply.ValueBool) ClientCall.ApplyDNSResolverChanges
            client.ApplyDNSResolverChanges "Error applying domain override" := by
  unfold DomainOverrideResource.Create
  simp only []
  by_cases h1 : Diagnostics.HasError (resp.AppendDiagnostics req.Plan.diags).Diagnostics = true
  · rw [if_pos h1]
    exact Or.inl rfl
  · rw [if_neg h1]
    by_cases h2 : Diagnostics.HasError
        ((resp.AppendDiagnostics req.Plan.diags).AppendDiagnostics
          (req.Plan.data.Value set).2).Diagnostics = true
    · rw [if_pos h2]
      exact Or.inl rfl
    · rw [if_neg h2]
      refine Or.inr
        ⟨(resp.AppendDiagnostics req.Plan.diags).AppendDiagnostics
            (req.Plan.data.Value set).2,
          by simpa using h2, rfl, ?_⟩
      unfold writeSteps applyStep
      generalize client.CreateDNSResolverDomainOverride _ = answer
      obtain ⟨val, err⟩ := answer
      cases val <;> rfl

theorem DomainOverrideResource_Update_reach (client : pfsense.Client) (set : pfsense.DomainOverrideSetters)
    (fw : Framework DomainOverrideResourceModel) (req : UpdateRequest DomainOverrideResourceModel)
    (resp : ResourceResponse DomainOverrideResourceModel) :
    (DomainOverrideResource.Update client set fw req resp).calls = [] ∨
      ∃ pre : ResourceResponse DomainOverrideResourceModel,
        Diagnostics.HasError pre.Diagnostics = false ∧ pre.State = resp.State ∧
        DomainOverrideResource.Update client set fw req resp =
          writeSteps fw pre req.Plan.data
            (ClientCall.UpdateDNSResolverDomainOverride (req.Plan.data.Value set).1)
            (client.UpdateDNSResolverDomainOverride (req.Plan.data.Value set).1)
            "Error updating domain override" DomainOverrideResourceModel.SetFromValue
            (fun d => d.Apply.ValueBool) ClientCall.ApplyDNSResolverChanges
            client.ApplyDNSResolverChanges "Error applying domain override" := by
  unfold DomainOverrideResource.Update
  simp only []
  by_cases h1 : Diagnostics.HasError (resp.AppendDiagnostics req.Plan.diags).Diagnostics = true
  · rw [if_pos h1]
    exact Or.inl rfl
  · rw [if_neg h1]
    by_cases h2 : Diagnostics.HasError
        ((resp.AppendDiagnostics req.Plan.diags).AppendDiagnostics
          (req.Plan.data.Value set).2).Diagnostics = true
    · rw [if_pos h2]
      exact Or.inl rfl
    · rw [if_neg h2, if_neg h2]
      refine Or.inr
        ⟨(resp.AppendDiagnostics req.Plan.diags).AppendDiagnostics
            (req.Plan.data.Value set).2,
          by simpa using h2, rfl, ?_⟩
      unfold writeSteps applyStep
      generalize client.UpdateDNSResolverDomainOverride _ = answer
      obtain ⟨val, err⟩ := answer
      cases val <;> rfl

theorem DomainOverrideResource_Read_reach (client : pfsense.Client)
    (fw : Framework DomainOverrideResourceModel) (req : ReadRequest DomainOverrideResourceModel)
    (resp : ResourceResponse DomainOverrideResourceModel) :
    (DomainOverrideResource.Read client fw req resp).calls = [] ∨
      ∃ pre : ResourceResponse DomainOverrideResourceModel,
        Diagnostics.HasError pre.Diagnostics = false ∧ pre.State = resp.State ∧
        DomainOverrideResource.Read client fw req resp =
          readSteps fw pre req.State.data
            (ClientCall.GetDNSResolverDomainOverride req.State.data.Domain.ValueString)
            (client.GetDNSResolverDomainOverride req.State.data.Domain.ValueString)
            "Error reading domain override" DomainOverrideResourceModel.SetFromValue := by
  unfold DomainOverrideResource.Read
  simp only []
  by_cases h1 : Diagnostics.HasError (resp.AppendDiagnostics req.State.diags).Diagnostics = true
  · rw [if_pos h1]
    exact Or.inl rfl
  · rw [if_neg h1]
    refine Or.inr ⟨resp.AppendDiagnostics req.State.diags, by simpa using h1, rfl, ?_⟩
    unfold readSteps
    generalize client.GetDNSResolverDomainOverride _ = answer
    obtain ⟨val, err⟩ := answer
    cases val <;> rfl

theorem DomainOverrideResource_Delete_reach (client : pfsense.Client)
    (req : DeleteRequest DomainOverrideResourceModel)
    (resp : ResourceResponse DomainOverrideResourceModel) :
    (DomainOverrideResource.Delete client req resp).calls = [] ∨
      ∃ pre : ResourceResponse DomainOverrideResourceModel,
        Diagnostics.HasError pre.Diagnostics = false ∧ pre.State = resp.State ∧
        DomainOverrideResource.Delete client req resp =
          deleteSteps pre
            (ClientCall.DeleteDNSResolverDomainOverride req.State.data.Domain.ValueString)
            (client.DeleteDNSResolverDomainOverride req.State.data.Domain.ValueString)
            "Error deleting domain override" req.State.data.Apply.ValueBool
            ClientCall.ApplyDNSResolverChanges client.ApplyDNSResolverChanges "Error applying domain override" := by
  unfold DomainOverrideResource.Delete
  simp only []
  by_cases h1 : Diagnostics.HasError (resp.AppendDiagnostics req.State.diags).Diagnostics = true
  · rw [if_pos h1]
    exact Or.inl rfl
  · rw [if_neg h1]
    exact Or.inr ⟨resp.AppendDiagnostics req.State.diags, by simpa using h1, rfl, rfl⟩

theorem IPAliasResource_Create_reach (client : pfsense.Client) (ext : IPAliasCollaborators)
    (fw : Framework IPAliasResourceModel) (req : CreateRequest IPAliasResourceModel)
    (resp : ResourceResponse IPAliasResourceModel) :
    (IPAliasResource.Create client ext fw req resp).calls = [] ∨
      ∃ (pre : ResourceResponse IPAliasResourceModel) (ipAliasReq : pfsense.FirewallIPAlias),
        Diagnostics.HasError pre.Diagnostics = false ∧ pre.State = resp.State ∧
        IPAliasResource.Create client ext fw req resp =
          writeSteps fw pre req.Plan.data
            (ClientCall.CreateFirewallIPAlias ipAliasReq)
            (client.CreateFirewallIPAlias ipAliasReq)
            "Error creating IP alias" IPAliasResourceModel.SetFromValue
            (fun d => d.Apply.ValueBool) ClientCall.ReloadFirewallFilter
            client.ReloadFirewallFilter "Error applying IP alias" := by
  unfold IPAliasResource.Create
  simp only []
  by_cases h1 : Diagnostics.HasError (resp.AppendDiagnostics req.Plan.diags).Diagnostics = true
  · rw [if_pos h1]
    exact Or.inl rfl
  · rw [if_neg h1]
    by_cases h2 : Diagnostics.HasError
        ((resp.AppendDiagnostics req.Plan.diags).AppendDiagnostics
          (req.Plan.data.Value ext).2).Diagnostics = true
    · rw [if_pos h2]
      exact Or.inl rfl
    · rw [if_neg h2]
      cases (IPAliasResourceModel.Value ext req.Plan.data).1 with
      | none => exact Or.inl rfl
      | some ipAliasReq =>
        refine Or.inr
          ⟨(resp.AppendDiagnostics req.Plan.diags).AppendDiagnostics
              (req.Plan.data.Value ext).2,
            ipAliasReq, by simpa using h2, rfl, ?_⟩
        dsimp only
        unfold writeSteps applyStep
        generalize client.CreateFirewallIPAlias _ = answer
        obtain ⟨val, err⟩ := answer
        cases val <;> rfl

theorem IPAliasResource_Update_reach (client : pfsense.Client) (ext : IPAliasCollaborators)
    (fw : Framework IPAliasResourceModel) (req : UpdateRequest IPAliasResourceModel)
    (resp : ResourceResponse IPAliasResourceModel) :
    (IPAliasResource.Update client ext fw req resp).calls = [] ∨
      ∃ (pre : ResourceResponse IPAliasResourceModel) (ipAliasReq : pfsense.FirewallIPAlias),
        Diagnostics.HasError pre.Diagnostics = false ∧ pre.State = resp.State ∧
        IPAliasResource.Update client ext fw req resp =
          writeSteps fw pre req.Plan.data
            (ClientCall.UpdateFirewallIPAlias ipAliasReq)
            (client.UpdateFirewallIPAlias ipAliasReq)
            "Error updating IP alias" IPAliasResourceModel.SetFromValue
            (fun d => d.Apply.ValueBool) ClientCall.ReloadFirewallFilter
            client.ReloadFirewallFilter "Error applying IP alias" := by
  unfold IPAliasResource.Update
  simp only []
  by_cases h1 : Diagnostics.HasError (resp.AppendDiagnostics req.Plan.diags).Diagnostics = true
  · rw [if_pos h1]
    exact Or.inl rfl
  · rw [if_neg h1]
    by_cases h2 : Diagnostics.HasError
        ((resp.AppendDiagnostics req.Plan.diags).AppendDiagnostics
          (req.Plan.data.Value ext).2).Diagnostics = true
    · rw [if_pos h2]
      exact Or.inl rfl
    · rw [if_neg h2, if_neg h2]
      cases (IPAliasResourceModel.Value ext req.Plan.data).1 with
      | none => exact Or.inl rfl
      | some ipAliasReq =>
        refine Or.inr
          ⟨(resp.AppendDiagnostics req.Plan.diags).AppendDiagnostics
              (req.Plan.data.Value ext).2,
            ipAliasReq, by simpa using h2, rfl, ?_⟩
        dsimp only
        unfold writeSteps applyStep
        generalize client.UpdateFirewallIPAlias _ = answer
        obtain ⟨val, err⟩ := answer
        cases val <;> rfl

theorem IPAliasResource_Read_reach (client : pfsense.Client)
    (fw : Framework IPAliasResourceModel) (req : ReadRequest IPAliasResourceModel)
    (resp : ResourceResponse IPAliasResourceModel) :
    (IPAliasResource.Read client fw req resp).calls = [] ∨
      ∃ pre : ResourceResponse IPAliasResourceModel,
        Diagnostics.HasError pre.Diagnostics = false ∧ pre.State = resp.State ∧
        IPAliasResource.Read client fw req resp =
          readSteps fw pre req.State.data
            (ClientCall.GetFirewallIPAlias req.State.data.Name.ValueString)
            (client.GetFirewallIPAlias req.State.data.Name.ValueString)
            "Error reading IP alias" IPAliasResourceModel.SetFromValue := by
  unfold IPAliasResource.Read
  simp only []
  by_cases h1 : Diagnostics.HasError (resp.AppendDiagnostics req.State.diags).Diagnostics = true
  · rw [if_pos h1]
    exact Or.inl rfl
  · rw [if_neg h1]
    refine Or.inr ⟨resp.AppendDiagnostics req.State.diags, by simpa using h1, rfl, ?_⟩
    unfold readSteps
    generalize client.GetFirewallIPAlias _ = answer
    obtain ⟨val, err⟩ := answer
    cases val <;> rfl

theorem IPAliasResource_Delete_reach (client : pfsense.Client)
    (req : DeleteRequest IPAliasResourceModel)
    (resp : ResourceResponse IPAliasResourceModel) :
    (IPAliasResource.Delete client req resp).calls = [] ∨
      ∃ pre : ResourceResponse IPAliasResourceModel,
        Diagnostics.HasError pre.Diagnostics = false ∧ pre.State = resp.State ∧
        IPAliasResource.Delete client req resp =
          deleteSteps pre
            (ClientCall.DeleteFirewallIPAlias req.State.data.Name.ValueString)
            (client.DeleteFirewallIPAlias req.State.data.Name.ValueString)
            "Error deleting IP alias" req.State.data.Apply.ValueBool
            ClientCall.ReloadFirewallFilter client.ReloadFirewallFilter "Error applying IP alias" := by
  unfold IPAliasResource.Delete
  simp only []
  by_cases h1 : Diagnostics.HasError (resp.AppendDiagnostics req.State.diags).Diagnostics = true
  · rw [if_pos h1]
    exact Or.inl rfl
  · rw [if_neg h1]
    exact Or.inr ⟨resp.AppendDiagnostics req.State.diags, by simpa using h1, rfl, rfl⟩

/-! ## `AddError` (claim C17) -/

/-- Claim C17 as stated fails: on diagnostics that already hold the very error
diagnostic `AddError` is about to add, `AddError` with a non-nil error returns
true and appends nothing, because `(*diag.Diagnostics).Append` skips a
diagnostic the collection already contains. -/
theorem AddError_duplicate_counterexample :
    AddError [errorDiagnostic "Error creating config file" (GoError.new "boom")]
        "Error creating config file" (some (GoError.new "boom")) =
      ([errorDiagnostic "Error creating config file" (GoError.new "boom")], true) := by
  decide

/-- Claim C17 as amended: for all diagnostics, summary and error, `AddError`
returns true if and only if the error is non-nil.  With a nil error the
diagnostics are unchanged.  With a non-nil error the diagnostics afterwards hold
the error diagnostic with the given summary and the detail
"unexpected error: <err>": it is appended, once, at the end when the collection
did not hold it yet, and the collection is unchanged when it already did. -/
theorem AddError_spec (diags : Diagnostics) (summary : String) (err : Option GoError) :
    ((AddError diags summary err).2 = true ↔ err ≠ none) ∧
      (err = none → (AddError diags summary err).1 = diags) ∧
      (∀ e, err = some e →
        NewErrorDiagnostic summary ("unexpected error: " ++ GoError.Error e) ∈
            (AddError diags summary err).1 ∧
          (NewErrorDiagnostic summary ("unexpected error: " ++ GoError.Error e) ∉ diags →
            (AddError diags summary err).1 =
              diags ++ [NewErrorDiagnostic summary ("unexpected error: " ++ GoError.Error e)]) ∧
          (NewErrorDiagnostic summary ("unexpected error: " ++ GoError.Error e) ∈ diags →
            (AddError diags summary err).1 = diags)) := by
  cases err with
  | none =>
    refine ⟨by simp [AddError], ?_, ?_⟩
    · intro _
      rfl
    intro e he
    cases he
  | some e' =>
    refine ⟨by simp [AddError], ?_, ?_⟩
    · intro h
      cases h
    intro e he
    cases he
    simp only [AddError, Diagnostics.AddError]
    refine ⟨?_, ?_, ?_⟩
    · exact (Diagnostics.mem_Append diags _ _).mpr (Or.inr (List.mem_singleton.mpr rfl))
    · intro h
      exact Diagnostics.Append_singleton_of_not_mem diags _ h
    · intro h
      exact Diagnostics.Append_singleton_of_mem diags _ h

/-- Instance of claim C17 as amended: a first error on diagnostics that hold a
warning only. -/
theorem AddError_spec_witness :
    (some (GoError.new "boom") = some (GoError.new "boom")) ∧
    NewErrorDiagnostic "Error reading IP alias" ("unexpected error: " ++ "boom") ∉
      [{ Severity := Severity.Warning, Summary := "deprecated", Detail := "", Path := none }] ∧
    (AddError
        [{ Severity := Severity.Warning, Summary := "deprecated", Detail := "", Path := none }]
        "Error reading IP alias" (some (GoError.new "boom"))).1 =
      [{ Severity := Severity.Warning, Summary := "deprecated", Detail := "", Path := none }] ++
        [NewErrorDiagnostic "Error reading IP alias" ("unexpected error: " ++ "boom")] :=
  ⟨rfl, by decide,
    ((AddError_spec
        [{ Severity := Severity.Warning, Summary := "deprecated", Detail := "", Path := none }]
        "Error reading IP alias" (some (GoError.new "boom"))).2.2 (GoError.new "boom") rfl).2.1
      (by decide)⟩

/-! ## `DoWithRetries`: the shape of the result (claims C19, C20) -/

theorem retryLoop_one_of (client : Client) (req : Request) (m : Int) :
    ∀ a n,
      ((retryLoop client req m a n).res.isSome = true ∧ (retryLoop client req m a n).err = none) ∨
      ((retryLoop client req m a n).res = none ∧
        (retryLoop client req m a n).err.isSome = true) := by
  apply retryLoop_induction m
  intro a n ih
  by_cases h : a < wrapInt (m + 1)
  · rcases retryLoop_round client req m a n h with ⟨e, _, hr⟩ | ⟨_, _, hr⟩ | ⟨res, _, _, _, hr⟩
    · rw [hr]; exact Or.inr ⟨rfl, rfl⟩
    · rw [hr]; exact ih h (n + 1)
    · rw [hr]; exact Or.inl ⟨rfl, rfl⟩
  · rw [retryLoop_exit client req m a n h]
    exact Or.inr ⟨rfl, rfl⟩

/-- Claim C19: for every client behaviour, request and `maxAttempts`,
`DoWithRetries` returns either a non-nil response with a nil error or a nil
response with a non-nil error, never both nil and never both non-nil. -/
theorem DoWithRetries_one_of (client : Client) (req : Request) (m : Int) :
    ((DoWithRetries client req m).res.isSome = true ∧ (DoWithRetries client req m).err = none) ∨
    ((DoWithRetries client req m).res = none ∧
      (DoWithRetries client req m).err.isSome = true) := by
  unfold DoWithRetries
  exact retryLoop_one_of client req _ 0 0

/-- With two bounds `n ≤ m` below the largest `int`, a loop that does not end in
the exhaustion error under the bound `n` ends the same way under the bound `m`. -/
theorem retryLoop_raise_bound (client : Client) (req : Request) (n m : Int)
    (h0 : 0 ≤ n) (hnm : n ≤ m) (hm : m < MaxInt) :
    ∀ a c, 0 ≤ a → (retryLoop client req n a c).err ≠ some errExhausted →
      retryLoop client req m a c = retryLoop client req n a c := by
  have hbn := loopBound_of_lt_MaxInt h0 (lt_of_le_of_lt hnm hm)
  have hbm := loopBound_of_lt_MaxInt (le_trans h0 hnm) hm
  apply retryLoop_induction n
    (fun a c => 0 ≤ a → (retryLoop client req n a c).err ≠ some errExhausted →
      retryLoop client req m a c = retryLoop client req n a c)
  intro a c ih ha hne
  by_cases h : a < wrapInt (n + 1)
  · have h' : a < wrapInt (m + 1) := by rw [hbm]; rw [hbn] at h; omega
    have hs := wrapInt_succ_of_lt ha h
    rcases retryLoop_round client req n a c h with
      ⟨e, hc, hr⟩ | ⟨hc, hry, hr⟩ | ⟨res, hc, hd, hnr, hr⟩
    · rw [hr, retryLoop_ctx client req m a c e h' hc]
    · rw [hr] at hne ⊢
      rw [retryLoop_continue client req m a c h' hc hry]
      exact ih h (c + 1) (by rw [hs]; omega) hne
    · rw [hr, retryLoop_return client req m a c res h' hc hd hnr]
  · rw [retryLoop_exit client req n a c h] at hne
    exact absurd rfl hne

/-- Below the largest `int`, raising the retry bound does not change an outcome
already reached: if `DoWithRetries` with `maxAttempts = n ≥ 0` does not return
the exhaustion error, it returns the same response or error after the same
number of calls with every `maxAttempts = m ≥ n`. -/
theorem DoWithRetries_raise_bound (client : Client) (req : Request) (n m : Int)
    (h0 : 0 ≤ n) (hnm : n ≤ m) (hm : m < MaxInt)
    (hne : (DoWithRetries client req n).err ≠ some errExhausted) :
    DoWithRetries client req m = DoWithRetries client req n := by
  unfold DoWithRetries at hne ⊢
  rw [if_neg (not_lt.mpr h0)] at hne ⊢
  rw [if_neg (not_lt.mpr (le_trans h0 hnm))]
  exact retryLoop_raise_bound client req n m h0 hnm hm 0 0 (le_refl 0) hne

/-- Claim C20, at the input where the code departs from it: with a backend that
answers 501 to the first call, `DoWithRetries` with `maxAttempts = 0` returns
that response after one call, while with the larger bound
`maxAttempts = 9223372036854775807` it returns the exhaustion error after no
call at all. -/
theorem DoWithRetries_raise_bound_MaxInt :
    (0 : Int) ≤ 0 ∧ (0 : Int) ≤ MaxInt ∧
    DoWithRetries notImplementedClient plainRequest 0 =
      { res := some notImplementedResponse, err := none, count := 1 } ∧
    DoWithRetries notImplementedClient plainRequest MaxInt =
      { res := none, err := some errExhausted, count := 0 } := by
  refine ⟨by decide, by decide, ?_, DoWithRetries_MaxInt_no_call _ _⟩
  simp [DoWithRetries, retryLoop, wrapInt, notImplementedClient, notImplementedResponse,
    plainRequest, StatusNotImplemented]

/-! ## `SetFromValue` (claims C16, C18) -/

theorem ConfigFileResourceModel_SetFromValue_diags (r : ConfigFileResourceModel)
    (e : pfsense.ConfigFile) : (r.SetFromValue e).2 = [] := rfl

theorem ConfigFileResourceModel_SetFromValue_Apply (r : ConfigFileResourceModel)
    (e : pfsense.ConfigFile) : (r.SetFromValue e).1.Apply = r.Apply := rfl

theorem DomainOverrideResourceModel_SetFromValue_diags (r : DomainOverrideResourceModel)
    (e : pfsense.DomainOverride) : (r.SetFromValue e).2 = [] := rfl

theorem DomainOverrideResourceModel_SetFromValue_Apply (r : DomainOverrideResourceModel)
    (e : pfsense.DomainOverride) : (r.SetFromValue e).1.Apply = r.Apply := by
  unfold DomainOverrideResourceModel.SetFromValue
  simp only []
  split_ifs <;> rfl

/-- The loop of lines 63-74 builds the list of the entry models, in order. -/
theorem foldl_sliceAppend (entries : List pfsense.FirewallIPAliasEntry)
    (acc : List FirewallIPAliasEntryResourceModel) :
    entries.foldl (fun s entry => sliceAppend s (entryModelOf entry)) (some acc) =
      some (acc ++ entries.map entryModelOf) := by
  induction entries generalizing acc with
  | nil => simp
  | cons x xs ih =>
    rw [List.foldl_cons]
    show List.foldl _ (some (acc ++ [entryModelOf x])) xs = _
    rw [ih]
    simp

theorem IPAliasResourceModel.SetFromValue_Entries_map (r : IPAliasResourceModel)
    (e : pfsense.FirewallIPAlias) :
    (r.SetFromValue e).1.Entries = TypesList.value (e.Entries.map entryModelOf) := by
  unfold IPAliasResourceModel.SetFromValue
  simp only [foldl_sliceAppend, ListValueFrom, List.nil_append]

theorem IPAliasResourceModel_SetFromValue_diags (r : IPAliasResourceModel)
    (e : pfsense.FirewallIPAlias) : (r.SetFromValue e).2 = [] := by
  unfold IPAliasResourceModel.SetFromValue
  simp only [foldl_sliceAppend, ListValueFrom]

theorem IPAliasResourceModel_SetFromValue_Apply (r : IPAliasResourceModel)
    (e : pfsense.FirewallIPAlias) : (r.SetFromValue e).1.Apply = r.Apply := by
  unfold IPAliasResourceModel.SetFromValue
  simp only []
  split_ifs <;> rfl

/-- Claim C16 as stated fails: for a backend entity with an empty description,
`SetFromValue` of the domain override model leaves `description` as the model
held it before the call, so two models that differ in it still differ
afterwards. -/
theorem SetFromValue_keeps_description_counterexample :
    backendOverride.Description = "" ∧
    (describedOverride.SetFromValue backendOverride).1.Description = StringValue "old note" ∧
    (plainOverride.SetFromValue backendOverride).1.Description = TypesString.null ∧
    (describedOverride.SetFromValue backendOverride).1.Description ≠
      (plainOverride.SetFromValue backendOverride).1.Description := by
  decide

/-- Claim C16 as amended: whatever two models `r` and `r'` held before,
`SetFromValue` with the same entity leaves the same `name` and `content`
(config file), the same `domain`, `ip_address` and `tls_queries` (domain
override), the same `name`, `type` and `entries` (IP alias); the optional
`tls_hostname` and `description` are the same when the entity's value is not
empty, and are the value the model held before when it is empty; `apply` is
the value the model held before. -/
theorem SetFromValue_determined :
    (∀ (r r' : ConfigFileResourceModel) (e : pfsense.ConfigFile),
      (r.SetFromValue e).1.Name = (r'.SetFromValue e).1.Name ∧
      (r.SetFromValue e).1.Content = (r'.SetFromValue e).1.Content ∧
      (r.SetFromValue e).1.Apply = r.Apply) ∧
    (∀ (r r' : DomainOverrideResourceModel) (e : pfsense.DomainOverride),
      (r.SetFromValue e).1.Domain = (r'.SetFromValue e).1.Domain ∧
      (r.SetFromValue e).1.IPAddress = (r'.SetFromValue e).1.IPAddress ∧
      (r.SetFromValue e).1.TLSQueries = (r'.SetFromValue e).1.TLSQueries ∧
      (e.TLSHostname ≠ "" →
        (r.SetFromValue e).1.TLSHostname = (r'.SetFromValue e).1.TLSHostname) ∧
      (e.TLSHostname = "" → (r.SetFromValue e).1.TLSHostname = r.TLSHostname) ∧
      (e.Description ≠ "" →
        (r.SetFromValue e).1.Description = (r'.SetFromValue e).1.Description) ∧
      (e.Description = "" → (r.SetFromValue e).1.Description = r.Description) ∧
      (r.SetFromValue e).1.Apply = r.Apply) ∧
    (∀ (r r' : IPAliasResourceModel) (e : pfsense.FirewallIPAlias),
      (r.SetFromValue e).1.Name = (r'.SetFromValue e).1.Name ∧
      (r.SetFromValue e).1.Type_ = (r'.SetFromValue e).1.Type_ ∧
      (r.SetFromValue e).1.Entries = (r'.SetFromValue e).1.Entries ∧
      (e.Description ≠ "" →
        (r.SetFromValue e).1.Description = (r'.SetFromValue e).1.Description) ∧
      (e.Description = "" → (r.SetFromValue e).1.Description = r.Description) ∧
      (r.SetFromValue e).1.Apply = r.Apply) := by
  refine ⟨?_, ?_, ?_⟩
  · intro r r' e
    exact ⟨rfl, rfl, rfl⟩
  · intro r r' e
    unfold DomainOverrideResourceModel.SetFromValue
    simp only []
    by_cases h1 : e.TLSHostname = "" <;> by_cases h2 : e.Description = "" <;>
      simp [h1, h2]
  · intro r r' e
    refine ⟨?_, ?_, ?_, ?_, ?_, IPAliasResourceModel_SetFromValue_Apply r e⟩
    · unfold IPAliasResourceModel.SetFromValue
      simp only []
      split_ifs <;> rfl
    · rfl
    · rw [IPAliasResourceModel.SetFromValue_Entries_map, IPAliasResourceModel.SetFromValue_Entries_map]
    · intro h
      unfold IPAliasResourceModel.SetFromValue
      simp [h]
    · intro h
      unfold IPAliasResourceModel.SetFromValue
      simp [h]

/-- Instance of claim C16 as amended: the two sample domain override models and
the backend entity without description and TLS hostname. -/
theorem SetFromValue_determined_witness :
    backendOverride.Description = "" ∧
    (describedOverride.SetFromValue backendOverride).1.Domain =
      (plainOverride.SetFromValue backendOverride).1.Domain ∧
    (describedOverride.SetFromValue backendOverride).1.Description =
      describedOverride.Description :=
  ⟨rfl,
    (SetFromValue_determined.2.1 describedOverride plainOverride backendOverride).1,
    (SetFromValue_determined.2.1 describedOverride plainOverride backendOverride).2.2.2.2.2.2.1
      rfl⟩

/-- Claim C18: for every firewall IP alias entity, `SetFromValue` of the IP alias
model produces a known (non-null) entries list with exactly as many elements
as the entity has entries, in the same order, the `i`-th element carrying the
address of the `i`-th entry and its description when that is not empty, null
otherwise; an entity without entries yields the known empty list. -/
theorem IPAliasResourceModel.entries_from_entity (r : IPAliasResourceModel)
    (ipAlias : pfsense.FirewallIPAlias) :
    ∃ elems : List FirewallIPAliasEntryResourceModel,
      (r.SetFromValue ipAlias).1.Entries = TypesList.value elems ∧
      elems.length = ipAlias.Entries.length ∧
      (∀ i : Nat,
        elems[i]? =
          (ipAlias.Entries[i]?).map (fun entry =>
            { Address := TypesString.value entry.Address,
              Description :=
                if entry.Description = "" then TypesString.null
                else TypesString.value entry.Description })) ∧
      (ipAlias.Entries = [] → elems = []) := by
  refine ⟨ipAlias.Entries.map entryModelOf,
    IPAliasResourceModel.SetFromValue_Entries_map r ipAlias, List.length_map _ _, ?_, ?_⟩
  · intro i
    rw [List.getElem?_map]
    congr 1
    funext entry
    unfold entryModelOf
    by_cases h : entry.Description = "" <;> simp [h, StringValue]
  · intro h
    rw [h]
    rfl

/-- Instance of claim C18: the entries of the sample alias "office", taken into
the model of "blocklist". -/
theorem IPAliasResourceModel.entries_from_entity_witness :
    (blocklist.SetFromValue officeAlias).1.Entries =
        TypesList.value
          [{ Address := TypesString.value "192.0.2.10",
             Description := TypesString.value "printer" },
           { Address := TypesString.value "192.0.2.11", Description := TypesString.null }] ∧
    ∃ elems : List FirewallIPAliasEntryResourceModel,
      (blocklist.SetFromValue officeAlias).1.Entries = TypesList.value elems ∧
      elems.length = officeAlias.Entries.length ∧
      (∀ i : Nat,
        elems[i]? =
          (officeAlias.Entries[i]?).map (fun entry =>
            { Address := TypesString.value entry.Address,
              Description :=
                if entry.Description = "" then TypesString.null
                else TypesString.value entry.Description })) ∧
      (officeAlias.Entries = [] → elems = []) :=
  ⟨by decide, IPAliasResourceModel.entries_from_entity blocklist officeAlias⟩

/-! ## What the shared steps guarantee -/

theorem Diagnostics.errors_of_not_HasError (diags : Diagnostics)
    (h : Diagnostics.HasError diags = false) : Diagnostics.errors diags = [] := by
  unfold Diagnostics.errors
  rw [List.filter_eq_nil_iff]
  intro d hd hs
  have : Diagnostics.HasError diags = true :=
    (Diagnostics.HasError_iff diags).mpr ⟨d, hd, by simpa using hs⟩
  rw [h] at this
  cases this

theorem Diagnostics.errors_append_error (diags : Diagnostics) (summary : String)
    (err : GoError) (h : Diagnostics.HasError diags = false) :
    Diagnostics.errors (diags ++ [errorDiagnostic summary err]) =
      [errorDiagnostic summary err] := by
  have h0 := Diagnostics.errors_of_not_HasError diags h
  unfold Diagnostics.errors at h0 ⊢
  rw [List.filter_append, h0]
  rfl

theorem writeSteps_mem {Model Entity : Type} {fw : Framework Model}
    {resp : ResourceResponse Model} {data : Model} {mutation : ClientCall}
    {result : Option Entity × Option GoError} {summary : String}
    {setFromValue : Model → Entity → Model × Diagnostics} {flag : Model → Bool}
    {apply : ClientCall} {applied : Option GoError} {applySummary : String} {c : ClientCall}
    (h : c ∈ (writeSteps fw resp data mutation result summary setFromValue flag apply applied
      applySummary).calls) : c = mutation ∨ c = apply := by
  rcases writeSteps_calls fw resp data mutation result summary setFromValue flag apply applied
      applySummary with hc | ⟨hc, _⟩
  · rw [hc] at h
    exact Or.inl (List.mem_singleton.mp h)
  · rw [hc] at h
    simpa using h

theorem deleteSteps_mem {Model : Type} {resp : ResourceResponse Model} {mutation : ClientCall}
    {result : Option GoError} {summary : String} {flag : Bool} {apply : ClientCall}
    {applied : Option GoError} {applySummary : String} {c : ClientCall}
    (h : c ∈ (deleteSteps resp mutation result summary flag apply applied applySummary).calls) :
    c = mutation ∨ c = apply := by
  rcases deleteSteps_calls resp mutation result summary flag apply applied applySummary with
    hc | ⟨hc, _⟩
  · rw [hc] at h
    exact Or.inl (List.mem_singleton.mp h)
  · rw [hc] at h
    simpa using h

theorem readSteps_mem {Model Entity : Type} {fw : Framework Model}
    {resp : ResourceResponse Model} {data : Model} {get : ClientCall}
    {result : Option Entity × Option GoError} {summary : String}
    {setFromValue : Model → Entity → Model × Diagnostics} {c : ClientCall}
    (h : c ∈ (readSteps fw resp data get result summary setFromValue).calls) : c = get := by
  rw [readSteps_calls] at h
  exact List.mem_singleton.mp h

/-- Without the flag, Create and Update do not call the apply. -/
theorem writeSteps_no_apply {Model Entity : Type} (fw : Framework Model)
    (resp : ResourceResponse Model) (data : Model) (mutation : ClientCall)
    (result : Option Entity × Option GoError) (summary : String)
    (setFromValue : Model → Entity → Model × Diagnostics) (flag : Model → Bool)
    (apply : ClientCall) (applied : Option GoError) (applySummary : String)
    (hne : apply ≠ mutation) (hflag : ∀ entity, flag (setFromValue data entity).1 = false) :
    apply ∉ (writeSteps fw resp data mutation result summary setFromValue flag apply applied
      applySummary).calls := by
  rcases writeSteps_calls fw resp data mutation result summary setFromValue flag apply applied
      applySummary with hc | ⟨_, entity, hf⟩
  · rw [hc]
    intro h
    exact hne (List.mem_singleton.mp h)
  · rw [hflag entity] at hf
    cases hf

/-- Without the flag, Delete does not call the apply. -/
theorem deleteSteps_no_apply {Model : Type} (resp : ResourceResponse Model)
    (mutation : ClientCall) (result : Option GoError) (summary : String)
    (apply : ClientCall) (applied : Option GoError) (applySummary : String)
    (hne : apply ≠ mutation) :
    apply ∉ (deleteSteps resp mutation result summary false apply applied applySummary).calls := by
  rcases deleteSteps_calls resp mutation result summary false apply applied applySummary with
    hc | ⟨_, hf⟩
  · rw [hc]
    intro h
    exact hne (List.mem_singleton.mp h)
  · cases hf

theorem writeSteps_reportsFailedCall {Model Entity : Type} (fw : Framework Model)
    (resp entered : ResourceResponse Model) (data : Model) (mutation : ClientCall)
    (result : Option Entity × Option GoError) (summary : String)
    (setFromValue : Model → Entity → Model × Diagnostics) (flag : Model → Bool)
    (apply : ClientCall) (applied : Option GoError) (applySummary : String) (err : GoError)
    (hpre : Diagnostics.HasError resp.Diagnostics = false) (hst : resp.State = entered.State)
    (herr : result.2 = some err) :
    (writeSteps fw resp data mutation result summary setFromValue flag apply applied
      applySummary).ReportsFailedCall entered mutation summary err := by
  rw [writeSteps_failed fw resp data mutation result summary setFromValue flag apply applied
    applySummary err hpre herr]
  exact ⟨rfl, hst, Diagnostics.errors_append_error _ _ _ hpre⟩

theorem deleteSteps_reportsFailedCall {Model : Type} (resp entered : ResourceResponse Model)
    (mutation : ClientCall) (result : Option GoError) (summary : String) (flag : Bool)
    (apply : ClientCall) (applied : Option GoError) (applySummary : String) (err : GoError)
    (hpre : Diagnostics.HasError resp.Diagnostics = false) (hst : resp.State = entered.State)
    (herr : result = some err) :
    (deleteSteps resp mutation result summary flag apply applied
      applySummary).ReportsFailedCall entered mutation summary err := by
  rw [deleteSteps_failed resp mutation result summary flag apply applied applySummary err hpre
    herr]
  exact ⟨rfl, hst, Diagnostics.errors_append_error _ _ _ hpre⟩

theorem readSteps_reportsFailedCall {Model Entity : Type} (fw : Framework Model)
    (resp entered : ResourceResponse Model) (data : Model) (get : ClientCall)
    (result : Option Entity × Option GoError) (summary : String)
    (setFromValue : Model → Entity → Model × Diagnostics) (err : GoError)
    (hpre : Diagnostics.HasError resp.Diagnostics = false) (hst : resp.State = entered.State)
    (herr : result.2 = some err) :
    (readSteps fw resp data get result summary setFromValue).ReportsFailedCall entered get
      summary err := by
  rw [readSteps_failed fw resp data get result summary setFromValue err hpre herr]
  exact ⟨rfl, hst, Diagnostics.errors_append_error _ _ _ hpre⟩

/-- With the flag, a successful Create or Update calls the apply once, after the
mutation. -/
theorem writeSteps_applies {Model Entity : Type} (fw : Framework Model)
    (resp : ResourceResponse Model) (data : Model) (mutation : ClientCall)
    (result : Option Entity × Option GoError) (summary : String)
    (setFromValue : Model → Entity → Model × Diagnostics) (flag : Model → Bool)
    (apply : ClientCall) (applied : Option GoError) (applySummary : String) (entity : Entity)
    (hpre : Diagnostics.HasError resp.Diagnostics = false)
    (hres : result = (some entity, none))
    (hset : Diagnostics.HasError (setFromValue data entity).2 = false)
    (hflag : flag (setFromValue data entity).1 = true) :
    (writeSteps fw resp data mutation result summary setFromValue flag apply applied
      applySummary).calls = [mutation, apply] := by
  rw [writeSteps_succeeded fw resp data mutation result summary setFromValue flag apply applied
    applySummary entity hpre hres hset, applyStep_calls, hflag]
  rfl

/-- With the flag, a successful Delete calls the apply once, after the mutation. -/
theorem deleteSteps_applies {Model : Type} (resp : ResourceResponse Model)
    (mutation : ClientCall) (summary : String)
    (apply : ClientCall) (applied : Option GoError) (applySummary : String) :
    (deleteSteps resp mutation none summary true apply applied applySummary).calls =
      [mutation, apply] := by
  rw [deleteSteps_succeeded, applyStep_calls]
  rfl

/-- A successful Create or Update whose apply fails: the state holds the model
taken from the entity, and the only error reported is the one of the apply. -/
theorem writeSteps_reportsFailedApply {Model Entity : Type} (fw : Framework Model)
    (resp : ResourceResponse Model) (data : Model) (mutation : ClientCall)
    (result : Option Entity × Option GoError) (summary : String)
    (setFromValue : Model → Entity → Model × Diagnostics) (flag : Model → Bool)
    (apply : ClientCall) (applied : Option GoError) (applySummary : String) (entity : Entity)
    (err : GoError)
    (hpre : Diagnostics.HasError resp.Diagnostics = false)
    (hres : result = (some entity, none))
    (hset : Diagnostics.HasError (setFromValue data entity).2 = false)
    (hflag : flag (setFromValue data entity).1 = true)
    (happ : applied = some err)
    (hstate : Diagnostics.HasError (fw.SetDiagnostics (setFromValue data entity).1) = false) :
    (writeSteps fw resp data mutation result summary setFromValue flag apply applied
      applySummary).ReportsFailedApply (some (setFromValue data entity).1) applySummary err := by
  rw [writeSteps_succeeded fw resp data mutation result summary setFromValue flag apply applied
    applySummary entity hpre hres hset]
  have hall : Diagnostics.HasError
      (ResourceResponse.StateSet fw
        { resp with
          Diagnostics := Diagnostics.Append resp.Diagnostics (setFromValue data entity).2 }
        (setFromValue data entity).1).Diagnostics = false := by
    simp only [ResourceResponse.StateSet, Diagnostics.HasError_Append, hpre, hset, hstate]
    rfl
  unfold applyStep
  rw [if_pos hflag, happ, AddError_some _ _ _ hall]
  refine ⟨?_, Diagnostics.errors_append_error _ _ _ hall⟩
  simp only [ResourceResponse.StateSet, hstate]
  rfl

/-- A successful Delete whose apply fails: the resource is removed from the
state, and the only error reported is the one of the apply. -/
theorem deleteSteps_reportsFailedApply {Model : Type} (resp : ResourceResponse Model)
    (mutation : ClientCall) (summary : String)
    (apply : ClientCall) (applied : Option GoError) (applySummary : String) (err : GoError)
    (hpre : Diagnostics.HasError resp.Diagnostics = false) (happ : applied = some err) :
    (deleteSteps resp mutation none summary true apply applied
      applySummary).ReportsFailedApply none applySummary err := by
  rw [deleteSteps_succeeded]
  unfold applyStep
  rw [if_pos rfl, happ]
  have hall : Diagnostics.HasError (ResourceResponse.RemoveResource resp).Diagnostics = false :=
    hpre
  rw [AddError_some _ _ _ hall]
  exact ⟨rfl, Diagnostics.errors_append_error _ _ _ hall⟩

/-! ## The resource operations (claims C11-C15) -/

/-- Claim C11: for each of the three entity resources (DNS config file, DNS
domain override, firewall IP alias) and each of Create, Update and Delete, when
the apply flag of the model is false the operation does not call the apply of
its subsystem (`ApplyDNSResolverChanges`, `ReloadFirewallFilter`), whatever the
client answers to the mutation. -/
theorem apply_not_called_without_flag :
    (∀ (client : pfsense.Client) (set : pfsense.ConfigFileSetters)
        (fw : Framework ConfigFileResourceModel) (req : CreateRequest ConfigFileResourceModel)
        (resp : ResourceResponse ConfigFileResourceModel),
      req.Plan.data.Apply.ValueBool = false →
        ClientCall.ApplyDNSResolverChanges ∉
          (ConfigFileResource.Create client set fw req resp).calls) ∧
    (∀ (client : pfsense.Client) (set : pfsense.ConfigFileSetters)
        (fw : Framework ConfigFileResourceModel) (req : UpdateRequest ConfigFileResourceModel)
        (resp : ResourceResponse ConfigFileResourceModel),
      req.Plan.data.Apply.ValueBool = false →
        ClientCall.ApplyDNSResolverChanges ∉
          (ConfigFileResource.Update client set fw req resp).calls) ∧
    (∀ (client : pfsense.Client) (req : DeleteRequest ConfigFileResourceModel)
        (resp : ResourceResponse ConfigFileResourceModel),
      req.State.data.Apply.ValueBool = false →
        ClientCall.ApplyDNSResolverChanges ∉ (ConfigFileResource.Delete client req resp).calls) ∧
    (∀ (client : pfsense.Client) (set : pfsense.DomainOverrideSetters)
        (fw : Framework DomainOverrideResourceModel) (req : CreateRequest DomainOverrideResourceModel)
        (resp : ResourceResponse DomainOverrideResourceModel),
      req.Plan.data.Apply.ValueBool = false →
        ClientCall.ApplyDNSResolverChanges ∉
          (DomainOverrideResource.Create client set fw req resp).calls) ∧
    (∀ (client : pfsense.Client) (set : pfsense.DomainOverrideSetters)
        (fw : Framework DomainOverrideResourceModel) (req : UpdateRequest DomainOverrideResourceModel)
        (resp : ResourceResponse DomainOverrideResourceModel),
      req.Plan.data.Apply.ValueBool = false →
        ClientCall.ApplyDNSResolverChanges ∉
          (DomainOverrideResource.Update client set fw req resp).calls) ∧
    (∀ (client : pfsense.Client) (req : DeleteRequest DomainOverrideResourceModel)
        (resp : ResourceResponse DomainOverrideResourceModel),
      req.State.data.Apply.ValueBool = false →
        ClientCall.ApplyDNSResolverChanges ∉ (DomainOverrideResource.Delete client req resp).calls) ∧
    (∀ (client : pfsense.Client) (ext : IPAliasCollaborators)
        (fw : Framework IPAliasResourceModel) (req : CreateRequest IPAliasResourceModel)
        (resp : ResourceResponse IPAliasResourceModel),
      req.Plan.data.Apply.ValueBool = false →
        ClientCall.ReloadFirewallFilter ∉
          (IPAliasResource.Create client ext fw req resp).calls) ∧
    (∀ (client : pfsense.Client) (ext : IPAliasCollaborators)
        (fw : Framework IPAliasResourceModel) (req : UpdateRequest IPAliasResourceModel)
        (resp : ResourceResponse IPAliasResourceModel),
      req.Plan.data.Apply.ValueBool = false →
        ClientCall.ReloadFirewallFilter ∉
          (IPAliasResource.Update client ext fw req resp).calls) ∧
    (∀ (client : pfsense.Client) (req : DeleteRequest IPAliasResourceModel)
        (resp : ResourceResponse IPAliasResourceModel),
      req.State.data.Apply.ValueBool = false →
        ClientCall.ReloadFirewallFilter ∉ (IPAliasResource.Delete client req resp).calls) := by
  refine ⟨?_, ?_, ?_, ?_, ?_, ?_, ?_, ?_, ?_⟩
  · intro client set fw req resp hflag
    rcases ConfigFileResource_Create_reach client set fw req resp with h | ⟨pre, hpre, hst, heq⟩
    · rw [h]
      exact List.not_mem_nil _
    · rw [heq]
      refine writeSteps_no_apply _ _ _ _ _ _ _ _ _ _ _ (by intro h; cases h) ?_
      intro entity
      show (ConfigFileResourceModel.SetFromValue req.Plan.data entity).1.Apply.ValueBool = false
      rw [ConfigFileResourceModel_SetFromValue_Apply]
      exact hflag
  · intro client set fw req resp hflag
    rcases ConfigFileResource_Update_reach client set fw req resp with h | ⟨pre, hpre, hst, heq⟩
    · rw [h]
      exact List.not_mem_nil _
    · rw [heq]
      refine writeSteps_no_apply _ _ _ _ _ _ _ _ _ _ _ (by intro h; cases h) ?_
      intro entity
      show (ConfigFileResourceModel.SetFromValue req.Plan.data entity).1.Apply.ValueBool = false
      rw [ConfigFileResourceModel_SetFromValue_Apply]
      exact hflag
  · intro client req resp hflag
    rcases ConfigFileResource_Delete_reach client req resp with h | ⟨pre, hpre, hst, heq⟩
    · rw [h]
      exact List.not_mem_nil _
    · rw [heq, hflag]
      exact deleteSteps_no_apply _ _ _ _ _ _ _ (by intro h; cases h)
  · intro client set fw req resp hflag
    rcases DomainOverrideResource_Create_reach client set fw req resp with h | ⟨pre, hpre, hst, heq⟩
    · rw [h]
      exact List.not_mem_nil _
    · rw [heq]
      refine writeSteps_no_apply _ _ _ _ _ _ _ _ _ _ _ (by intro h; cases h) ?_
      intro entity
      show (DomainOverrideResourceModel.SetFromValue req.Plan.data entity).1.Apply.ValueBool = false
      rw [DomainOverrideResourceModel_SetFromValue_Apply]
      exact hflag
  · intro client set fw req resp hflag
    rcases DomainOverrideResource_Update_reach client set fw req resp with h | ⟨pre, hpre, hst, heq⟩
    · rw [h]
      exact List.not_mem_nil _
    · rw [heq]
      refine writeSteps_no_apply _ _ _ _ _ _ _ _ _ _ _ (by intro h; cases h) ?_
      intro entity
      show (DomainOverrideResourceModel.SetFromValue req.Plan.data entity).1.Apply.ValueBool = false
      rw [DomainOverrideResourceModel_SetFromValue_Apply]
      exact hflag
  · intro client req resp hflag
    rcases DomainOverrideResource_Delete_reach client req resp with h | ⟨pre, hpre, hst, heq⟩
    · rw [h]
      exact List.not_mem_nil _
    · rw [heq, hflag]
      exact deleteSteps_no_apply _ _ _ _ _ _ _ (by intro h; cases h)
  · intro client ext fw req resp hflag
    rcases IPAliasResource_Create_reach client ext fw req resp with h | ⟨pre, ipAliasReq, hpre, hst, heq⟩
    · rw [h]
      exact List.not_mem_nil _
    · rw [heq]
      refine writeSteps_no_apply _ _ _ _ _ _ _ _ _ _ _ (by intro h; cases h) ?_
      intro entity
      show (IPAliasResourceModel.SetFromValue req.Plan.data entity).1.Apply.ValueBool = false
      rw [IPAliasResourceModel_SetFromValue_Apply]
      exact hflag
  · intro client ext fw req resp hflag
    rcases IPAliasResource_Update_reach client ext fw req resp with h | ⟨pre, ipAliasReq, hpre, hst, heq⟩
    · rw [h]
      exact List.not_mem_nil _
    · rw [heq]
      refine writeSteps_no_apply _ _ _ _ _ _ _ _ _ _ _ (by intro h; cases h) ?_
      intro entity
      show (IPAliasResourceModel.SetFromValue req.Plan.data entity).1.Apply.ValueBool = false
      rw [IPAliasResourceModel_SetFromValue_Apply]
      exact hflag
  · intro client req resp hflag
    rcases IPAliasResource_Delete_reach client req resp with h | ⟨pre, hpre, hst, heq⟩
    · rw [h]
      exact List.not_mem_nil _
    · rw [heq, hflag]
      exact deleteSteps_no_apply _ _ _ _ _ _ _ (by intro h; cases h)

/-- Claim C12: for each of the three entity resources and each of Create, Update
and Delete, if the operation makes its mutation call and the client answers it
with an error, then that call is the only client call of the operation (the
apply is not called, whatever the apply flag), the state of the response is
left as it was, and the diagnostics hold exactly one error, built from the
operation's summary and the error of the mutation. -/
theorem failed_mutation_not_applied :
    (∀ (client : pfsense.Client) (set : pfsense.ConfigFileSetters)
        (fw : Framework ConfigFileResourceModel) (req : CreateRequest ConfigFileResourceModel)
        (resp : ResourceResponse ConfigFileResourceModel)
        (e : pfsense.ConfigFile) (err : GoError),
      ClientCall.CreateDNSResolverConfigFile e ∈
        (ConfigFileResource.Create client set fw req resp).calls →
      (client.CreateDNSResolverConfigFile e).2 = some err →
        (ConfigFileResource.Create client set fw req resp).ReportsFailedCall resp
          (ClientCall.CreateDNSResolverConfigFile e) "Error creating config file" err) ∧
    (∀ (client : pfsense.Client) (set : pfsense.ConfigFileSetters)
        (fw : Framework ConfigFileResourceModel) (req : UpdateRequest ConfigFileResourceModel)
        (resp : ResourceResponse ConfigFileResourceModel)
        (e : pfsense.ConfigFile) (err : GoError),
      ClientCall.UpdateDNSResolverConfigFile e ∈
        (ConfigFileResource.Update client set fw req resp).calls →
      (client.UpdateDNSResolverConfigFile e).2 = some err →
        (ConfigFileResource.Update client set fw req resp).ReportsFailedCall resp
          (ClientCall.UpdateDNSResolverConfigFile e) "Error updating config file" err) ∧
    (∀ (client : pfsense.Client) (req : DeleteRequest ConfigFileResourceModel)
        (resp : ResourceResponse ConfigFileResourceModel)
        (key : String) (err : GoError),
      ClientCall.DeleteDNSResolverConfigFile key ∈
        (ConfigFileResource.Delete client req resp).calls →
      client.DeleteDNSResolverConfigFile key = some err →
        (ConfigFileResource.Delete client req resp).ReportsFailedCall resp
          (ClientCall.DeleteDNSResolverConfigFile key) "Error deleting config file" err) ∧
    (∀ (client : pfsense.Client) (set : pfsense.DomainOverrideSetters)
        (fw : Framework DomainOverrideResourceModel) (req : CreateRequest DomainOverrideResourceModel)
        (resp : ResourceResponse DomainOverrideResourceModel)
        (e : pfsense.DomainOverride) (err : GoError),
      ClientCall.CreateDNSResolverDomainOverride e ∈
        (DomainOverrideResource.Create client set fw req resp).calls →
      (client.CreateDNSResolverDomainOverride e).2 = some err →
        (DomainOverrideResource.Create client set fw req resp).ReportsFailedCall resp
          (ClientCall.CreateDNSResolverDomainOverride e) "Error creating domain override" err) ∧
    (∀ (client : pfsense.Client) (set : pfsense.DomainOverrideSetters)
        (fw : Framework DomainOverrideResourceModel) (req : UpdateRequest DomainOverrideResourceModel)
        (resp : ResourceResponse DomainOverrideResourceModel)
        (e : pfsense.DomainOverride) (err : GoError),
      ClientCall.UpdateDNSResolverDomainOverride e ∈
        (DomainOverrideResource.Update client set fw req resp).calls →
      (client.UpdateDNSResolverDomainOverride e).2 = some err →
        (DomainOverrideResource.Update client set fw req resp).ReportsFailedCall resp
          (ClientCall.UpdateDNSResolverDomainOverride e) "Error updating domain override" err) ∧
    (∀ (client : pfsense.Client) (req : DeleteRequest DomainOverrideResourceModel)
        (resp : ResourceResponse DomainOverrideResourceModel)
        (key : String) (err : GoError),
      ClientCall.DeleteDNSResolverDomainOverride key ∈
        (DomainOverrideResource.Delete client req resp).calls →
      client.DeleteDNSResolverDomainOverride key = some err →
        (DomainOverrideResource.Delete client req resp).ReportsFailedCall resp
          (ClientCall.DeleteDNSResolverDomainOverride key) "Error deleting domain override" err) ∧
    (∀ (client : pfsense.Client) (ext : IPAliasCollaborators)
        (fw : Framework IPAliasResourceModel) (req : CreateRequest IPAliasResourceModel)
        (resp : ResourceResponse IPAliasResourceModel)
        (e : pfsense.FirewallIPAlias) (err : GoError),
      ClientCall.CreateFirewallIPAlias e ∈
        (IPAliasResource.Create client ext fw req resp).calls →
      (client.CreateFirewallIPAlias e).2 = some err →
        (IPAliasResource.Create client ext fw req resp).ReportsFailedCall resp
          (ClientCall.CreateFirewallIPAlias e) "Error creating IP alias" err) ∧
    (∀ (client : pfsense.Client) (ext : IPAliasCollaborators)
        (fw : Framework IPAliasResourceModel) (req : UpdateRequest IPAliasResourceModel)
        (resp : ResourceResponse IPAliasResourceModel)
        (e : pfsense.FirewallIPAlias) (err : GoError),
      ClientCall.UpdateFirewallIPAlias e ∈
        (IPAliasResource.Update client ext fw req resp).calls →
      (client.UpdateFirewallIPAlias e).2 = some err →
        (IPAliasResource.Update client ext fw req resp).ReportsFailedCall resp
          (ClientCall.UpdateFirewallIPAlias e) "Error updating IP alias" err) ∧
    (∀ (client : pfsense.Client) (req : DeleteRequest IPAliasResourceModel)
        (resp : ResourceResponse IPAliasResourceModel)
        (key : String) (err : GoError),
      ClientCall.DeleteFirewallIPAlias key ∈
        (IPAliasResource.Delete client req resp).calls →
      client.DeleteFirewallIPAlias key = some err →
        (IPAliasResource.Delete client req resp).ReportsFailedCall resp
          (ClientCall.DeleteFirewallIPAlias key) "Error deleting IP alias" err) := by
  refine ⟨?_, ?_, ?_, ?_, ?_, ?_, ?_, ?_, ?_⟩
  · intro client set fw req resp e err hmem herr
    rcases ConfigFileResource_Create_reach client set fw req resp with h | ⟨pre, hpre, hst, heq⟩
    · rw [h] at hmem
      cases hmem
    · rw [heq] at hmem ⊢
      have he := writeSteps_mem hmem
      rcases he with he | he
      swap
      · cases he
      cases he
      exact writeSteps_reportsFailedCall _ _ _ _ _ _ _ _ _ _ _ _ err hpre hst herr
  · intro client set fw req resp e err hmem herr
    rcases ConfigFileResource_Update_reach client set fw req resp with h | ⟨pre, hpre, hst, heq⟩
    · rw [h] at hmem
      cases hmem
    · rw [heq] at hmem ⊢
      have he := writeSteps_mem hmem
      rcases he with he | he
      swap
      · cases he
      cases he
      exact writeSteps_reportsFailedCall _ _ _ _ _ _ _ _ _ _ _ _ err hpre hst herr
  · intro client req resp key err hmem herr
    rcases ConfigFileResource_Delete_reach client req resp with h | ⟨pre, hpre, hst, heq⟩
    · rw [h] at hmem
      cases hmem
    · rw [heq] at hmem ⊢
      have he := deleteSteps_mem hmem
      rcases he with he | he
      swap
      · cases he
      rw [← ClientCall.DeleteDNSResolverConfigFile.inj he]
      rw [← ClientCall.DeleteDNSResolverConfigFile.inj he] at hmem
      exact deleteSteps_reportsFailedCall _ _ _ _ _ _ _ _ _ err hpre hst herr
  · intro client set fw req resp e err hmem herr
    rcases DomainOverrideResource_Create_reach client set fw req resp with h | ⟨pre, hpre, hst, heq⟩
    · rw [h] at hmem
      cases hmem
    · rw [heq] at hmem ⊢
      have he := writeSteps_mem hmem
      rcases he with he | he
      swap
      · cases he
      cases he
      exact writeSteps_reportsFailedCall _ _ _ _ _ _ _ _ _ _ _ _ err hpre hst herr
  · intro client set fw req resp e err hmem herr
    rcases DomainOverrideResource_Update_reach client set fw req resp with h | ⟨pre, hpre, hst, heq⟩
    · rw [h] at hmem
      cases hmem
    · rw [heq] at hmem ⊢
      have he := writeSteps_mem hmem
      rcases he with he | he
      swap
      · cases he
      cases he
      exact writeSteps_reportsFailedCall _ _ _ _ _ _ _ _ _ _ _ _ err hpre hst herr
  · intro client req resp key err hmem herr
    rcases DomainOverrideResource_Delete_reach client req resp with h | ⟨pre, hpre, hst, heq⟩
    · rw [h] at hmem
      cases hmem
    · rw [heq] at hmem ⊢
      have he := deleteSteps_mem hmem
      rcases he with he | he
      swap
      · cases he
      rw [← ClientCall.DeleteDNSResolverDomainOverride.inj he]
      rw [← ClientCall.DeleteDNSResolverDomainOverride.inj he] at hmem
      exact deleteSteps_reportsFailedCall _ _ _ _ _ _ _ _ _ err hpre hst herr
  · intro client ext fw req resp e err hmem herr
    rcases IPAliasResource_Create_reach client ext fw req resp with h | ⟨pre, ipAliasReq, hpre, hst, heq⟩
    · rw [h] at hmem
      cases hmem
    · rw [heq] at hmem ⊢
      have he := writeSteps_mem hmem
      rcases he with he | he
      swap
      · cases he
      cases he
      exact writeSteps_reportsFailedCall _ _ _ _ _ _ _ _ _ _ _ _ err hpre hst herr
  · intro client ext fw req resp e err hmem herr
    rcases IPAliasResource_Update_reach client ext fw req resp with h | ⟨pre, ipAliasReq, hpre, hst, heq⟩
    · rw [h] at hmem
      cases hmem
    · rw [heq] at hmem ⊢
      have he := writeSteps_mem hmem
      rcases he with he | he
      swap
      · cases he
      cases he
      exact writeSteps_reportsFailedCall _ _ _ _ _ _ _ _ _ _ _ _ err hpre hst herr
  · intro client req resp key err hmem herr
    rcases IPAliasResource_Delete_reach client req resp with h | ⟨pre, hpre, hst, heq⟩
    · rw [h] at hmem
      cases hmem
    · rw [heq] at hmem ⊢
      have he := deleteSteps_mem hmem
      rcases he with he | he
      swap
      · cases he
      rw [← ClientCall.DeleteFirewallIPAlias.inj he]
      rw [← ClientCall.DeleteFirewallIPAlias.inj he] at hmem
      exact deleteSteps_reportsFailedCall _ _ _ _ _ _ _ _ _ err hpre hst herr

/-- Claim C15: for each entity resource, if Read makes its get call and the
client answers it with an error, then that call is the only client call, the
state of the response is left as it was (no entity is written to it), and the
diagnostics hold exactly one error, built from the summary "Error reading ..."
and the error of the get call. -/
theorem failed_read_reports_error :
    (∀ (client : pfsense.Client) (fw : Framework ConfigFileResourceModel)
        (req : ReadRequest ConfigFileResourceModel) (resp : ResourceResponse ConfigFileResourceModel)
        (key : String) (err : GoError),
      ClientCall.GetDNSResolverConfigFile key ∈
        (ConfigFileResource.Read client fw req resp).calls →
      (client.GetDNSResolverConfigFile key).2 = some err →
        (ConfigFileResource.Read client fw req resp).ReportsFailedCall resp
          (ClientCall.GetDNSResolverConfigFile key) "Error reading config file" err) ∧
    (∀ (client : pfsense.Client) (fw : Framework DomainOverrideResourceModel)
        (req : ReadRequest DomainOverrideResourceModel) (resp : ResourceResponse DomainOverrideResourceModel)
        (key : String) (err : GoError),
      ClientCall.GetDNSResolverDomainOverride key ∈
        (DomainOverrideResource.Read client fw req resp).calls →
      (client.GetDNSResolverDomainOverride key).2 = some err →
        (DomainOverrideResource.Read client fw req resp).ReportsFailedCall resp
          (ClientCall.GetDNSResolverDomainOverride key) "Error reading domain override" err) ∧
    (∀ (client : pfsense.Client) (fw : Framework IPAliasResourceModel)
        (req : ReadRequest IPAliasResourceModel) (resp : ResourceResponse IPAliasResourceModel)
        (key : String) (err : GoError),
      ClientCall.GetFirewallIPAlias key ∈
        (IPAliasResource.Read client fw req resp).calls →
      (client.GetFirewallIPAlias key).2 = some err →
        (IPAliasResource.Read client fw req resp).ReportsFailedCall resp
          (ClientCall.GetFirewallIPAlias key) "Error reading IP alias" err) := by
  refine ⟨?_, ?_, ?_⟩
  · intro client fw req resp key err hmem herr
    rcases ConfigFileResource_Read_reach client fw req resp with h | ⟨pre, hpre, hst, heq⟩
    · rw [h] at hmem
      cases hmem
    · rw [heq] at hmem ⊢
      have he := readSteps_mem hmem
      rw [← ClientCall.GetDNSResolverConfigFile.inj he]
      rw [← ClientCall.GetDNSResolverConfigFile.inj he] at hmem
      exact readSteps_reportsFailedCall _ _ _ _ _ _ _ _ err hpre hst herr
  · intro client fw req resp key err hmem herr
    rcases DomainOverrideResource_Read_reach client fw req resp with h | ⟨pre, hpre, hst, heq⟩
    · rw [h] at hmem
      cases hmem
    · rw [heq] at hmem ⊢
      have he := readSteps_mem hmem
      rw [← ClientCall.GetDNSResolverDomainOverride.inj he]
      rw [← ClientCall.GetDNSResolverDomainOverride.inj he] at hmem
      exact readSteps_reportsFailedCall _ _ _ _ _ _ _ _ err hpre hst herr
  · intro client fw req resp key err hmem herr
    rcases IPAliasResource_Read_reach client fw req resp with h | ⟨pre, hpre, hst, heq⟩
    · rw [h] at hmem
      cases hmem
    · rw [heq] at hmem ⊢
      have he := readSteps_mem hmem
      rw [← ClientCall.GetFirewallIPAlias.inj he]
      rw [← ClientCall.GetFirewallIPAlias.inj he] at hmem
      exact readSteps_reportsFailedCall _ _ _ _ _ _ _ _ err hpre hst herr

/-! ## Instances of claims C11-C15 -/

/-- Instance of claim C11: creating the IP alias "blocklist" of type "network"
with no entries and `apply = false` issues the create call only. -/
theorem apply_not_called_without_flag_witness :
    blocklist.Apply.ValueBool = false ∧
    ClientCall.ReloadFirewallFilter ∉
      (IPAliasResource.Create acceptingBackend lenientIPAliasCollaborators
        (storingFramework IPAliasResourceModel) { Plan := { data := blocklist, diags := [] } }
        (freshResponse IPAliasResourceModel)).calls ∧
    (IPAliasResource.Create acceptingBackend lenientIPAliasCollaborators
        (storingFramework IPAliasResourceModel) { Plan := { data := blocklist, diags := [] } }
        (freshResponse IPAliasResourceModel)).calls =
      [ClientCall.CreateFirewallIPAlias
        { Name := "blocklist", Description := "", Type_ := "network", Entries := [] }] :=
  ⟨rfl,
    apply_not_called_without_flag.2.2.2.2.2.2.1 acceptingBackend lenientIPAliasCollaborators
      (storingFramework IPAliasResourceModel) { Plan := { data := blocklist, diags := [] } }
      (freshResponse IPAliasResourceModel) rfl,
    by decide⟩

/-- Instance of claim C12: the backend rejects the creation of "custom.conf". -/
theorem failed_mutation_not_applied_witness :
    ClientCall.CreateDNSResolverConfigFile
        { Name := "custom.conf", Content := "server:\n verbosity: 1" } ∈
      (ConfigFileResource.Create rejectingBackend lenientConfigFileSetters
        (storingFramework ConfigFileResourceModel) { Plan := { data := customConf, diags := [] } }
        (freshResponse ConfigFileResourceModel)).calls ∧
    (rejectingBackend.CreateDNSResolverConfigFile
        { Name := "custom.conf", Content := "server:\n verbosity: 1" }).2 =
      some (GoError.new "config file exists") ∧
    (ConfigFileResource.Create rejectingBackend lenientConfigFileSetters
        (storingFramework ConfigFileResourceModel) { Plan := { data := customConf, diags := [] } }
        (freshResponse ConfigFileResourceModel)).ReportsFailedCall
      (freshResponse ConfigFileResourceModel)
      (ClientCall.CreateDNSResolverConfigFile
        { Name := "custom.conf", Content := "server:\n verbosity: 1" })
      "Error creating config file" (GoError.new "config file exists") :=
  ⟨by decide, rfl,
    failed_mutation_not_applied.1 rejectingBackend lenientConfigFileSetters
      (storingFramework ConfigFileResourceModel) { Plan := { data := customConf, diags := [] } }
      (freshResponse ConfigFileResourceModel)
      { Name := "custom.conf", Content := "server:\n verbosity: 1" }
      (GoError.new "config file exists") (by decide) rfl⟩

/-- Instance of claim C15: reading the domain override "internal.example" from a
backend that does not hold it. -/
theorem failed_read_reports_error_witness :
    ClientCall.GetDNSResolverDomainOverride "internal.example" ∈
      (DomainOverrideResource.Read acceptingBackend
        (storingFramework DomainOverrideResourceModel)
        { State := { data := plainOverride, diags := [] } }
        { Diagnostics := [], State := some plainOverride }).calls ∧
    (acceptingBackend.GetDNSResolverDomainOverride "internal.example").2 = some errNotFound ∧
    (DomainOverrideResource.Read acceptingBackend
        (storingFramework DomainOverrideResourceModel)
        { State := { data := plainOverride, diags := [] } }
        { Diagnostics := [], State := some plainOverride }).ReportsFailedCall
      { Diagnostics := [], State := some plainOverride }
      (ClientCall.GetDNSResolverDomainOverride "internal.example")
      "Error reading domain override" errNotFound :=
  ⟨by decide, rfl,
    failed_read_reports_error.2.1 acceptingBackend
      (storingFramework DomainOverrideResourceModel)
      { State := { data := plainOverride, diags := [] } }
      { Diagnostics := [], State := some plainOverride } "internal.example" errNotFound
      (by decide) rfl⟩

/-! ## `New` keeps what the caller supplied (claim C21) -/

/-- Applying `New` to options in which nothing is left unset gives those options
back. -/
theorem New_of_complete {URL : Type} (url : NetURL URL) (u d : URL) (name pw : String)
    (tls : Bool) (rmin rmax : Duration) (ma : Int)
    (hd : url.Parse DefaultURL = Except.ok d) (hn : name ≠ "") (hp : pw ≠ "")
    (hu : url.Render u = "" → u = d) :
    New url
        { URL := some u, Username := name, Password := pw, TLSSkipVerify := some tls,
          RetryMinWait := some rmin, RetryMaxWait := some rmax, MaxAttempts := some ma } =
      Outcome.ret
        (some { Options :=
          { URL := some u, Username := name, Password := pw, TLSSkipVerify := some tls,
            RetryMinWait := some rmin, RetryMaxWait := some rmax, MaxAttempts := some ma } },
         none) := by
  rw [New_of_URL url _ u d rfl hd]
  simp only [if_neg hp, if_neg hn, Option.getD_some]
  by_cases hr : url.Render u = ""
  · rw [if_pos hr, hu hr]
  · rw [if_neg hr]

/-- Claim C21: for options with a non-empty password (and a URL pointer that is
not nil), `New` returns a client whose options hold the caller's password, the
caller's URL when it renders non-empty, the caller's username when it is
non-empty, and the caller's `TLSSkipVerify`, `RetryMinWait`, `RetryMaxWait` and
`MaxAttempts` when they are non-nil, whatever their values (zero and negative
ones included); and applying `New` to the options of that client returns a
client with the same options. -/
theorem New_keeps_supplied {URL : Type} (url : NetURL URL) (options : Options URL)
    (u d : URL) (hu : options.URL = some u)
    (hd : url.Parse "https://192.168.1.1" = Except.ok d) (hp : options.Password ≠ "") :
    ∃ c : PfsenseClient URL, New url options = Outcome.ret (some c, none) ∧
      c.Options.Password = options.Password ∧
      (url.Render u ≠ "" → c.Options.URL = options.URL) ∧
      (options.Username ≠ "" → c.Options.Username = options.Username) ∧
      (∀ b, options.TLSSkipVerify = some b → c.Options.TLSSkipVerify = some b) ∧
      (∀ t, options.RetryMinWait = some t → c.Options.RetryMinWait = some t) ∧
      (∀ t, options.RetryMaxWait = some t → c.Options.RetryMaxWait = some t) ∧
      (∀ n, options.MaxAttempts = some n → c.Options.MaxAttempts = some n) ∧
      New url c.Options = Outcome.ret (some c, none) := by
  rw [New_of_URL url options u d hu hd, if_neg hp]
  refine ⟨_, rfl, rfl, ?_, ?_, ?_, ?_, ?_, ?_, ?_⟩
  · intro h
    simp only [if_neg h]
    exact hu.symm
  · intro h
    simp only [if_neg h]
  · intro b h
    simp only [h, Option.getD_some]
  · intro t h
    simp only [h, Option.getD_some]
  · intro t h
    simp only [h, Option.getD_some]
  · intro n h
    simp only [h, Option.getD_some]
  · have hname : (if options.Username = "" then DefaultUsername else options.Username) ≠ "" := by
      split_ifs with h
      · decide
      · exact h
    by_cases hr : url.Render u = ""
    · simp only [if_pos hr]
      exact New_of_complete url d d _ _ _ _ _ _ hd hname hp (fun _ => rfl)
    · simp only [if_neg hr]
      exact New_of_complete url u d _ _ _ _ _ _ hd hname hp (fun h => absurd h hr)

/-- Instance of claim C21: options with every field supplied, among them
`MaxAttempts = -1` and `RetryMinWait = 0`. -/
theorem New_keeps_supplied_witness :
    explicitOptions.URL = some "https://fw.example" ∧
    textURL.Parse "https://192.168.1.1" = Except.ok "https://192.168.1.1" ∧
    explicitOptions.Password ≠ "" ∧
    New textURL explicitOptions = Outcome.ret (some { Options := explicitOptions }, none) ∧
    ∃ c : PfsenseClient String, New textURL explicitOptions = Outcome.ret (some c, none) ∧
      c.Options.Password = explicitOptions.Password ∧
      (textURL.Render "https://fw.example" ≠ "" → c.Options.URL = explicitOptions.URL) ∧
      (explicitOptions.Username ≠ "" → c.Options.Username = explicitOptions.Username) ∧
      (∀ b, explicitOptions.TLSSkipVerify = some b → c.Options.TLSSkipVerify = some b) ∧
      (∀ t, explicitOptions.RetryMinWait = some t → c.Options.RetryMinWait = some t) ∧
      (∀ t, explicitOptions.RetryMaxWait = some t → c.Options.RetryMaxWait = some t) ∧
      (∀ n, explicitOptions.MaxAttempts = some n → c.Options.MaxAttempts = some n) ∧
      New textURL c.Options = Outcome.ret (some c, none) :=
  ⟨rfl, rfl, by decide, by simp [New, explicitOptions, textURL, Except.map],
    New_keeps_supplied textURL explicitOptions "https://fw.example" "https://192.168.1.1"
      rfl rfl (by decide)⟩

/-! ## When the operations reach the client

An operation makes its mutation call when the response it is entered with, the
plan (or state) it reads and, for Create and Update, the conversion of the model
report no error. -/

theorem Diagnostics.HasError_Append_of_clean (a b : Diagnostics)
    (ha : Diagnostics.HasError a = false) (hb : Diagnostics.HasError b = false) :
    Diagnostics.HasError (Diagnostics.Append a b) = false := by
  rw [Diagnostics.HasError_Append, ha, hb]
  rfl

/-- `Value` of the IP alias model returns a nil pointer only together with an
error diagnostic. -/
theorem IPAliasResourceModel_Value_some (ext : IPAliasCollaborators) (r : IPAliasResourceModel)
    (h : Diagnostics.HasError (r.Value ext).2 = false) : ∃ e, (r.Value ext).1 = some e := by
  unfold IPAliasResourceModel.Value at h ⊢
  simp only [] at h ⊢
  by_cases he : Diagnostics.HasError (ext.ElementsAs r.Entries).2 = true
  · rw [if_pos he] at h
    rw [he] at h
    cases h
  · rw [if_neg he]
    exact ⟨_, rfl⟩

theorem ConfigFileResource_Create_of_clean (client : pfsense.Client) (set : pfsense.ConfigFileSetters)
    (fw : Framework ConfigFileResourceModel) (req : CreateRequest ConfigFileResourceModel)
    (resp : ResourceResponse ConfigFileResourceModel)
    (h0 : Diagnostics.HasError resp.Diagnostics = false)
    (h1 : Diagnostics.HasError req.Plan.diags = false)
    (h2 : Diagnostics.HasError (req.Plan.data.Value set).2 = false) :
    ConfigFileResource.Create client set fw req resp =
      writeSteps fw
        ((resp.AppendDiagnostics req.Plan.diags).AppendDiagnostics (req.Plan.data.Value set).2)
        req.Plan.data (ClientCall.CreateDNSResolverConfigFile (req.Plan.data.Value set).1) (client.CreateDNSResolverConfigFile (req.Plan.data.Value set).1)
        "Error creating config file" ConfigFileResourceModel.SetFromValue
        (fun d => d.Apply.ValueBool) ClientCall.ApplyDNSResolverChanges
        client.ApplyDNSResolverChanges "Error applying config file" := by
  have c1 : ¬ Diagnostics.HasError (resp.AppendDiagnostics req.Plan.diags).Diagnostics = true := by
    show ¬ Diagnostics.HasError (Diagnostics.Append resp.Diagnostics req.Plan.diags) = true
    rw [Diagnostics.HasError_Append_of_clean _ _ h0 h1]
    simp
  have c2 : ¬ Diagnostics.HasError
      ((resp.AppendDiagnostics req.Plan.diags).AppendDiagnostics
        (req.Plan.data.Value set).2).Diagnostics = true := by
    show ¬ Diagnostics.HasError
      (Diagnostics.Append (Diagnostics.Append resp.Diagnostics req.Plan.diags)
        (req.Plan.data.Value set).2) = true
    rw [Diagnostics.HasError_Append_of_clean _ _
      (Diagnostics.HasError_Append_of_clean _ _ h0 h1) h2]
    simp
  unfold ConfigFileResource.Create
  simp only []
  rw [if_neg c1, if_neg c2]
  unfold writeSteps applyStep
  generalize client.CreateDNSResolverConfigFile _ = answer
  obtain ⟨val, err⟩ := answer
  cases val <;> rfl

theorem ConfigFileResource_Update_of_clean (client : pfsense.Client) (set : pfsense.ConfigFileSetters)
    (fw : Framework ConfigFileResourceModel) (req : UpdateRequest ConfigFileResourceModel)
    (resp : ResourceResponse ConfigFileResourceModel)
    (h0 : Diagnostics.HasError resp.Diagnostics = false)
    (h1 : Diagnostics.HasError req.Plan.diags = false)
    (h2 : Diagnostics.HasError (req.Plan.data.Value set).2 = false) :
    ConfigFileResource.Update client set fw req resp =
      writeSteps fw
        ((resp.AppendDiagnostics req.Plan.diags).AppendDiagnostics (req.Plan.data.Value set).2)
        req.Plan.data (ClientCall.UpdateDNSResolverConfigFile (req.Plan.data.Value set).1) (client.UpdateDNSResolverConfigFile (req.Plan.data.Value set).1)
        "Error updating config file" ConfigFileResourceModel.SetFromValue
        (fun d => d.Apply.ValueBool) ClientCall.ApplyDNSResolverChanges
        client.ApplyDNSResolverChanges "Error applying config file" := by
  have c1 : ¬ Diagnostics.HasError (resp.AppendDiagnostics req.Plan.diags).Diagnostics = true := by
    show ¬ Diagnostics.HasError (Diagnostics.Append resp.Diagnostics req.Plan.diags) = true
    rw [Diagnostics.HasError_Append_of_clean _ _ h0 h1]
    simp
  have c2 : ¬ Diagnostics.HasError
      ((resp.AppendDiagnostics req.Plan.diags).AppendDiagnostics
        (req.Plan.data.Value set).2).Diagnostics = true := by
    show ¬ Diagnostics.HasError
      (Diagnostics.Append (Diagnostics.Append resp.Diagnostics req.Plan.diags)
        (req.Plan.data.Value set).2) = true
    rw [Diagnostics.HasError_Append_of_clean _ _
      (Diagnostics.HasError_Append_of_clean _ _ h0 h1) h2]
    simp
  unfold ConfigFileResource.Update
  simp only []
  rw [if_neg c1, if_neg c2, if_neg c2]
  unfold writeSteps applyStep
  generalize client.UpdateDNSResolverConfigFile _ = answer
  obtain ⟨val, err⟩ := answer
  cases val <;> rfl

theorem ConfigFileResource_Delete_of_clean (client : pfsense.Client)
    (req : DeleteRequest ConfigFileResourceModel) (resp : ResourceResponse ConfigFileResourceModel)
    (h0 : Diagnostics.HasError resp.Diagnostics = false)
    (h1 : Diagnostics.HasError req.State.diags = false) :
    ConfigFileResource.Delete client req resp =
      deleteSteps (resp.AppendDiagnostics req.State.diags)
        (ClientCall.DeleteDNSResolverConfigFile req.State.data.Name.ValueString)
        (client.DeleteDNSResolverConfigFile req.State.data.Name.ValueString)
        "Error deleting config file" req.State.data.Apply.ValueBool
        ClientCall.ApplyDNSResolverChanges client.ApplyDNSResolverChanges "Error applying config file" := by
  have c1 : ¬ Diagnostics.HasError (resp.AppendDiagnostics req.State.diags).Diagnostics = true := by
    show ¬ Diagnostics.HasError (Diagnostics.Append resp.Diagnostics req.State.diags) = true
    rw [Diagnostics.HasError_Append_of_clean _ _ h0 h1]
    simp
  unfold ConfigFileResource.Delete
  simp only []
  rw [if_neg c1]
  rfl

theorem DomainOverrideResource_Create_of_clean (client : pfsense.Client) (set : pfsense.DomainOverrideSetters)
    (fw : Framework DomainOverrideResourceModel) (req : CreateRequest DomainOverrideResourceModel)
    (resp : ResourceResponse DomainOverrideResourceModel)
    (h0 : Diagnostics.HasError resp.Diagnostics = false)
    (h1 : Diagnostics.HasError req.Plan.diags = false)
    (h2 : Diagnostics.HasError (req.Plan.data.Value set).2 = false) :
    DomainOverrideResource.Create client set fw req resp =
      writeSteps fw
        ((resp.AppendDiagnostics req.Plan.diags).AppendDiagnostics (req.Plan.data.Value set).2)
        req.Plan.data (ClientCall.CreateDNSResolverDomainOverride (req.Plan.data.Value set).1) (client.CreateDNSResolverDomainOverride (req.Plan.data.Value set).1)
        "Error creating domain override" DomainOverrideResourceModel.SetFromValue
        (fun d => d.Apply.ValueBool) ClientCall.ApplyDNSResolverChanges
        client.ApplyDNSResolverChanges "Error applying domain override" := by
  have c1 : ¬ Diagnostics.HasError (resp.AppendDiagnostics req.Plan.diags).Diagnostics = true := by
    show ¬ Diagnostics.HasError (Diagnostics.Append resp.Diagnostics req.Plan.diags) = true
    rw [Diagnostics.HasError_Append_of_clean _ _ h0 h1]
    simp
  have c2 : ¬ Diagnostics.HasError
      ((resp.AppendDiagnostics req.Plan.diags).AppendDiagnostics
        (req.Plan.data.Value set).2).Diagnostics = true := by
    show ¬ Diagnostics.HasError
      (Diagnostics.Append (Diagnostics.Append resp.Diagnostics req.Plan.diags)
        (req.Plan.data.Value set).2) = true
    rw [Diagnostics.HasError_Append_of_clean _ _
      (Diagnostics.HasError_Append_of_clean _ _ h0 h1) h2]
    simp
  unfold DomainOverrideResource.Create
  simp only []
  rw [if_neg c1, if_neg c2]
  unfold writeSteps applyStep
  generalize client.CreateDNSResolverDomainOverride _ = answer
  obtain ⟨val, err⟩ := answer
  cases val <;> rfl

theorem DomainOverrideResource_Update_of_clean (client : pfsense.Client) (set : pfsense.DomainOverrideSetters)
    (fw : Framework DomainOverrideResourceModel) (req : UpdateRequest DomainOverrideResourceModel)
    (resp : ResourceResponse DomainOverrideResourceModel)
    (h0 : Diagnostics.HasError resp.Diagnostics = false)
    (h1 : Diagnostics.HasError req.Plan.diags = false)
    (h2 : Diagnostics.HasError (req.Plan.data.Value set).2 = false) :
    DomainOverrideResource.Update client set fw req resp =
      writeSteps fw
        ((resp.AppendDiagnostics req.Plan.diags).AppendDiagnostics (req.Plan.data.Value set).2)
        req.Plan.data (ClientCall.UpdateDNSResolverDomainOverride (req.Plan.data.Value set).1) (client.UpdateDNSResolverDomainOverride (req.Plan.data.Value set).1)
        "Error updating domain override" DomainOverrideResourceModel.SetFromValue
        (fun d => d.Apply.ValueBool) ClientCall.ApplyDNSResolverChanges
        client.ApplyDNSResolverChanges "Error applying domain override" := by
  have c1 : ¬ Diagnostics.HasError (resp.AppendDiagnostics req.Plan.diags).Diagnostics = true := by
    show ¬ Diagnostics.HasError (Diagnostics.Append resp.Diagnostics req.Plan.diags) = true
    rw [Diagnostics.HasError_Append_of_clean _ _ h0 h1]
    simp
  have c2 : ¬ Diagnostics.HasError
      ((resp.AppendDiagnostics req.Plan.diags).AppendDiagnostics
        (req.Plan.data.Value set).2).Diagnostics = true := by
    show ¬ Diagnostics.HasError
      (Diagnostics.Append (Diagnostics.Append resp.Diagnostics req.Plan.diags)
        (req.Plan.data.Value set).2) = true
    rw [Diagnostics.HasError_Append_of_clean _ _
      (Diagnostics.HasError_Append_of_clean _ _ h0 h1) h2]
    simp
  unfold DomainOverrideResource.Update
  simp only []
  rw [if_neg c1, if_neg c2, if_neg c2]
  unfold writeSteps applyStep
  generalize client.UpdateDNSResolverDomainOverride _ = answer
  obtain ⟨val, err⟩ := answer
  cases val <;> rfl

theorem DomainOverrideResource_Delete_of_clean (client : pfsense.Client)
    (req : DeleteRequest DomainOverrideResourceModel) (resp : ResourceResponse DomainOverrideResourceModel)
    (h0 : Diagnostics.HasError resp.Diagnostics = false)
    (h1 : Diagnostics.HasError req.State.diags = false) :
    DomainOverrideResource.Delete client req resp =
      deleteSteps (resp.AppendDiagnostics req.State.diags)
        (ClientCall.DeleteDNSResolverDomainOverride req.State.data.Domain.ValueString)
        (client.DeleteDNSResolverDomainOverride req.State.data.Domain.ValueString)
        "Error deleting domain override" req.State.data.Apply.ValueBool
        ClientCall.ApplyDNSResolverChanges client.ApplyDNSResolverChanges "Error applying domain override" := by
  have c1 : ¬ Diagnostics.HasError (resp.AppendDiagnostics req.State.diags).Diagnostics = true := by
    show ¬ Diagnostics.HasError (Diagnostics.Append resp.Diagnostics req.State.diags) = true
    rw [Diagnostics.HasError_Append_of_clean _ _ h0 h1]
    simp
  unfold DomainOverrideResource.Delete
  simp only []
  rw [if_neg c1]
  rfl

theorem IPAliasResource_Create_of_clean (client : pfsense.Client) (ext : IPAliasCollaborators)
    (fw : Framework IPAliasResourceModel) (req : CreateRequest IPAliasResourceModel)
    (resp : ResourceResponse IPAliasResourceModel) (e : pfsense.FirewallIPAlias)
    (h0 : Diagnostics.HasError resp.Diagnostics = false)
    (h1 : Diagnostics.HasError req.Plan.diags = false)
    (h2 : Diagnostics.HasError (req.Plan.data.Value ext).2 = false)
    (hv : (req.Plan.data.Value ext).1 = some e) :
    IPAliasResource.Create client ext fw req resp =
      writeSteps fw
        ((resp.AppendDiagnostics req.Plan.diags).AppendDiagnostics (req.Plan.data.Value ext).2)
        req.Plan.data (ClientCall.CreateFirewallIPAlias e) (client.CreateFirewallIPAlias e)
        "Error creating IP alias" IPAliasResourceModel.SetFromValue
        (fun d => d.Apply.ValueBool) ClientCall.ReloadFirewallFilter
        client.ReloadFirewallFilter "Error applying IP alias" := by
  have c1 : ¬ Diagnostics.HasError (resp.AppendDiagnostics req.Plan.diags).Diagnostics = true := by
    show ¬ Diagnostics.HasError (Diagnostics.Append resp.Diagnostics req.Plan.diags) = true
    rw [Diagnostics.HasError_Append_of_clean _ _ h0 h1]
    simp
  have c2 : ¬ Diagnostics.HasError
      ((resp.AppendDiagnostics req.Plan.diags).AppendDiagnostics
        (req.Plan.data.Value ext).2).Diagnostics = true := by
    show ¬ Diagnostics.HasError
      (Diagnostics.Append (Diagnostics.Append resp.Diagnostics req.Plan.diags)
        (req.Plan.data.Value ext).2) = true
    rw [Diagnostics.HasError_Append_of_clean _ _
      (Diagnostics.HasError_Append_of_clean _ _ h0 h1) h2]
    simp
  unfold IPAliasResource.Create
  simp only []
  rw [if_neg c1, if_neg c2]
  rw [hv]
  dsimp only
  unfold writeSteps applyStep
  generalize client.CreateFirewallIPAlias _ = answer
  obtain ⟨val, err⟩ := answer
  cases val <;> rfl

theorem IPAliasResource_Update_of_clean (client : pfsense.Client) (ext : IPAliasCollaborators)
    (fw : Framework IPAliasResourceModel) (req : UpdateRequest IPAliasResourceModel)
    (resp : ResourceResponse IPAliasResourceModel) (e : pfsense.FirewallIPAlias)
    (h0 : Diagnostics.HasError resp.Diagnostics = false)
    (h1 : Diagnostics.HasError req.Plan.diags = false)
    (h2 : Diagnostics.HasError (req.Plan.data.Value ext).2 = false)
    (hv : (req.Plan.data.Value ext).1 = some e) :
    IPAliasResource.Update client ext fw req resp =
      writeSteps fw
        ((resp.AppendDiagnostics req.Plan.diags).AppendDiagnostics (req.Plan.data.Value ext).2)
        req.Plan.data (ClientCall.UpdateFirewallIPAlias e) (client.UpdateFirewallIPAlias e)
        "Error updating IP alias" IPAliasResourceModel.SetFromValue
        (fun d => d.Apply.ValueBool) ClientCall.ReloadFirewallFilter
        client.ReloadFirewallFilter "Error applying IP alias" := by
  have c1 : ¬ Diagnostics.HasError (resp.AppendDiagnostics req.Plan.diags).Diagnostics = true := by
    show ¬ Diagnostics.HasError (Diagnostics.Append resp.Diagnostics req.Plan.diags) = true
    rw [Diagnostics.HasError_Append_of_clean _ _ h0 h1]
    simp
  have c2 : ¬ Diagnostics.HasError
      ((resp.AppendDiagnostics req.Plan.diags).AppendDiagnostics
        (req.Plan.data.Value ext).2).Diagnostics = true := by
    show ¬ Diagnostics.HasError
      (Diagnostics.Append (Diagnostics.Append resp.Diagnostics req.Plan.diags)
        (req.Plan.data.Value ext).2) = true
    rw [Diagnostics.HasError_Append_of_clean _ _
      (Diagnostics.HasError_Append_of_clean _ _ h0 h1) h2]
    simp
  unfold IPAliasResource.Update
  simp only []
  rw [if_neg c1, if_neg c2, if_neg c2]
  rw [hv]
  dsimp only
  unfold writeSteps applyStep
  generalize client.UpdateFirewallIPAlias _ = answer
  obtain ⟨val, err⟩ := answer
  cases val <;> rfl

theorem IPAliasResource_Delete_of_clean (client : pfsense.Client)
    (req : DeleteRequest IPAliasResourceModel) (resp : ResourceResponse IPAliasResourceModel)
    (h0 : Diagnostics.HasError resp.Diagnostics = false)
    (h1 : Diagnostics.HasError req.State.diags = false) :
    IPAliasResource.Delete client req resp =
      deleteSteps (resp.AppendDiagnostics req.State.diags)
        (ClientCall.DeleteFirewallIPAlias req.State.data.Name.ValueString)
        (client.DeleteFirewallIPAlias req.State.data.Name.ValueString)
        "Error deleting IP alias" req.State.data.Apply.ValueBool
        ClientCall.ReloadFirewallFilter client.ReloadFirewallFilter "Error applying IP alias" := by
  have c1 : ¬ Diagnostics.HasError (resp.AppendDiagnostics req.State.diags).Diagnostics = true := by
    show ¬ Diagnostics.HasError (Diagnostics.Append resp.Diagnostics req.State.diags) = true
    rw [Diagnostics.HasError_Append_of_clean _ _ h0 h1]
    simp
  unfold IPAliasResource.Delete
  simp only []
  rw [if_neg c1]
  rfl

/-! ## A failed apply after a successful mutation -/

/-- Create and Update, from the client call on, when the call succeeds, the apply
flag is set and the apply fails: the calls are the mutation and the apply, the
state is the one `State.Set` left, and the error of the apply is reported. -/
theorem writeSteps_appliedWithError {Model Entity : Type} (fw : Framework Model)
    (resp entered : ResourceResponse Model) (data : Model) (mutation : ClientCall)
    (result : Option Entity × Option GoError) (summary : String)
    (setFromValue : Model → Entity → Model × Diagnostics) (flag : Model → Bool)
    (apply : ClientCall) (applied : Option GoError) (applySummary : String) (entity : Entity)
    (err : GoError)
    (hpre : Diagnostics.HasError resp.Diagnostics = false) (hst : resp.State = entered.State)
    (hres : result = (some entity, none))
    (hset : Diagnostics.HasError (setFromValue data entity).2 = false)
    (hflag : flag (setFromValue data entity).1 = true)
    (happ : applied = some err) :
    (writeSteps fw resp data mutation result summary setFromValue flag apply applied
      applySummary).AppliedWithError fw entered (setFromValue data entity).1 mutation apply
      applySummary err := by
  refine ⟨writeSteps_applies fw resp data mutation result summary setFromValue flag apply
    applied applySummary entity hpre hres hset hflag, ?_, ?_, ?_⟩
  · rw [writeSteps_succeeded fw resp data mutation result summary setFromValue flag apply applied
      applySummary entity hpre hres hset, applyStep_state]
    simp only [ResourceResponse.StateSet, hst]
  · rw [writeSteps_succeeded fw resp data mutation result summary setFromValue flag apply applied
      applySummary entity hpre hres hset]
    unfold applyStep
    rw [if_pos hflag, happ]
    simp only [AddError, Diagnostics.AddError]
    exact (Diagnostics.mem_Append _ _ _).mpr (Or.inr (List.mem_singleton.mpr rfl))
  · intro hstate
    exact (writeSteps_reportsFailedApply fw resp data mutation result summary setFromValue flag
      apply applied applySummary entity err hpre hres hset hflag happ hstate).2

/-! ## The apply after a successful mutation (claims C13, C14) -/

/-- Claim C13 as amended: for each of the three entity resources and each of
Create, Update and Delete with the apply flag set, two facts.  First, when the
operation is entered with a response, a plan (Delete: a state) and a converted
model that report no error, the client answers the mutation call with success
and then answers the apply call with an error, the client calls are the mutation
followed by the apply, and the state of the response is the one written before
the apply call and left alone by its failure.  For Create and Update that is the
model taken from the persisted entity whenever `State.Set` stored it (reported
no error), and the state as on entry otherwise, the apply being called without a
check of what `State.Set` reported; for Delete the resource is removed.  The
error of the apply is among the diagnostics, under the summary
"Error applying ...", and it is the only error there when `State.Set` reported
none.  Second, the same conclusion holds on every input whenever the mutation
call is among the client calls and was answered with success.  Last, the summary
"Error applying ..." differs from the summaries
"Error creating/updating/deleting ..." of a failed mutation. -/
theorem failed_apply_keeps_mutation :
    ((∀ (client : pfsense.Client) (set : pfsense.ConfigFileSetters)
        (fw : Framework ConfigFileResourceModel) (req : CreateRequest ConfigFileResourceModel)
        (resp : ResourceResponse ConfigFileResourceModel)
        (p : pfsense.ConfigFile) (err : GoError),
      Diagnostics.HasError resp.Diagnostics = false →
      Diagnostics.HasError req.Plan.diags = false →
      Diagnostics.HasError (req.Plan.data.Value set).2 = false →
      client.CreateDNSResolverConfigFile (req.Plan.data.Value set).1 = (some p, none) →
      req.Plan.data.Apply.ValueBool = true →
      client.ApplyDNSResolverChanges = some err →
        (ConfigFileResource.Create client set fw req resp).AppliedWithError fw resp
          (req.Plan.data.SetFromValue p).1 (ClientCall.CreateDNSResolverConfigFile (req.Plan.data.Value set).1)
          ClientCall.ApplyDNSResolverChanges "Error applying config file" err) ∧
     (∀ (client : pfsense.Client) (set : pfsense.ConfigFileSetters)
        (fw : Framework ConfigFileResourceModel) (req : CreateRequest ConfigFileResourceModel)
        (resp : ResourceResponse ConfigFileResourceModel)
        (e p : pfsense.ConfigFile) (err : GoError),
      ClientCall.CreateDNSResolverConfigFile e ∈
        (ConfigFileResource.Create client set fw req resp).calls →
      client.CreateDNSResolverConfigFile e = (some p, none) →
      req.Plan.data.Apply.ValueBool = true →
      client.ApplyDNSResolverChanges = some err →
        (ConfigFileResource.Create client set fw req resp).AppliedWithError fw resp
          (req.Plan.data.SetFromValue p).1 (ClientCall.CreateDNSResolverConfigFile e)
          ClientCall.ApplyDNSResolverChanges "Error applying config file" err)) ∧
    ((∀ (client : pfsense.Client) (set : pfsense.ConfigFileSetters)
        (fw : Framework ConfigFileResourceModel) (req : UpdateRequest ConfigFileResourceModel)
        (resp : ResourceResponse ConfigFileResourceModel)
        (p : pfsense.ConfigFile) (err : GoError),
      Diagnostics.HasError resp.Diagnostics = false →
      Diagnostics.HasError req.Plan.diags = false →
      Diagnostics.HasError (req.Plan.data.Value set).2 = false →
      client.UpdateDNSResolverConfigFile (req.Plan.data.Value set).1 = (some p, none) →
      req.Plan.data.Apply.ValueBool = true →
      client.ApplyDNSResolverChanges = some err →
        (ConfigFileResource.Update client set fw req resp).AppliedWithError fw resp
          (req.Plan.data.SetFromValue p).1 (ClientCall.UpdateDNSResolverConfigFile (req.Plan.data.Value set).1)
          ClientCall.ApplyDNSResolverChanges "Error applying config file" err) ∧
     (∀ (client : pfsense.Client) (set : pfsense.ConfigFileSetters)
        (fw : Framework ConfigFileResourceModel) (req : UpdateRequest ConfigFileResourceModel)
        (resp : ResourceResponse ConfigFileResourceModel)
        (e p : pfsense.ConfigFile) (err : GoError),
      ClientCall.UpdateDNSResolverConfigFile e ∈
        (ConfigFileResource.Update client set fw req resp).calls →
      client.UpdateDNSResolverConfigFile e = (some p, none) →
      req.Plan.data.Apply.ValueBool = true →
      client.ApplyDNSResolverChanges = some err →
        (ConfigFileResource.Update client set fw req resp).AppliedWithError fw resp
          (req.Plan.data.SetFromValue p).1 (ClientCall.UpdateDNSResolverConfigFile e)
          ClientCall.ApplyDNSResolverChanges "Error applying config file" err)) ∧
    ((∀ (client : pfsense.Client) (req : DeleteRequest ConfigFileResourceModel)
        (resp : ResourceResponse ConfigFileResourceModel) (err : GoError),
      Diagnostics.HasError resp.Diagnostics = false →
      Diagnostics.HasError req.State.diags = false →
      client.DeleteDNSResolverConfigFile req.State.data.Name.ValueString = none →
      req.State.data.Apply.ValueBool = true →
      client.ApplyDNSResolverChanges = some err →
        (ConfigFileResource.Delete client req resp).calls =
            [ClientCall.DeleteDNSResolverConfigFile req.State.data.Name.ValueString,
              ClientCall.ApplyDNSResolverChanges] ∧
          (ConfigFileResource.Delete client req resp).ReportsFailedApply none
            "Error applying config file" err) ∧
     (∀ (client : pfsense.Client) (req : DeleteRequest ConfigFileResourceModel)
        (resp : ResourceResponse ConfigFileResourceModel) (key : String) (err : GoError),
      ClientCall.DeleteDNSResolverConfigFile key ∈
        (ConfigFileResource.Delete client req resp).calls →
      client.DeleteDNSResolverConfigFile key = none →
      req.State.data.Apply.ValueBool = true →
      client.ApplyDNSResolverChanges = some err →
        (ConfigFileResource.Delete client req resp).calls =
            [ClientCall.DeleteDNSResolverConfigFile key, ClientCall.ApplyDNSResolverChanges] ∧
          (ConfigFileResource.Delete client req resp).ReportsFailedApply none
            "Error applying config file" err)) ∧
    ((∀ (client : pfsense.Client) (set : pfsense.DomainOverrideSetters)
        (fw : Framework DomainOverrideResourceModel) (req : CreateRequest DomainOverrideResourceModel)
        (resp : ResourceResponse DomainOverrideResourceModel)
        (p : pfsense.DomainOverride) (err : GoError),
      Diagnostics.HasError resp.Diagnostics = false →
      Diagnostics.HasError req.Plan.diags = false →
      Diagnostics.HasError (req.Plan.data.Value set).2 = false →
      client.CreateDNSResolverDomainOverride (req.Plan.data.Value set).1 = (some p, none) →
      req.Plan.data.Apply.ValueBool = true →
      client.ApplyDNSResolverChanges = some err →
        (DomainOverrideResource.Create client set fw req resp).AppliedWithError fw resp
          (req.Plan.data.SetFromValue p).1 (ClientCall.CreateDNSResolverDomainOverride (req.Plan.data.Value set).1)
          ClientCall.ApplyDNSResolverChanges "Error applying domain override" err) ∧
     (∀ (client : pfsense.Client) (set : pfsense.DomainOverrideSetters)
        (fw : Framework DomainOverrideResourceModel) (req : CreateRequest DomainOverrideResourceModel)
        (resp : ResourceResponse DomainOverrideResourceModel)
        (e p : pfsense.DomainOverride) (err : GoError),
      ClientCall.CreateDNSResolverDomainOverride e ∈
        (DomainOverrideResource.Create client set fw req resp).calls →
      client.CreateDNSResolverDomainOverride e = (some p, none) →
      req.Plan.data.Apply.ValueBool = true →
      client.ApplyDNSResolverChanges = some err →
        (DomainOverrideResource.Create client set fw req resp).AppliedWithError fw resp
          (req.Plan.data.SetFromValue p).1 (ClientCall.CreateDNSResolverDomainOverride e)
          ClientCall.ApplyDNSResolverChanges "Error applying domain override" err)) ∧
    ((∀ (client : pfsense.Client) (set : pfsense.DomainOverrideSetters)
        (fw : Framework DomainOverrideResourceModel) (req : UpdateRequest DomainOverrideResourceModel)
        (resp : ResourceResponse DomainOverrideResourceModel)
        (p : pfsense.DomainOverride) (err : GoError),
      Diagnostics.HasError resp.Diagnostics = false →
      Diagnostics.HasError req.Plan.diags = false →
      Diagnostics.HasError (req.Plan.data.Value set).2 = false →
      client.UpdateDNSResolverDomainOverride (req.Plan.data.Value set).1 = (some p, none) →
      req.Plan.data.Apply.ValueBool = true →
      client.ApplyDNSResolverChanges = some err →
        (DomainOverrideResource.Update client set fw req resp).AppliedWithError fw resp
          (req.Plan.data.SetFromValue p).1 (ClientCall.UpdateDNSResolverDomainOverride (req.Plan.data.Value set).1)
          ClientCall.ApplyDNSResolverChanges "Error applying domain override" err) ∧
     (∀ (client : pfsense.Client) (set : pfsense.DomainOverrideSetters)
        (fw : Framework DomainOverrideResourceModel) (req : UpdateRequest DomainOverrideResourceModel)
        (resp : ResourceResponse DomainOverrideResourceModel)
        (e p : pfsense.DomainOverride) (err : GoError),
      ClientCall.UpdateDNSResolverDomainOverride e ∈
        (DomainOverrideResource.Update client set fw req resp).calls →
      client.UpdateDNSResolverDomainOverride e = (some p, none) →
      req.Plan.data.Apply.ValueBool = true →
      client.ApplyDNSResolverChanges = some err →
        (DomainOverrideResource.Update client set fw req resp).AppliedWithError fw resp
          (req.Plan.data.SetFromValue p).1 (ClientCall.UpdateDNSResolverDomainOverride e)
          ClientCall.ApplyDNSResolverChanges "Error applying domain override" err)) ∧
    ((∀ (client : pfsense.Client) (req : DeleteRequest DomainOverrideResourceModel)
        (resp : ResourceResponse DomainOverrideResourceModel) (err : GoError),
      Diagnostics.HasError resp.Diagnostics = false →
      Diagnostics.HasError req.State.diags = false →
      client.DeleteDNSResolverDomainOverride req.State.data.Domain.ValueString = none →
      req.State.data.Apply.ValueBool = true →
      client.ApplyDNSResolverChanges = some err →
        (DomainOverrideResource.Delete client req resp).calls =
            [ClientCall.DeleteDNSResolverDomainOverride req.State.data.Domain.ValueString,
              ClientCall.ApplyDNSResolverChanges] ∧
          (DomainOverrideResource.Delete client req resp).ReportsFailedApply none
            "Error applying domain override" err) ∧
     (∀ (client : pfsense.Client) (req : DeleteRequest DomainOverrideResourceModel)
        (resp : ResourceResponse DomainOverrideResourceModel) (key : String) (err : GoError),
      ClientCall.DeleteDNSResolverDomainOverride key ∈
        (DomainOverrideResource.Delete client req resp).calls →
      client.DeleteDNSResolverDomainOverride key = none →
      req.State.data.Apply.ValueBool = true →
      client.ApplyDNSResolverChanges = some err →
        (DomainOverrideResource.Delete client req resp).calls =
            [ClientCall.DeleteDNSResolverDomainOverride key, ClientCall.ApplyDNSResolverChanges] ∧
          (DomainOverrideResource.Delete client req resp).ReportsFailedApply none
            "Error applying domain override" err)) ∧
    ((∀ (client : pfsense.Client) (ext : IPAliasCollaborators)
        (fw : Framework IPAliasResourceModel) (req : CreateRequest IPAliasResourceModel)
        (resp : ResourceResponse IPAliasResourceModel)
        (e p : pfsense.FirewallIPAlias) (err : GoError),
      Diagnostics.HasError resp.Diagnostics = false →
      Diagnostics.HasError req.Plan.diags = false →
      Diagnostics.HasError (req.Plan.data.Value ext).2 = false →
      (req.Plan.data.Value ext).1 = some e →
      client.CreateFirewallIPAlias e = (some p, none) →
      req.Plan.data.Apply.ValueBool = true →
      client.ReloadFirewallFilter = some err →
        (IPAliasResource.Create client ext fw req resp).AppliedWithError fw resp
          (req.Plan.data.SetFromValue p).1 (ClientCall.CreateFirewallIPAlias e)
          ClientCall.ReloadFirewallFilter "Error applying IP alias" err) ∧
     (∀ (client : pfsense.Client) (ext : IPAliasCollaborators)
        (fw : Framework IPAliasResourceModel) (req : CreateRequest IPAliasResourceModel)
        (resp : ResourceResponse IPAliasResourceModel)
        (e p : pfsense.FirewallIPAlias) (err : GoError),
      ClientCall.CreateFirewallIPAlias e ∈
        (IPAliasResource.Create client ext fw req resp).calls →
      client.CreateFirewallIPAlias e = (some p, none) →
      req.Plan.data.Apply.ValueBool = true →
      client.ReloadFirewallFilter = some err →
        (IPAliasResource.Create client ext fw req resp).AppliedWithError fw resp
          (req.Plan.data.SetFromValue p).1 (ClientCall.CreateFirewallIPAlias e)
          ClientCall.ReloadFirewallFilter "Error applying IP alias" err)) ∧
    ((∀ (client : pfsense.Client) (ext : IPAliasCollaborators)
        (fw : Framework IPAliasResourceModel) (req : UpdateRequest IPAliasResourceModel)
        (resp : ResourceResponse IPAliasResourceModel)
        (e p : pfsense.FirewallIPAlias) (err : GoError),
      Diagnostics.HasError resp.Diagnostics = false →
      Diagnostics.HasError req.Plan.diags = false →
      Diagnostics.HasError (req.Plan.data.Value ext).2 = false →
      (req.Plan.data.Value ext).1 = some e →
      client.UpdateFirewallIPAlias e = (some p, none) →
      req.Plan.data.Apply.ValueBool = true →
      client.ReloadFirewallFilter = some err →
        (IPAliasResource.Update client ext fw req resp).AppliedWithError fw resp
          (req.Plan.data.SetFromValue p).1 (ClientCall.UpdateFirewallIPAlias e)
          ClientCall.ReloadFirewallFilter "Error applying IP alias" err) ∧
     (∀ (client : pfsense.Client) (ext : IPAliasCollaborators)
        (fw : Framework IPAliasResourceModel) (req : UpdateRequest IPAliasResourceModel)
        (resp : ResourceResponse IPAliasResourceModel)
        (e p : pfsense.FirewallIPAlias) (err : GoError),
      ClientCall.UpdateFirewallIPAlias e ∈
        (IPAliasResource.Update client ext fw req resp).calls →
      client.UpdateFirewallIPAlias e = (some p, none) →
      req.Plan.data.Apply.ValueBool = true →
      client.ReloadFirewallFilter = some err →
        (IPAliasResource.Update client ext fw req resp).AppliedWithError fw resp
          (req.Plan.data.SetFromValue p).1 (ClientCall.UpdateFirewallIPAlias e)
          ClientCall.ReloadFirewallFilter "Error applying IP alias" err)) ∧
    ((∀ (client : pfsense.Client) (req : DeleteRequest IPAliasResourceModel)
        (resp : ResourceResponse IPAliasResourceModel) (err : GoError),
      Diagnostics.HasError resp.Diagnostics = false →
      Diagnostics.HasError req.State.diags = false →
      client.DeleteFirewallIPAlias req.State.data.Name.ValueString = none →
      req.State.data.Apply.ValueBool = true →
      client.ReloadFirewallFilter = some err →
        (IPAliasResource.Delete client req resp).calls =
            [ClientCall.DeleteFirewallIPAlias req.State.data.Name.ValueString,
              ClientCall.ReloadFirewallFilter] ∧
          (IPAliasResource.Delete client req resp).ReportsFailedApply none
            "Error applying IP alias" err) ∧
     (∀ (client : pfsense.Client) (req : DeleteRequest IPAliasResourceModel)
        (resp : ResourceResponse IPAliasResourceModel) (key : String) (err : GoError),
      ClientCall.DeleteFirewallIPAlias key ∈
        (IPAliasResource.Delete client req resp).calls →
      client.DeleteFirewallIPAlias key = none →
      req.State.data.Apply.ValueBool = true →
      client.ReloadFirewallFilter = some err →
        (IPAliasResource.Delete client req resp).calls =
            [ClientCall.DeleteFirewallIPAlias key, ClientCall.ReloadFirewallFilter] ∧
          (IPAliasResource.Delete client req resp).ReportsFailedApply none
            "Error applying IP alias" err)) ∧
    (∀ (err err' : GoError),
      (errorDiagnostic "Error applying config file" err).Summary ≠
        (errorDiagnostic "Error creating config file" err').Summary ∧
      (errorDiagnostic "Error applying config file" err).Summary ≠
        (errorDiagnostic "Error updating config file" err').Summary ∧
      (errorDiagnostic "Error applying config file" err).Summary ≠
        (errorDiagnostic "Error deleting config file" err').Summary ∧
      (errorDiagnostic "Error applying domain override" err).Summary ≠
        (errorDiagnostic "Error creating domain override" err').Summary ∧
      (errorDiagnostic "Error applying domain override" err).Summary ≠
        (errorDiagnostic "Error updating domain override" err').Summary ∧
      (errorDiagnostic "Error applying domain override" err).Summary ≠
        (errorDiagnostic "Error deleting domain override" err').Summary ∧
      (errorDiagnostic "Error applying IP alias" err).Summary ≠
        (errorDiagnostic "Error creating IP alias" err').Summary ∧
      (errorDiagnostic "Error applying IP alias" err).Summary ≠
        (errorDiagnostic "Error updating IP alias" err').Summary ∧
      (errorDiagnostic "Error applying IP alias" err).Summary ≠
        (errorDiagnostic "Error deleting IP alias" err').Summary) := by
  refine ⟨?_, ?_, ?_, ?_, ?_, ?_, ?_, ?_, ?_, ?_⟩
  · constructor
    · intro client set fw req resp p err h0 h1 h2 hres hflag happ
      rw [ConfigFileResource_Create_of_clean client set fw req resp h0 h1 h2]
      exact writeSteps_appliedWithError _ _ resp _ _ _ _ _ _ _ _ _ p err
        (Diagnostics.HasError_Append_of_clean _ _
        (Diagnostics.HasError_Append_of_clean _ _ h0 h1) h2)
        rfl hres (by rw [ConfigFileResourceModel_SetFromValue_diags]; rfl)
        (by
            show (ConfigFileResourceModel.SetFromValue req.Plan.data p).1.Apply.ValueBool = true
            rw [ConfigFileResourceModel_SetFromValue_Apply]
            exact hflag)
        happ
    · intro client set fw req resp e p err hmem hres hflag happ
      rcases ConfigFileResource_Create_reach client set fw req resp with h | ⟨pre, hpre, hst, heq⟩
      · rw [h] at hmem
        cases hmem
      · rw [heq] at hmem ⊢
        have he := writeSteps_mem hmem
        rcases he with he | he
        swap
        · cases he
        cases he
        exact writeSteps_appliedWithError _ _ resp _ _ _ _ _ _ _ _ _ p err hpre hst hres
          (by rw [ConfigFileResourceModel_SetFromValue_diags]; rfl)
          (by
            show (ConfigFileResourceModel.SetFromValue req.Plan.data p).1.Apply.ValueBool = true
            rw [ConfigFileResourceModel_SetFromValue_Apply]
            exact hflag)
          happ
  · constructor
    · intro client set fw req resp p err h0 h1 h2 hres hflag happ
      rw [ConfigFileResource_Update_of_clean client set fw req resp h0 h1 h2]
      exact writeSteps_appliedWithError _ _ resp _ _ _ _ _ _ _ _ _ p err
        (Diagnostics.HasError_Append_of_clean _ _
        (Diagnostics.HasError_Append_of_clean _ _ h0 h1) h2)
        rfl hres (by rw [ConfigFileResourceModel_SetFromValue_diags]; rfl)
        (by
            show (ConfigFileResourceModel.SetFromValue req.Plan.data p).1.Apply.ValueBool = true
            rw [ConfigFileResourceModel_SetFromValue_Apply]
            exact hflag)
        happ
    · intro client set fw req resp e p err hmem hres hflag happ
      rcases ConfigFileResource_Update_reach client set fw req resp with h | ⟨pre, hpre, hst, heq⟩
      · rw [h] at hmem
        cases hmem
      · rw [heq] at hmem ⊢
        have he := writeSteps_mem hmem
        rcases he with he | he
        swap
        · cases he
        cases he
        exact writeSteps_appliedWithError _ _ resp _ _ _ _ _ _ _ _ _ p err hpre hst hres
          (by rw [ConfigFileResourceModel_SetFromValue_diags]; rfl)
          (by
            show (ConfigFileResourceModel.SetFromValue req.Plan.data p).1.Apply.ValueBool = true
            rw [ConfigFileResourceModel_SetFromValue_Apply]
            exact hflag)
          happ
  · constructor
    · intro client req resp err h0 h1 hres hflag happ
      rw [ConfigFileResource_Delete_of_clean client req resp h0 h1, hres, hflag]
      exact ⟨deleteSteps_applies _ _ _ _ _ _,
        deleteSteps_reportsFailedApply _ _ _ _ _ _ err
          (Diagnostics.HasError_Append_of_clean _ _ h0 h1) happ⟩
    · intro client req resp key err hmem hres hflag happ
      rcases ConfigFileResource_Delete_reach client req resp with h | ⟨pre, hpre, hst, heq⟩
      · rw [h] at hmem
        cases hmem
      · rw [heq] at hmem ⊢
        have he := deleteSteps_mem hmem
        rcases he with he | he
        swap
        · cases he
        rw [← ClientCall.DeleteDNSResolverConfigFile.inj he, hres, hflag]
        exact ⟨deleteSteps_applies _ _ _ _ _ _,
          deleteSteps_reportsFailedApply _ _ _ _ _ _ err hpre happ⟩
  · constructor
    · intro client set fw req resp p err h0 h1 h2 hres hflag happ
      rw [DomainOverrideResource_Create_of_clean client set fw req resp h0 h1 h2]
      exact writeSteps_appliedWithError _ _ resp _ _ _ _ _ _ _ _ _ p err
        (Diagnostics.HasError_Append_of_clean _ _
        (Diagnostics.HasError_Append_of_clean _ _ h0 h1) h2)
        rfl hres (by rw [DomainOverrideResourceModel_SetFromValue_diags]; rfl)
        (by
            show (DomainOverrideResourceModel.SetFromValue req.Plan.data p).1.Apply.ValueBool = true
            rw [DomainOverrideResourceModel_SetFromValue_Apply]
            exact hflag)
        happ
    · intro client set fw req resp e p err hmem hres hflag happ
      rcases DomainOverrideResource_Create_reach client set fw req resp with h | ⟨pre, hpre, hst, heq⟩
      · rw [h] at hmem
        cases hmem
      · rw [heq] at hmem ⊢
        have he := writeSteps_mem hmem
        rcases he with he | he
        swap
        · cases he
        cases he
        exact writeSteps_appliedWithError _ _ resp _ _ _ _ _ _ _ _ _ p err hpre hst hres
          (by rw [DomainOverrideResourceModel_SetFromValue_diags]; rfl)
          (by
            show (DomainOverrideResourceModel.SetFromValue req.Plan.data p).1.Apply.ValueBool = true
            rw [DomainOverrideResourceModel_SetFromValue_Apply]
            exact hflag)
          happ
  · constructor
    · intro client set fw req resp p err h0 h1 h2 hres hflag happ
      rw [DomainOverrideResource_Update_of_clean client set fw req resp h0 h1 h2]
      exact writeSteps_appliedWithError _ _ resp _ _ _ _ _ _ _ _ _ p err
        (Diagnostics.HasError_Append_of_clean _ _
        (Diagnostics.HasError_Append_of_clean _ _ h0 h1) h2)
        rfl hres (by rw [DomainOverrideResourceModel_SetFromValue_diags]; rfl)
        (by
            show (DomainOverrideResourceModel.SetFromValue req.Plan.data p).1.Apply.ValueBool = true
            rw [DomainOverrideResourceModel_SetFromValue_Apply]
            exact hflag)
        happ
    · intro client set fw req resp e p err hmem hres hflag happ
      rcases DomainOverrideResource_Update_reach client set fw req resp with h | ⟨pre, hpre, hst, heq⟩
      · rw [h] at hmem
        cases hmem
      · rw [heq] at hmem ⊢
        have he := writeSteps_mem hmem
        rcases he with he | he
        swap
        · cases he
        cases he
        exact writeSteps_appliedWithError _ _ resp _ _ _ _ _ _ _ _ _ p err hpre hst hres
          (by rw [DomainOverrideResourceModel_SetFromValue_diags]; rfl)
          (by
            show (DomainOverrideResourceModel.SetFromValue req.Plan.data p).1.Apply.ValueBool = true
            rw [DomainOverrideResourceModel_SetFromValue_Apply]
            exact hflag)
          happ
  · constructor
    · intro client req resp err h0 h1 hres hflag happ
      rw [DomainOverrideResource_Delete_of_clean client req resp h0 h1, hres, hflag]
      exact ⟨deleteSteps_applies _ _ _ _ _ _,
        deleteSteps_reportsFailedApply _ _ _ _ _ _ err
          (Diagnostics.HasError_Append_of_clean _ _ h0 h1) happ⟩
    · intro client req resp key err hmem hres hflag happ
      rcases DomainOverrideResource_Delete_reach client req resp with h | ⟨pre, hpre, hst, heq⟩
      · rw [h] at hmem
        cases hmem
      · rw [heq] at hmem ⊢
        have he := deleteSteps_mem hmem
        rcases he with he | he
        swap
        · cases he
        rw [← ClientCall.DeleteDNSResolverDomainOverride.inj he, hres, hflag]
        exact ⟨deleteSteps_applies _ _ _ _ _ _,
          deleteSteps_reportsFailedApply _ _ _ _ _ _ err hpre happ⟩
  · constructor
    · intro client ext fw req resp e p err h0 h1 h2 hv hres hflag happ
      rw [IPAliasResource_Create_of_clean client ext fw req resp e h0 h1 h2 hv]
      exact writeSteps_appliedWithError _ _ resp _ _ _ _ _ _ _ _ _ p err
        (Diagnostics.HasError_Append_of_clean _ _
        (Diagnostics.HasError_Append_of_clean _ _ h0 h1) h2)
        rfl hres (by rw [IPAliasResourceModel_SetFromValue_diags]; rfl)
        (by
            show (IPAliasResourceModel.SetFromValue req.Plan.data p).1.Apply.ValueBool = true
            rw [IPAliasResourceModel_SetFromValue_Apply]
            exact hflag)
        happ
    · intro client ext fw req resp e p err hmem hres hflag happ
      rcases IPAliasResource_Create_reach client ext fw req resp with h | ⟨pre, ipAliasReq, hpre, hst, heq⟩
      · rw [h] at hmem
        cases hmem
      · rw [heq] at hmem ⊢
        have he := writeSteps_mem hmem
        rcases he with he | he
        swap
        · cases he
        cases he
        exact writeSteps_appliedWithError _ _ resp _ _ _ _ _ _ _ _ _ p err hpre hst hres
          (by rw [IPAliasResourceModel_SetFromValue_diags]; rfl)
          (by
            show (IPAliasResourceModel.SetFromValue req.Plan.data p).1.Apply.ValueBool = true
            rw [IPAliasResourceModel_SetFromValue_Apply]
            exact hflag)
          happ
  · constructor
    · intro client ext fw req resp e p err h0 h1 h2 hv hres hflag happ
      rw [IPAliasResource_Update_of_clean client ext fw req resp e h0 h1 h2 hv]
      exact writeSteps_appliedWithError _ _ resp _ _ _ _ _ _ _ _ _ p err
        (Diagnostics.HasError_Append_of_clean _ _
        (Diagnostics.HasError_Append_of_clean _ _ h0 h1) h2)
        rfl hres (by rw [IPAliasResourceModel_SetFromValue_diags]; rfl)
        (by
            show (IPAliasResourceModel.SetFromValue req.Plan.data p).1.Apply.ValueBool = true
            rw [IPAliasResourceModel_SetFromValue_Apply]
            exact hflag)
        happ
    · intro client ext fw req resp e p err hmem hres hflag happ
      rcases IPAliasResource_Update_reach client ext fw req resp with h | ⟨pre, ipAliasReq, hpre, hst, heq⟩
      · rw [h] at hmem
        cases hmem
      · rw [heq] at hmem ⊢
        have he := writeSteps_mem hmem
        rcases he with he | he
        swap
        · cases he
        cases he
        exact writeSteps_appliedWithError _ _ resp _ _ _ _ _ _ _ _ _ p err hpre hst hres
          (by rw [IPAliasResourceModel_SetFromValue_diags]; rfl)
          (by
            show (IPAliasResourceModel.SetFromValue req.Plan.data p).1.Apply.ValueBool = true
            rw [IPAliasResourceModel_SetFromValue_Apply]
            exact hflag)
          happ
  · constructor
    · intro client req resp err h0 h1 hres hflag happ
      rw [IPAliasResource_Delete_of_clean client req resp h0 h1, hres, hflag]
      exact ⟨deleteSteps_applies _ _ _ _ _ _,
        deleteSteps_reportsFailedApply _ _ _ _ _ _ err
          (Diagnostics.HasError_Append_of_clean _ _ h0 h1) happ⟩
    · intro client req resp key err hmem hres hflag happ
      rcases IPAliasResource_Delete_reach client req resp with h | ⟨pre, hpre, hst, heq⟩
      · rw [h] at hmem
        cases hmem
      · rw [heq] at hmem ⊢
        have he := deleteSteps_mem hmem
        rcases he with he | he
        swap
        · cases he
        rw [← ClientCall.DeleteFirewallIPAlias.inj he, hres, hflag]
        exact ⟨deleteSteps_applies _ _ _ _ _ _,
          deleteSteps_reportsFailedApply _ _ _ _ _ _ err hpre happ⟩
  · intro err err'
    simp only [errorDiagnostic, NewErrorDiagnostic]
    decide

/-- Claim C14: for each of the three entity resources and each of Create, Update
and Delete with the apply flag set, two facts.  First, when the operation is
entered with a response, a plan (Delete: a state) and, for Create and Update, a
converted model that report no error, it makes its mutation call, and if the
client answers that call with success the client calls of the operation are
exactly the mutation call followed by one call of the subsystem's apply.
Second, on every input: whenever the mutation call is among the client calls
and the client answers it with success, the client calls are exactly the
mutation call followed by one call of the subsystem's apply.  So the apply is
called once, after the mutation and not before. -/
theorem apply_called_once_after_mutation :
    ((∀ (client : pfsense.Client) (set : pfsense.ConfigFileSetters)
        (fw : Framework ConfigFileResourceModel) (req : CreateRequest ConfigFileResourceModel)
        (resp : ResourceResponse ConfigFileResourceModel)
        (p : pfsense.ConfigFile),
      Diagnostics.HasError resp.Diagnostics = false →
      Diagnostics.HasError req.Plan.diags = false →
      Diagnostics.HasError (req.Plan.data.Value set).2 = false →
      client.CreateDNSResolverConfigFile (req.Plan.data.Value set).1 = (some p, none) →
      req.Plan.data.Apply.ValueBool = true →
        (ConfigFileResource.Create client set fw req resp).calls =
          [ClientCall.CreateDNSResolverConfigFile (req.Plan.data.Value set).1, ClientCall.ApplyDNSResolverChanges]) ∧
     (∀ (client : pfsense.Client) (set : pfsense.ConfigFileSetters)
        (fw : Framework ConfigFileResourceModel) (req : CreateRequest ConfigFileResourceModel)
        (resp : ResourceResponse ConfigFileResourceModel)
        (e p : pfsense.ConfigFile),
      ClientCall.CreateDNSResolverConfigFile e ∈
        (ConfigFileResource.Create client set fw req resp).calls →
      client.CreateDNSResolverConfigFile e = (some p, none) →
      req.Plan.data.Apply.ValueBool = true →
        (ConfigFileResource.Create client set fw req resp).calls =
          [ClientCall.CreateDNSResolverConfigFile e, ClientCall.ApplyDNSResolverChanges])) ∧
    ((∀ (client : pfsense.Client) (set : pfsense.ConfigFileSetters)
        (fw : Framework ConfigFileResourceModel) (req : UpdateRequest ConfigFileResourceModel)
        (resp : ResourceResponse ConfigFileResourceModel)
        (p : pfsense.ConfigFile),
      Diagnostics.HasError resp.Diagnostics = false →
      Diagnostics.HasError req.Plan.diags = false →
      Diagnostics.HasError (req.Plan.data.Value set).2 = false →
      client.UpdateDNSResolverConfigFile (req.Plan.data.Value set).1 = (some p, none) →
      req.Plan.data.Apply.ValueBool = true →
        (ConfigFileResource.Update client set fw req resp).calls =
          [ClientCall.UpdateDNSResolverConfigFile (req.Plan.data.Value set).1, ClientCall.ApplyDNSResolverChanges]) ∧
     (∀ (client : pfsense.Client) (set : pfsense.ConfigFileSetters)
        (fw : Framework ConfigFileResourceModel) (req : UpdateRequest ConfigFileResourceModel)
        (resp : ResourceResponse ConfigFileResourceModel)
        (e p : pfsense.ConfigFile),
      ClientCall.UpdateDNSResolverConfigFile e ∈
        (ConfigFileResource.Update client set fw req resp).calls →
      client.UpdateDNSResolverConfigFile e = (some p, none) →
      req.Plan.data.Apply.ValueBool = true →
        (ConfigFileResource.Update client set fw req resp).calls =
          [ClientCall.UpdateDNSResolverConfigFile e, ClientCall.ApplyDNSResolverChanges])) ∧
    ((∀ (client : pfsense.Client) (req : DeleteRequest ConfigFileResourceModel)
        (resp : ResourceResponse ConfigFileResourceModel),
      Diagnostics.HasError resp.Diagnostics = false →
      Diagnostics.HasError req.State.diags = false →
      client.DeleteDNSResolverConfigFile req.State.data.Name.ValueString = none →
      req.State.data.Apply.ValueBool = true →
        (ConfigFileResource.Delete client req resp).calls =
          [ClientCall.DeleteDNSResolverConfigFile req.State.data.Name.ValueString,
            ClientCall.ApplyDNSResolverChanges]) ∧
     (∀ (client : pfsense.Client) (req : DeleteRequest ConfigFileResourceModel)
        (resp : ResourceResponse ConfigFileResourceModel) (key : String),
      ClientCall.DeleteDNSResolverConfigFile key ∈
        (ConfigFileResource.Delete client req resp).calls →
      client.DeleteDNSResolverConfigFile key = none →
      req.State.data.Apply.ValueBool = true →
        (ConfigFileResource.Delete client req resp).calls =
          [ClientCall.DeleteDNSResolverConfigFile key, ClientCall.ApplyDNSResolverChanges])) ∧
    ((∀ (client : pfsense.Client) (set : pfsense.DomainOverrideSetters)
        (fw : Framework DomainOverrideResourceModel) (req : CreateRequest DomainOverrideResourceModel)
        (resp : ResourceResponse DomainOverrideResourceModel)
        (p : pfsense.DomainOverride),
      Diagnostics.HasError resp.Diagnostics = false →
      Diagnostics.HasError req.Plan.diags = false →
      Diagnostics.HasError (req.Plan.data.Value set).2 = false →
      client.CreateDNSResolverDomainOverride (req.Plan.data.Value set).1 = (some p, none) →
      req.Plan.data.Apply.ValueBool = true →
        (DomainOverrideResource.Create client set fw req resp).calls =
          [ClientCall.CreateDNSResolverDomainOverride (req.Plan.data.Value set).1, ClientCall.ApplyDNSResolverChanges]) ∧
     (∀ (client : pfsense.Client) (set : pfsense.DomainOverrideSetters)
        (fw : Framework DomainOverrideResourceModel) (req : CreateRequest DomainOverrideResourceModel)
        (resp : ResourceResponse DomainOverrideResourceModel)
        (e p : pfsense.DomainOverride),
      ClientCall.CreateDNSResolverDomainOverride e ∈
        (DomainOverrideResource.Create client set fw req resp).calls →
      client.CreateDNSResolverDomainOverride e = (some p, none) →
      req.Plan.data.Apply.ValueBool = true →
        (DomainOverrideResource.Create client set fw req resp).calls =
          [ClientCall.CreateDNSResolverDomainOverride e, ClientCall.ApplyDNSResolverChanges])) ∧
    ((∀ (client : pfsense.Client) (set : pfsense.DomainOverrideSetters)
        (fw : Framework DomainOverrideResourceModel) (req : UpdateRequest DomainOverrideResourceModel)
        (resp : ResourceResponse DomainOverrideResourceModel)
        (p : pfsense.DomainOverride),
      Diagnostics.HasError resp.Diagnostics = false →
      Diagnostics.HasError req.Plan.diags = false →
      Diagnostics.HasError (req.Plan.data.Value set).2 = false →
      client.UpdateDNSResolverDomainOverride (req.Plan.data.Value set).1 = (some p, none) →
      req.Plan.data.Apply.ValueBool = true →
        (DomainOverrideResource.Update client set fw req resp).calls =
          [ClientCall.UpdateDNSResolverDomainOverride (req.Plan.data.Value set).1, ClientCall.ApplyDNSResolverChanges]) ∧
     (∀ (client : pfsense.Client) (set : pfsense.DomainOverrideSetters)
        (fw : Framework DomainOverrideResourceModel) (req : UpdateRequest DomainOverrideResourceModel)
        (resp : ResourceResponse DomainOverrideResourceModel)
        (e p : pfsense.DomainOverride),
      ClientCall.UpdateDNSResolverDomainOverride e ∈
        (DomainOverrideResource.Update client set fw req resp).calls →
      client.UpdateDNSResolverDomainOverride e = (some p, none) →
      req.Plan.data.Apply.ValueBool = true →
        (DomainOverrideResource.Update client set fw req resp).calls =
          [ClientCall.UpdateDNSResolverDomainOverride e, ClientCall.ApplyDNSResolverChanges])) ∧
    ((∀ (client : pfsense.Client) (req : DeleteRequest DomainOverrideResourceModel)
        (resp : ResourceResponse DomainOverrideResourceModel),
      Diagnostics.HasError resp.Diagnostics = false →
      Diagnostics.HasError req.State.diags = false →
      client.DeleteDNSResolverDomainOverride req.State.data.Domain.ValueString = none →
      req.State.data.Apply.ValueBool = true →
        (DomainOverrideResource.Delete client req resp).calls =
          [ClientCall.DeleteDNSResolverDomainOverride req.State.data.Domain.ValueString,
            ClientCall.ApplyDNSResolverChanges]) ∧
     (∀ (client : pfsense.Client) (req : DeleteRequest DomainOverrideResourceModel)
        (resp : ResourceResponse DomainOverrideResourceModel) (key : String),
      ClientCall.DeleteDNSResolverDomainOverride key ∈
        (DomainOverrideResource.Delete client req resp).calls →
      client.DeleteDNSResolverDomainOverride key = none →
      req.State.data.Apply.ValueBool = true →
        (DomainOverrideResource.Delete client req resp).calls =
          [ClientCall.DeleteDNSResolverDomainOverride key, ClientCall.ApplyDNSResolverChanges])) ∧
    ((∀ (client : pfsense.Client) (ext : IPAliasCollaborators)
        (fw : Framework IPAliasResourceModel) (req : CreateRequest IPAliasResourceModel)
        (resp : ResourceResponse IPAliasResourceModel)
        (e p : pfsense.FirewallIPAlias),
      Diagnostics.HasError resp.Diagnostics = false →
      Diagnostics.HasError req.Plan.diags = false →
      Diagnostics.HasError (req.Plan.data.Value ext).2 = false →
      (req.Plan.data.Value ext).1 = some e →
      client.CreateFirewallIPAlias e = (some p, none) →
      req.Plan.data.Apply.ValueBool = true →
        (IPAliasResource.Create client ext fw req resp).calls =
          [ClientCall.CreateFirewallIPAlias e, ClientCall.ReloadFirewallFilter]) ∧
     (∀ (client : pfsense.Client) (ext : IPAliasCollaborators)
        (fw : Framework IPAliasResourceModel) (req : CreateRequest IPAliasResourceModel)
        (resp : ResourceResponse IPAliasResourceModel)
        (e p : pfsense.FirewallIPAlias),
      ClientCall.CreateFirewallIPAlias e ∈
        (IPAliasResource.Create client ext fw req resp).calls →
      client.CreateFirewallIPAlias e = (some p, none) →
      req.Plan.data.Apply.ValueBool = true →
        (IPAliasResource.Create client ext fw req resp).calls =
          [ClientCall.CreateFirewallIPAlias e, ClientCall.ReloadFirewallFilter])) ∧
    ((∀ (client : pfsense.Client) (ext : IPAliasCollaborators)
        (fw : Framework IPAliasResourceModel) (req : UpdateRequest IPAliasResourceModel)
        (resp : ResourceResponse IPAliasResourceModel)
        (e p : pfsense.FirewallIPAlias),
      Diagnostics.HasError resp.Diagnostics = false →
      Diagnostics.HasError req.Plan.diags = false →
      Diagnostics.HasError (req.Plan.data.Value ext).2 = false →
      (req.Plan.data.Value ext).1 = some e →
      client.UpdateFirewallIPAlias e = (some p, none) →
      req.Plan.data.Apply.ValueBool = true →
        (IPAliasResource.Update client ext fw req resp).calls =
          [ClientCall.UpdateFirewallIPAlias e, ClientCall.ReloadFirewallFilter]) ∧
     (∀ (client : pfsense.Client) (ext : IPAliasCollaborators)
        (fw : Framework IPAliasResourceModel) (req : UpdateRequest IPAliasResourceModel)
        (resp : ResourceResponse IPAliasResourceModel)
        (e p : pfsense.FirewallIPAlias),
      ClientCall.UpdateFirewallIPAlias e ∈
        (IPAliasResource.Update client ext fw req resp).calls →
      client.UpdateFirewallIPAlias e = (some p, none) →
      req.Plan.data.Apply.ValueBool = true →
        (IPAliasResource.Update client ext fw req resp).calls =
          [ClientCall.UpdateFirewallIPAlias e, ClientCall.ReloadFirewallFilter])) ∧
    ((∀ (client : pfsense.Client) (req : DeleteRequest IPAliasResourceModel)
        (resp : ResourceResponse IPAliasResourceModel),
      Diagnostics.HasError resp.Diagnostics = false →
      Diagnostics.HasError req.State.diags = false →
      client.DeleteFirewallIPAlias req.State.data.Name.ValueString = none →
      req.State.data.Apply.ValueBool = true →
        (IPAliasResource.Delete client req resp).calls =
          [ClientCall.DeleteFirewallIPAlias req.State.data.Name.ValueString,
            ClientCall.ReloadFirewallFilter]) ∧
     (∀ (client : pfsense.Client) (req : DeleteRequest IPAliasResourceModel)
        (resp : ResourceResponse IPAliasResourceModel) (key : String),
      ClientCall.DeleteFirewallIPAlias key ∈
        (IPAliasResource.Delete client req resp).calls →
      client.DeleteFirewallIPAlias key = none →
      req.State.data.Apply.ValueBool = true →
        (IPAliasResource.Delete client req resp).calls =
          [ClientCall.DeleteFirewallIPAlias key, ClientCall.ReloadFirewallFilter])) := by
  refine ⟨?_, ?_, ?_, ?_, ?_, ?_, ?_, ?_, ?_⟩
  · constructor
    · intro client set fw req resp p h0 h1 h2 hres hflag
      rw [ConfigFileResource_Create_of_clean client set fw req resp h0 h1 h2]
      exact writeSteps_applies _ _ _ _ _ _ _ _ _ _ _ p
        (Diagnostics.HasError_Append_of_clean _ _
        (Diagnostics.HasError_Append_of_clean _ _ h0 h1) h2)
        hres (by rw [ConfigFileResourceModel_SetFromValue_diags]; rfl)
        (by
            show (ConfigFileResourceModel.SetFromValue req.Plan.data p).1.Apply.ValueBool = true
            rw [ConfigFileResourceModel_SetFromValue_Apply]
            exact hflag)
    · intro client set fw req resp e p hmem hres hflag
      rcases ConfigFileResource_Create_reach client set fw req resp with h | ⟨pre, hpre, hst, heq⟩
      · rw [h] at hmem
        cases hmem
      · rw [heq] at hmem ⊢
        have he := writeSteps_mem hmem
        rcases he with he | he
        swap
        · cases he
        cases he
        exact writeSteps_applies _ _ _ _ _ _ _ _ _ _ _ p hpre hres
          (by rw [ConfigFileResourceModel_SetFromValue_diags]; rfl)
          (by
            show (ConfigFileResourceModel.SetFromValue req.Plan.data p).1.Apply.ValueBool = true
            rw [ConfigFileResourceModel_SetFromValue_Apply]
            exact hflag)
  · constructor
    · intro client set fw req resp p h0 h1 h2 hres hflag
      rw [ConfigFileResource_Update_of_clean client set fw req resp h0 h1 h2]
      exact writeSteps_applies _ _ _ _ _ _ _ _ _ _ _ p
        (Diagnostics.HasError_Append_of_clean _ _
        (Diagnostics.HasError_Append_of_clean _ _ h0 h1) h2)
        hres (by rw [ConfigFileResourceModel_SetFromValue_diags]; rfl)
        (by
            show (ConfigFileResourceModel.SetFromValue req.Plan.data p).1.Apply.ValueBool = true
            rw [ConfigFileResourceModel_SetFromValue_Apply]
            exact hflag)
    · intro client set fw req resp e p hmem hres hflag
      rcases ConfigFileResource_Update_reach client set fw req resp with h | ⟨pre, hpre, hst, heq⟩
      · rw [h] at hmem
        cases hmem
      · rw [heq] at hmem ⊢
        have he := writeSteps_mem hmem
        rcases he with he | he
        swap
        · cases he
        cases he
        exact writeSteps_applies _ _ _ _ _ _ _ _ _ _ _ p hpre hres
          (by rw [ConfigFileResourceModel_SetFromValue_diags]; rfl)
          (by
            show (ConfigFileResourceModel.SetFromValue req.Plan.data p).1.Apply.ValueBool = true
            rw [ConfigFileResourceModel_SetFromValue_Apply]
            exact hflag)
  · constructor
    · intro client req resp h0 h1 hres hflag
      rw [ConfigFileResource_Delete_of_clean client req resp h0 h1, hres, hflag]
      exact deleteSteps_applies _ _ _ _ _ _
    · intro client req resp key hmem hres hflag
      rcases ConfigFileResource_Delete_reach client req resp with h | ⟨pre, hpre, hst, heq⟩
      · rw [h] at hmem
        cases hmem
      · rw [heq] at hmem ⊢
        have he := deleteSteps_mem hmem
        rcases he with he | he
        swap
        · cases he
        rw [← ClientCall.DeleteDNSResolverConfigFile.inj he, hres, hflag]
        exact deleteSteps_applies _ _ _ _ _ _
  · constructor
    · intro client set fw req resp p h0 h1 h2 hres hflag
      rw [DomainOverrideResource_Create_of_clean client set fw req resp h0 h1 h2]
      exact writeSteps_applies _ _ _ _ _ _ _ _ _ _ _ p
        (Diagnostics.HasError_Append_of_clean _ _
        (Diagnostics.HasError_Append_of_clean _ _ h0 h1) h2)
        hres (by rw [DomainOverrideResourceModel_SetFromValue_diags]; rfl)
        (by
            show (DomainOverrideResourceModel.SetFromValue req.Plan.data p).1.Apply.ValueBool = true
            rw [DomainOverrideResourceModel_SetFromValue_Apply]
            exact hflag)
    · intro client set fw req resp e p hmem hres hflag
      rcases DomainOverrideResource_Create_reach client set fw req resp with h | ⟨pre, hpre, hst, heq⟩
      · rw [h] at hmem
        cases hmem
      · rw [heq] at hmem ⊢
        have he := writeSteps_mem hmem
        rcases he with he | he
        swap
        · cases he
        cases he
        exact writeSteps_applies _ _ _ _ _ _ _ _ _ _ _ p hpre hres
          (by rw [DomainOverrideResourceModel_SetFromValue_diags]; rfl)
          (by
            show (DomainOverrideResourceModel.SetFromValue req.Plan.data p).1.Apply.ValueBool = true
            rw [DomainOverrideResourceModel_SetFromValue_Apply]
            exact hflag)
  · constructor
    · intro client set fw req resp p h0 h1 h2 hres hflag
      rw [DomainOverrideResource_Update_of_clean client set fw req resp h0 h1 h2]
      exact writeSteps_applies _ _ _ _ _ _ _ _ _ _ _ p
        (Diagnostics.HasError_Append_of_clean _ _
        (Diagnostics.HasError_Append_of_clean _ _ h0 h1) h2)
        hres (by rw [DomainOverrideResourceModel_SetFromValue_diags]; rfl)
        (by
            show (DomainOverrideResourceModel.SetFromValue req.Plan.data p).1.Apply.ValueBool = true
            rw [DomainOverrideResourceModel_SetFromValue_Apply]
            exact hflag)
    · intro client set fw req resp e p hmem hres hflag
      rcases DomainOverrideResource_Update_reach client set fw req resp with h | ⟨pre, hpre, hst, heq⟩
      · rw [h] at hmem
        cases hmem
      · rw [heq] at hmem ⊢
        have he := writeSteps_mem hmem
        rcases he with he | he
        swap
        · cases he
        cases he
        exact writeSteps_applies _ _ _ _ _ _ _ _ _ _ _ p hpre hres
          (by rw [DomainOverrideResourceModel_SetFromValue_diags]; rfl)
          (by
            show (DomainOverrideResourceModel.SetFromValue req.Plan.data p).1.Apply.ValueBool = true
            rw [DomainOverrideResourceModel_SetFromValue_Apply]
            exact hflag)
  · constructor
    · intro client req resp h0 h1 hres hflag
      rw [DomainOverrideResource_Delete_of_clean client req resp h0 h1, hres, hflag]
      exact deleteSteps_applies _ _ _ _ _ _
    · intro client req resp key hmem hres hflag
      rcases DomainOverrideResource_Delete_reach client req resp with h | ⟨pre, hpre, hst, heq⟩
      · rw [h] at hmem
        cases hmem
      · rw [heq] at hmem ⊢
        have he := deleteSteps_mem hmem
        rcases he with he | he
        swap
        · cases he
        rw [← ClientCall.DeleteDNSResolverDomainOverride.inj he, hres, hflag]
        exact deleteSteps_applies _ _ _ _ _ _
  · constructor
    · intro client ext fw req resp e p h0 h1 h2 hv hres hflag
      rw [IPAliasResource_Create_of_clean client ext fw req resp e h0 h1 h2 hv]
      exact writeSteps_applies _ _ _ _ _ _ _ _ _ _ _ p
        (Diagnostics.HasError_Append_of_clean _ _
        (Diagnostics.HasError_Append_of_clean _ _ h0 h1) h2)
        hres (by rw [IPAliasResourceModel_SetFromValue_diags]; rfl)
        (by
            show (IPAliasResourceModel.SetFromValue req.Plan.data p).1.Apply.ValueBool = true
            rw [IPAliasResourceModel_SetFromValue_Apply]
            exact hflag)
    · intro client ext fw req resp e p hmem hres hflag
      rcases IPAliasResource_Create_reach client ext fw req resp with h | ⟨pre, ipAliasReq, hpre, hst, heq⟩
      · rw [h] at hmem
        cases hmem
      · rw [heq] at hmem ⊢
        have he := writeSteps_mem hmem
        rcases he with he | he
        swap
        · cases he
        cases he
        exact writeSteps_applies _ _ _ _ _ _ _ _ _ _ _ p hpre hres
          (by rw [IPAliasResourceModel_SetFromValue_diags]; rfl)
          (by
            show (IPAliasResourceModel.SetFromValue req.Plan.data p).1.Apply.ValueBool = true
            rw [IPAliasResourceModel_SetFromValue_Apply]
            exact hflag)
  · constructor
    · intro client ext fw req resp e p h0 h1 h2 hv hres hflag
      rw [IPAliasResource_Update_of_clean client ext fw req resp e h0 h1 h2 hv]
      exact writeSteps_applies _ _ _ _ _ _ _ _ _ _ _ p
        (Diagnostics.HasError_Append_of_clean _ _
        (Diagnostics.HasError_Append_of_clean _ _ h0 h1) h2)
        hres (by rw [IPAliasResourceModel_SetFromValue_diags]; rfl)
        (by
            show (IPAliasResourceModel.SetFromValue req.Plan.data p).1.Apply.ValueBool = true
            rw [IPAliasResourceModel_SetFromValue_Apply]
            exact hflag)
    · intro client ext fw req resp e p hmem hres hflag
      rcases IPAliasResource_Update_reach client ext fw req resp with h | ⟨pre, ipAliasReq, hpre, hst, heq⟩
      · rw [h] at hmem
        cases hmem
      · rw [heq] at hmem ⊢
        have he := writeSteps_mem hmem
        rcases he with he | he
        swap
        · cases he
        cases he
        exact writeSteps_applies _ _ _ _ _ _ _ _ _ _ _ p hpre hres
          (by rw [IPAliasResourceModel_SetFromValue_diags]; rfl)
          (by
            show (IPAliasResourceModel.SetFromValue req.Plan.data p).1.Apply.ValueBool = true
            rw [IPAliasResourceModel_SetFromValue_Apply]
            exact hflag)
  · constructor
    · intro client req resp h0 h1 hres hflag
      rw [IPAliasResource_Delete_of_clean client req resp h0 h1, hres, hflag]
      exact deleteSteps_applies _ _ _ _ _ _
    · intro client req resp key hmem hres hflag
      rcases IPAliasResource_Delete_reach client req resp with h | ⟨pre, hpre, hst, heq⟩
      · rw [h] at hmem
        cases hmem
      · rw [heq] at hmem ⊢
        have he := deleteSteps_mem hmem
        rcases he with he | he
        swap
        · cases he
        rw [← ClientCall.DeleteFirewallIPAlias.inj he, hres, hflag]
        exact deleteSteps_applies _ _ _ _ _ _

/-- Claim C13 as stated fails: when `State.Set` reports an error, the framework
stores nothing, the operation calls the apply all the same, and after the apply
has failed the state of the response is still the null state, not the model
taken from the persisted entity. -/
theorem failed_apply_state_counterexample :
    Diagnostics.HasError (customConf.Value lenientConfigFileSetters).2 = false ∧
    unappliedBackend.CreateDNSResolverConfigFile (customConf.Value lenientConfigFileSetters).1 =
      (some { Name := "custom.conf", Content := "server:\n verbosity: 1" }, none) ∧
    customConf.Apply.ValueBool = true ∧
    unappliedBackend.ApplyDNSResolverChanges = some (GoError.new "resolver reload failed") ∧
    (ConfigFileResource.Create unappliedBackend lenientConfigFileSetters
        (refusingFramework ConfigFileResourceModel)
        { Plan := { data := customConf, diags := [] } }
        (freshResponse ConfigFileResourceModel)).calls =
      [ClientCall.CreateDNSResolverConfigFile
          { Name := "custom.conf", Content := "server:\n verbosity: 1" },
        ClientCall.ApplyDNSResolverChanges] ∧
    (ConfigFileResource.Create unappliedBackend lenientConfigFileSetters
        (refusingFramework ConfigFileResourceModel)
        { Plan := { data := customConf, diags := [] } }
        (freshResponse ConfigFileResourceModel)).resp.State = none ∧
    (ConfigFileResource.Create unappliedBackend lenientConfigFileSetters
        (refusingFramework ConfigFileResourceModel)
        { Plan := { data := customConf, diags := [] } }
        (freshResponse ConfigFileResourceModel)).resp.State ≠
      some (customConf.SetFromValue
        { Name := "custom.conf", Content := "server:\n verbosity: 1" }).1 := by
  decide

/-- Instance of claim C13 as amended: the config file "custom.conf" is created
and stored and the resolver apply fails afterwards; the IP alias "blocklist" and
the domain override "internal.example" are deleted and the apply of the
subsystem fails afterwards. -/
theorem failed_apply_keeps_mutation_witness :
    (ConfigFileResource.Create unappliedBackend lenientConfigFileSetters
        (storingFramework ConfigFileResourceModel)
        { Plan := { data := customConf, diags := [] } }
        (freshResponse ConfigFileResourceModel)).AppliedWithError
      (storingFramework ConfigFileResourceModel) (freshResponse ConfigFileResourceModel)
      (customConf.SetFromValue { Name := "custom.conf", Content := "server:\n verbosity: 1" }).1
      (ClientCall.CreateDNSResolverConfigFile (customConf.Value lenientConfigFileSetters).1)
      ClientCall.ApplyDNSResolverChanges "Error applying config file"
      (GoError.new "resolver reload failed") ∧
    (ConfigFileResource.Create unappliedBackend lenientConfigFileSetters
        (storingFramework ConfigFileResourceModel)
        { Plan := { data := customConf, diags := [] } }
        (freshResponse ConfigFileResourceModel)).resp.State = some customConf ∧
    ((IPAliasResource.Delete unappliedBackend
        { State := { data := appliedBlocklist, diags := [] } }
        { Diagnostics := [], State := some appliedBlocklist }).calls =
        [ClientCall.DeleteFirewallIPAlias "blocklist", ClientCall.ReloadFirewallFilter] ∧
      (IPAliasResource.Delete unappliedBackend
        { State := { data := appliedBlocklist, diags := [] } }
        { Diagnostics := [], State := some appliedBlocklist }).ReportsFailedApply none
        "Error applying IP alias" (GoError.new "filter reload failed")) ∧
    (ClientCall.DeleteDNSResolverDomainOverride "internal.example" ∈
        (DomainOverrideResource.Delete unappliedBackend
          { State := { data := describedOverride, diags := [] } }
          { Diagnostics := [], State := some describedOverride }).calls ∧
      (DomainOverrideResource.Delete unappliedBackend
          { State := { data := describedOverride, diags := [] } }
          { Diagnostics := [], State := some describedOverride }).ReportsFailedApply none
        "Error applying domain override" (GoError.new "resolver reload failed")) :=
  ⟨failed_apply_keeps_mutation.1.1 unappliedBackend lenientConfigFileSetters
      (storingFramework ConfigFileResourceModel)
      { Plan := { data := customConf, diags := [] } }
      (freshResponse ConfigFileResourceModel)
      { Name := "custom.conf", Content := "server:\n verbosity: 1" }
      (GoError.new "resolver reload failed") rfl rfl rfl rfl rfl rfl,
    by decide,
    failed_apply_keeps_mutation.2.2.2.2.2.2.2.2.1.1 unappliedBackend
      { State := { data := appliedBlocklist, diags := [] } }
      { Diagnostics := [], State := some appliedBlocklist }
      (GoError.new "filter reload failed") rfl rfl rfl rfl rfl,
    by decide,
    (failed_apply_keeps_mutation.2.2.2.2.2.1.2 unappliedBackend
      { State := { data := describedOverride, diags := [] } }
      { Diagnostics := [], State := some describedOverride } "internal.example"
      (GoError.new "resolver reload failed") (by decide) rfl rfl rfl).2⟩

/-- Instance of claim C14: creating the config file "custom.conf", deleting the
domain override "internal.example", updating the IP alias "blocklist" and
updating the config file "custom.conf", each with `apply = true`, issue the
mutation call and then the apply of the subsystem. -/
theorem apply_called_once_after_mutation_witness :
    (ConfigFileResource.Create acceptingBackend lenientConfigFileSetters
        (storingFramework ConfigFileResourceModel)
        { Plan := { data := customConf, diags := [] } }
        (freshResponse ConfigFileResourceModel)).calls =
      [ClientCall.CreateDNSResolverConfigFile
          { Name := "custom.conf", Content := "server:\n verbosity: 1" },
        ClientCall.ApplyDNSResolverChanges] ∧
    (DomainOverrideResource.Delete acceptingBackend
        { State := { data := describedOverride, diags := [] } }
        { Diagnostics := [], State := some describedOverride }).calls =
      [ClientCall.DeleteDNSResolverDomainOverride "internal.example",
        ClientCall.ApplyDNSResolverChanges] ∧
    (IPAliasResource.Update acceptingBackend lenientIPAliasCollaborators
        (storingFramework IPAliasResourceModel)
        { Plan := { data := appliedBlocklist, diags := [] } }
        { Diagnostics := [], State := some appliedBlocklist }).calls =
      [ClientCall.UpdateFirewallIPAlias
          { Name := "blocklist", Description := "", Type_ := "network", Entries := [] },
        ClientCall.ReloadFirewallFilter] ∧
    (ClientCall.UpdateDNSResolverConfigFile
          { Name := "custom.conf", Content := "server:\n verbosity: 1" } ∈
        (ConfigFileResource.Update acceptingBackend lenientConfigFileSetters
          (storingFramework ConfigFileResourceModel)
          { Plan := { data := customConf, diags := [] } }
          { Diagnostics := [], State := some customConf }).calls ∧
      (ConfigFileResource.Update acceptingBackend lenientConfigFileSetters
          (storingFramework ConfigFileResourceModel)
          { Plan := { data := customConf, diags := [] } }
          { Diagnostics := [], State := some customConf }).calls =
        [ClientCall.UpdateDNSResolverConfigFile
            { Name := "custom.conf", Content := "server:\n verbosity: 1" },
          ClientCall.ApplyDNSResolverChanges]) :=
  ⟨apply_called_once_after_mutation.1.1 acceptingBackend lenientConfigFileSetters
      (storingFramework ConfigFileResourceModel)
      { Plan := { data := customConf, diags := [] } }
      (freshResponse ConfigFileResourceModel)
      { Name := "custom.conf", Content := "server:\n verbosity: 1" } rfl rfl rfl rfl rfl,
    apply_called_once_after_mutation.2.2.2.2.2.1.1 acceptingBackend
      { State := { data := describedOverride, diags := [] } }
      { Diagnostics := [], State := some describedOverride } rfl rfl rfl rfl,
    apply_called_once_after_mutation.2.2.2.2.2.2.2.1.1 acceptingBackend
      lenientIPAliasCollaborators (storingFramework IPAliasResourceModel)
      { Plan := { data := appliedBlocklist, diags := [] } }
      { Diagnostics := [], State := some appliedBlocklist }
      { Name := "blocklist", Description := "", Type_ := "network", Entries := [] }
      { Name := "blocklist", Description := "", Type_ := "network", Entries := [] }
      rfl rfl rfl rfl rfl rfl,
    by decide,
    apply_called_once_after_mutation.2.1.2 acceptingBackend lenientConfigFileSetters
      (storingFramework ConfigFileResourceModel)
      { Plan := { data := customConf, diags := [] } }
      { Diagnostics := [], State := some customConf }
      { Name := "custom.conf", Content := "server:\n verbosity: 1" }
      { Name := "custom.conf", Content := "server:\n verbosity: 1" } (by decide) rfl rfl⟩

/-! ## A cancelled context at the largest `int` (claim C6) -/

/-- Claim C6, at the input where the code departs from it: with `maxAttempts`
equal to the largest `int` and a request whose context is already cancelled,
the loop body never runs, the context is never read, and `DoWithRetries`
returns the exhaustion error after no call at all, not the cancellation error
after one attempt. -/
theorem DoWithRetries_cancelled_MaxInt :
    cancelledRequest.ctxErr 0 = some (GoError.sentinel "context.Canceled") ∧
    DoWithRetries notImplementedClient cancelledRequest MaxInt =
      { res := none, err := some errExhausted, count := 0 } ∧
    DoWithRetries notImplementedClient cancelledRequest MaxInt ≠
      { res := none, err := some (GoError.sentinel "context.Canceled"), count := 1 } := by
  refine ⟨rfl, DoWithRetries_MaxInt_no_call _ _, ?_⟩
  rw [DoWithRetries_MaxInt_no_call]
  decide

end pfsenseclient
